import Mathlib

/-!
# KStars star component: index, reindexing and query engine

A shallow embedding of `kstars/skycomponents/starcomponent.cpp`.

Conventions of the embedding

* Magnitudes, angular distances, zoom values and Julian centuries are `float`/`double`
  in the source; they are embedded as exact rationals (`ℚ`), so rounding and NaN are
  outside the model.
* A `StarList` is a `QList<StarObject*>`: a list of pointers, each of which may be null
  (the loops test `!curStar`), hence `List (Option StarObject)`.
* `QList::at(i)` with an index out of range has no defined result; the functions that
  index `m_starIndex` return `none` in that case.
* Functions and macros of the repository that are not in the embedded file
  (`SkyMesh::indexStar`, `HighPMStarList::reindex`, `DeepStarComponent::objectNearest`,
  `DeepStarComponent::findByHDIndex`, `angularDistanceTo`, `log10`, `MINZOOM`, `MAXZOOM`,
  `MAX_LINENUMBER_MAG`, the name accessors of `SkyObject` and `StarObject`,
  `QString::compare`) are taken as parameters.
* The conversion `int( x )` of a floating-point value is truncation toward zero on exact
  rationals; values outside the range of `int` are outside the model.
* The block cache (`StarBlockFactory`) is not in the embedded file; the definitions about
  it are modelled from the specification and say so.
-/

namespace KStars

/-! ## Data model -/

/-- Integer id of a mesh cell. -/
abbrev Trixel := Nat

/-- Modelled from the spec: the time-dependent numbers object (`KSNumbers`); the only
accessor the star component calls is `julianCenturies()`. -/
structure KSNumbers where
  julianCenturies : ℚ
deriving DecidableEq, Repr

/-- Modelled from the spec: a position on the sky (`SkyPoint`), in degrees. -/
structure SkyPoint where
  ra : ℚ
  dec : ℚ
deriving DecidableEq, Repr

/-- Modelled from the spec: a catalog record (`StarObject`): names, magnitude,
reference-epoch position, proper motion and cross-reference (HD) id.  The lazily
recomputed apparent-position cache (`updateID`, refreshed by `JITupdate`) is not part of
the record value: refreshing it changes none of the fields below. -/
structure StarObject where
  name : String
  mag : ℚ
  gname : String := ""
  ra : ℚ := 0
  dec : ℚ := 0
  pmRA : ℚ := 0
  pmDec : ℚ := 0
  hd : Nat := 0
deriving DecidableEq, Repr

/-- One cell's record list, `StarList = QList<StarObject*>`; `none` is a null pointer. -/
abbrev StarList := List (Option StarObject)

/-- The base index, `StarIndex = QVector<StarList*>`, one list per trixel. -/
abbrev StarIndex := List StarList

/-- The non-null records of a cell, in list order. -/
def records (l : StarList) : List StarObject := l.filterMap id

/-- A cell is sorted when its non-null records come in non-decreasing magnitude. -/
def magSorted (l : StarList) : Prop := (records l).Pairwise (fun a b => a.mag ≤ b.mag)

instance (l : StarList) : Decidable (magSorted l) := by unfold magSorted; infer_instance

/-! ## The draw pass (`StarComponent::draw`, the loop for drawing star images) -/

/-- The values `draw` computes before its loop and reads inside it. -/
structure DrawSettings where
  maglim : ℚ
  hideFaintStars : Bool := false
  hideStarsMag : ℚ := 0
  hideLabels : Bool := true
  labelMagLim : ℚ := 0
deriving DecidableEq, Repr

/-- What the loop produces: the stars handed to `curStar->draw`, in call order, the
counter `visibleStarCount` and the stars handed to `addLabel`, in call order. -/
structure DrawPass where
  drawn : List StarObject := []
  visibleStarCount : Nat := 0
  labelled : List StarObject := []
deriving DecidableEq, Repr

/-- The inner loop `for (int i=0; i < starList->size(); ++i)` of `draw`, on the part of
the list not yet visited.  `checkVisibility` is `map->checkVisibility(curStar)` and
`onScreen` is `map->onScreen(map->toScreen(curStar))`. -/
def drawStarList (o : DrawSettings) (checkVisibility onScreen : StarObject → Bool) :
    StarList → DrawPass → DrawPass
  | [], acc => acc
  | none :: rest, acc => drawStarList o checkVisibility onScreen rest acc
  | some curStar :: rest, acc =>
    -- break loop if maglim is reached
    if curStar.mag > o.maglim ∨ (o.hideFaintStars = true ∧ curStar.mag > o.hideStarsMag) then
      acc
    else if checkVisibility curStar = false then
      drawStarList o checkVisibility onScreen rest acc
    else if onScreen curStar = false then
      drawStarList o checkVisibility onScreen rest acc
    else
      let acc1 : DrawPass :=
        { acc with drawn := acc.drawn ++ [curStar], visibleStarCount := acc.visibleStarCount + 1 }
      if o.hideLabels = true ∨ curStar.mag > o.labelMagLim then
        drawStarList o checkVisibility onScreen rest acc1
      else
        drawStarList o checkVisibility onScreen rest
          { acc1 with labelled := acc1.labelled ++ [curStar] }

/-- The outer loop `while ( region.hasNext() )` of `draw`; the list is the sequence of
trixels the `MeshIterator` yields. -/
def drawRegion (o : DrawSettings) (checkVisibility onScreen : StarObject → Bool)
    (m_starIndex : StarIndex) : List Trixel → DrawPass → Option DrawPass
  | [], acc => some acc
  | currentRegion :: rest, acc =>
    match m_starIndex[currentRegion]? with
    | none => none
    | some starList =>
      drawRegion o checkVisibility onScreen m_starIndex rest
        (drawStarList o checkVisibility onScreen starList acc)

/-- The non-null records of the enumerated cells with magnitude at most `L`, in
cell-enumeration order and list order within a cell (the brute-force linear scan). -/
def bruteForce (m_starIndex : StarIndex) (region : List Trixel) (L : ℚ) : List StarObject :=
  (region.map (fun t => (records (m_starIndex.getD t [])).filter (fun s => s.mag ≤ L))).flatten

/-- Whether a record passes the magnitude test of the draw loop (the negation of the
condition of its `break`). -/
def passesGate (o : DrawSettings) (s : StarObject) : Bool :=
  !decide (s.mag > o.maglim ∨ (o.hideFaintStars = true ∧ s.mag > o.hideStarsMag))

/-! ## The component state and reindexing (`StarComponent::reindex`, `reindexAll`) -/

/-- Modelled from the spec: one fast-mover band (`HighPMStarList`): its proper-motion
cutoff, the epoch it was last indexed to (written by `setIndexTime`) and its members
with the trixel each was last filed under. -/
structure HighPMStarList where
  m_threshold : ℚ
  m_reindexNum : KSNumbers := ⟨0⟩
  m_stars : List (Trixel × StarObject) := []
deriving DecidableEq, Repr

/-- Modelled from the spec: `HighPMStarList::setIndexTime`, which records the epoch the
band is now indexed to. -/
def HighPMStarList.setIndexTime (num : KSNumbers) (b : HighPMStarList) : HighPMStarList :=
  { b with m_reindexNum := num }

/-- Modelled from the spec: a deep tier (`DeepStarComponent`) as the star component sees
it: the arguments of its constructor and its faint-magnitude bound. -/
structure DeepStarComponent where
  fileName : String
  trigMag : ℚ
  staticStars : Bool := false
  m_FaintMagnitude : ℚ := -5
deriving DecidableEq, Repr

/-- The mesh singleton as the star component uses it: the epoch it indexes to, set by
`setKSNumbers`. -/
structure SkyMesh where
  m_KSNumbers : KSNumbers
deriving DecidableEq, Repr

/-- The members of `StarComponent` that the embedded functions read or write.  The
initial values are those of the constructor: `m_reindexNum(J2000)`,
`m_FaintMagnitude(-5.0)`, `m_zoomMagLimit = 0.0`, `starsLoaded(false)`.  The hashes
`m_genName` and `m_HDHash` are lists of (key, value) with the latest insertion first;
`objectNames` is the list `objectNames(SkyObject::STAR)`. -/
structure StarComponent where
  m_reindexNum : KSNumbers := ⟨0⟩
  m_reindexInterval : ℚ
  m_FaintMagnitude : ℚ := -5
  m_zoomMagLimit : ℚ := 0
  m_skyMesh : SkyMesh := ⟨⟨0⟩⟩
  m_starIndex : StarIndex
  m_ObjectList : List StarObject := []
  m_highPMStars : List HighPMStarList := []
  m_DeepStarComponents : List DeepStarComponent := []
  starsLoaded : Bool := false
  m_genName : List (String × StarObject) := []
  m_HDHash : List (Nat × StarObject) := []
  objectNames : List String := []
deriving DecidableEq, Repr

/-- The loop "clear out the old index": every cell's list is emptied. -/
def clearIndex (idx : StarIndex) : StarIndex := idx.map (fun _ => [])

/-- The loop "re-populate it from the objectList": each star of the object list, in list
order, is appended to the cell `m_skyMesh->indexStar( star )`.  `indexStar` is the mesh
function, applied at the epoch stored in the mesh. -/
def repopulate (indexStar : KSNumbers → StarObject → Trixel) (meshNum : KSNumbers) :
    List StarObject → StarIndex → Option StarIndex
  | [], idx => some idx
  | star :: rest, idx =>
    let trixel := indexStar meshNum star
    match idx[trixel]? with
    | none => none
    | some starList =>
      repopulate indexStar meshNum rest (idx.set trixel (starList ++ [some star]))

/-- `StarComponent::reindexAll( num )`.  The splash-screen branch is guarded by `0 &&`
and never runs. -/
def reindexAll (indexStar : KSNumbers → StarObject → Trixel) (num : KSNumbers)
    (st : StarComponent) : Option StarComponent :=
  let st1 : StarComponent := { st with m_reindexNum := num, m_skyMesh := ⟨num⟩ }
  match repopulate indexStar st1.m_skyMesh.m_KSNumbers st1.m_ObjectList
      (clearIndex st1.m_starIndex) with
  | none => none
  | some idx =>
    some { st1 with
      m_starIndex := idx
      m_highPMStars := st1.m_highPMStars.map (HighPMStarList.setIndexTime num) }

/-- A call made by `reindex`, for the record of what a pass did. -/
inductive ReindexCall where
  | full (num : KSNumbers)
  | band (j : Nat) (num : KSNumbers)
deriving DecidableEq, Repr

/-- The loop `for ( int j = 0; j < m_highPMStars.size(); j++ )` of `reindex`, from band
`j` on: each band's `reindex( num, m_starIndex )` may update the band and the index.
`bandReindex` is `HighPMStarList::reindex`. -/
def reindexBands
    (bandReindex : KSNumbers → HighPMStarList → StarIndex → HighPMStarList × StarIndex)
    (num : KSNumbers) :
    Nat → List HighPMStarList → StarIndex → List HighPMStarList × StarIndex × List ReindexCall
  | _, [], idx => ([], idx, [])
  | j, b :: rest, idx =>
    let r := bandReindex num b idx
    let r2 := reindexBands bandReindex num (j + 1) rest r.2
    (r.1 :: r2.1, r2.2.1, ReindexCall.band j num :: r2.2.2)

/-- `StarComponent::reindex( num )`; `none` is the null pointer.  The result is the new
state (`none` if `reindexAll` indexed out of range) and the calls made, in order. -/
def reindex (indexStar : KSNumbers → StarObject → Trixel)
    (bandReindex : KSNumbers → HighPMStarList → StarIndex → HighPMStarList × StarIndex)
    (num : Option KSNumbers) (st : StarComponent) : Option StarComponent × List ReindexCall :=
  match num with
  | none => (some st, [])
  | some n =>
    -- for large time steps we re-index all points
    if |n.julianCenturies - st.m_reindexNum.julianCenturies| > st.m_reindexInterval then
      (reindexAll indexStar n st, [ReindexCall.full n])
    else
      -- otherwise we just re-index fast movers as needed
      let r := reindexBands bandReindex n 0 st.m_highPMStars st.m_starIndex
      (some { st with m_highPMStars := r.1, m_starIndex := r.2.1 }, r.2.2)

/-- The records of an object list that the mesh files under trixel `t` at epoch `num`,
as entries of a cell, in object-list order. -/
def filedUnder (indexStar : KSNumbers → StarObject → Trixel) (num : KSNumbers)
    (objs : List StarObject) (t : Trixel) : StarList :=
  (objs.filter (fun s => decide (indexStar num s = t))).map some

/-! ## Nearest-object query (`StarComponent::objectNearest`) -/

/-- The inner loop of the base-tier scan of `objectNearest`, on the part of the list not
yet visited; the pair is `(oBest, maxrad)`.  `angularDistanceTo s p` is
`star->angularDistanceTo( p ).Degrees()`. -/
def nearestInList (angularDistanceTo : StarObject → SkyPoint → ℚ) (m_zoomMagLimit : ℚ)
    (p : SkyPoint) : StarList → Option StarObject × ℚ → Option StarObject × ℚ
  | [], best => best
  | none :: rest, best => nearestInList angularDistanceTo m_zoomMagLimit p rest best
  | some star :: rest, best =>
    if star.mag > m_zoomMagLimit then
      nearestInList angularDistanceTo m_zoomMagLimit p rest best
    else
      let r := angularDistanceTo star p
      if r < best.2 then
        nearestInList angularDistanceTo m_zoomMagLimit p rest (some star, r)
      else
        nearestInList angularDistanceTo m_zoomMagLimit p rest best

/-- The outer loop `while ( region.hasNext() )` of `objectNearest`; the list is the
sequence of trixels of the search region. -/
def nearestInRegion (angularDistanceTo : StarObject → SkyPoint → ℚ) (m_zoomMagLimit : ℚ)
    (p : SkyPoint) (m_starIndex : StarIndex) :
    List Trixel → Option StarObject × ℚ → Option (Option StarObject × ℚ)
  | [], best => some best
  | currentRegion :: rest, best =>
    match m_starIndex[currentRegion]? with
    | none => none
    | some starList =>
      nearestInRegion angularDistanceTo m_zoomMagLimit p m_starIndex rest
        (nearestInList angularDistanceTo m_zoomMagLimit p starList best)

/-- The loop over `m_DeepStarComponents` of `objectNearest`.  `deepNearest d p rTry` is
`d->objectNearest( p, rTry )`: the object it returns and the value it leaves in `rTry`. -/
def nearestDeep (deepNearest : DeepStarComponent → SkyPoint → ℚ → Option StarObject × ℚ)
    (p : SkyPoint) :
    List DeepStarComponent → (rTry rBest : ℚ) → (oBest : Option StarObject) →
      Option StarObject × ℚ
  | [], _, rBest, oBest => (oBest, rBest)
  | d :: rest, rTry, rBest, oBest =>
    let r := deepNearest d p rTry
    if r.2 < rBest then
      nearestDeep deepNearest p rest r.2 r.2 r.1
    else
      nearestDeep deepNearest p rest r.2 rBest oBest

/-- `StarComponent::objectNearest( p, maxrad )`: the object returned (`none` is null)
and the value left in `maxrad`; the outer `none` is an index out of range. -/
def objectNearest (angularDistanceTo : StarObject → SkyPoint → ℚ)
    (deepNearest : DeepStarComponent → SkyPoint → ℚ → Option StarObject × ℚ)
    (st : StarComponent) (region : List Trixel) (p : SkyPoint) (maxrad : ℚ) :
    Option (Option StarObject × ℚ) :=
  match nearestInRegion angularDistanceTo st.m_zoomMagLimit p st.m_starIndex region
      (none, maxrad) with
  | none => none
  | some best =>
    some (nearestDeep deepNearest p st.m_DeepStarComponents best.2 best.2 best.1)

/-- One step of a nearest-neighbour scan over plain records: a record strictly closer
than the current radius becomes the best one. -/
def closer (dist : StarObject → SkyPoint → ℚ) (p : SkyPoint)
    (best : Option StarObject × ℚ) (s : StarObject) : Option StarObject × ℚ :=
  if dist s p < best.2 then (some s, dist s p) else best

/-- Modelled from the spec: what the star component relies on from each deep tier's own
nearest-neighbour procedure, over the records `cand d` that the tier considers: a
returned record is one of them, strictly within the radius given, and the radius is
shrunk to its distance; a null result leaves the radius as given; no considered record
within the radius given is closer than the radius left. -/
def DeepContract (dist : StarObject → SkyPoint → ℚ)
    (deepNearest : DeepStarComponent → SkyPoint → ℚ → Option StarObject × ℚ)
    (cand : DeepStarComponent → List StarObject) (p : SkyPoint) : Prop :=
  ∀ d r,
    (∀ s, (deepNearest d p r).1 = some s →
      s ∈ cand d ∧ dist s p = (deepNearest d p r).2 ∧ (deepNearest d p r).2 < r) ∧
    ((deepNearest d p r).1 = none → (deepNearest d p r).2 = r) ∧
    (∀ c ∈ cand d, dist c p < r → (deepNearest d p r).2 ≤ dist c p)

/-- A deep-tier procedure for examples: the same strict-improvement scan over the
records the tier considers. -/
def deepScan (dist : StarObject → SkyPoint → ℚ) (cand : DeepStarComponent → List StarObject)
    (d : DeepStarComponent) (p : SkyPoint) (r : ℚ) : Option StarObject × ℚ :=
  (cand d).foldl (closer dist p) (none, r)

/-- Angular distance for examples, valid for points on the equator less than 180 degrees
apart: the difference in right ascension. -/
def equatorDistance (s : StarObject) (p : SkyPoint) : ℚ := |s.ra - p.ra|

/-- What the star component needs from a deep tier's procedure for the radius never to
lose its meaning: a returned record lies at the radius left, a null result leaves the
radius as given, and the radius is never enlarged. -/
def DeepSound (dist : StarObject → SkyPoint → ℚ)
    (deepNearest : DeepStarComponent → SkyPoint → ℚ → Option StarObject × ℚ)
    (p : SkyPoint) : Prop :=
  ∀ d r,
    (∀ s, (deepNearest d p r).1 = some s → dist s p = (deepNearest d p r).2) ∧
    ((deepNearest d p r).1 = none → (deepNearest d p r).2 = r) ∧
    (deepNearest d p r).2 ≤ r

/-- The records `objectNearest` chooses among: the non-null records of the search-region
cells with magnitude at most `m_zoomMagLimit`, then the records each deep tier
considers. -/
def nearestCandidates (st : StarComponent) (region : List Trixel)
    (cand : DeepStarComponent → List StarObject) : List StarObject :=
  bruteForce st.m_starIndex region st.m_zoomMagLimit ++
    (st.m_DeepStarComponents.map cand).flatten

/-! ## Magnitude limits (`faintMagnitude`, `zoomMagnitudeLimit`, `starRenderingSize`) -/

/-- The settings the magnitude limits read: `Options::zoomFactor()` and
`Options::starDensity()`. -/
structure Options where
  zoomFactor : ℚ
  starDensity : Int
deriving DecidableEq, Repr

/-- The loop of `StarComponent::faintMagnitude()`, from the current `faintmag` on; a
deep tier's `faintMagnitude()` returns its `m_FaintMagnitude`. -/
def faintMagnitudeLoop : List DeepStarComponent → ℚ → ℚ
  | [], faintmag => faintmag
  | d :: rest, faintmag =>
    if faintmag < d.m_FaintMagnitude then faintMagnitudeLoop rest d.m_FaintMagnitude
    else faintMagnitudeLoop rest faintmag

/-- `StarComponent::faintMagnitude()`. -/
def faintMagnitude (st : StarComponent) : ℚ :=
  faintMagnitudeLoop st.m_DeepStarComponents st.m_FaintMagnitude

/-- `StarComponent::zoomMagnitudeLimit()`.  `log10` is the library logarithm and
`MINZOOM` the constant of that name; `3.7`, `2.222` and `3.5` are the source's
constants. -/
def zoomMagnitudeLimit (log10 : ℚ → ℚ) (MINZOOM : ℚ) (opts : Options) : ℚ :=
  let lgmin := log10 MINZOOM
  let lgz := log10 opts.zoomFactor
  let maglim := 37 / 10 * (lgz - lgmin) + 2222 / 1000 * log10 (opts.starDensity : ℚ) + 35 / 10
  maglim

/-- The magnitude limit that `StarComponent::starRenderingSize` sizes stars against: the
local `sizeMagLim` after the `if` that follows its initialisation. -/
def sizeMagLim (log10 : ℚ → ℚ) (MINZOOM : ℚ) (opts : Options) (st : StarComponent) : ℚ :=
  let sizeMagLim := zoomMagnitudeLimit log10 MINZOOM opts
  if sizeMagLim > faintMagnitude st * (1 - (15 / 10) / 16) then
    faintMagnitude st * (1 - (15 / 10) / 16)
  else sizeMagLim

/-- The component as the constructor leaves it when no catalog file is found: faint
magnitude -5.0, no deep tier, an index of empty cells. -/
def emptyComponent : StarComponent :=
  { m_reindexInterval := 3, m_starIndex := [[], []] }

/-! ## Byte order (`StarComponent::byteSwap`, the header read of `loadStaticData`) -/

/-- Modelled from the spec: the fixed-size catalog record (`starData`) as raw field
values: six 32-bit words, two 16-bit words, and single bytes (two spectral-type
characters, the flag byte, one unused byte).  Words are held as their unsigned bit
patterns. -/
structure starData where
  RA : Nat
  Dec : Nat
  dRA : Nat
  dDec : Nat
  parallax : Nat
  HD : Nat
  mag : Nat
  bv_index : Nat
  spec_type : Nat × Nat := (0, 0)
  flags : Nat := 0
  unused : Nat := 0
deriving DecidableEq, Repr

/-- Modelled from the spec: the macro `bswap_16`, which exchanges the two bytes of a
16-bit word. -/
def bswap_16 (x : Nat) : Nat :=
  (x % 256) * 256 + x / 256 % 256

/-- Modelled from the spec: the macro `bswap_32`, which reverses the four bytes of a
32-bit word. -/
def bswap_32 (x : Nat) : Nat :=
  (x % 256) * 16777216 + (x / 256 % 256) * 65536 + (x / 65536 % 256) * 256 +
    x / 16777216 % 256

/-- `StarComponent::byteSwap( stardata )`. -/
def byteSwap (stardata : starData) : starData :=
  { stardata with
    RA := bswap_32 stardata.RA
    Dec := bswap_32 stardata.Dec
    dRA := bswap_32 stardata.dRA
    dDec := bswap_32 stardata.dDec
    parallax := bswap_32 stardata.parallax
    HD := bswap_32 stardata.HD
    mag := bswap_16 stardata.mag
    bv_index := bswap_16 stardata.bv_index }

/-- Every field of a record fits its width. -/
def starData.wellFormed (R : starData) : Prop :=
  R.RA < 4294967296 ∧ R.Dec < 4294967296 ∧ R.dRA < 4294967296 ∧ R.dDec < 4294967296 ∧
    R.parallax < 4294967296 ∧ R.HD < 4294967296 ∧ R.mag < 65536 ∧ R.bv_index < 65536

instance (R : starData) : Decidable R.wellFormed := by
  unfold starData.wellFormed; infer_instance

/-- The two byte orders a machine or a file can have. -/
inductive ByteOrder where
  | littleEndian
  | bigEndian
deriving DecidableEq, Repr

/-- The bytes of a 16-bit word as a machine of the given order stores them, lowest
address first. -/
def store16 (o : ByteOrder) (x : Nat) : List Nat :=
  match o with
  | .littleEndian => [x % 256, x / 256 % 256]
  | .bigEndian => [x / 256 % 256, x % 256]

/-- The bytes of a 32-bit word as a machine of the given order stores them, lowest
address first. -/
def store32 (o : ByteOrder) (x : Nat) : List Nat :=
  match o with
  | .littleEndian => [x % 256, x / 256 % 256, x / 65536 % 256, x / 16777216 % 256]
  | .bigEndian => [x / 16777216 % 256, x / 65536 % 256, x / 256 % 256, x % 256]

/-- The 16-bit word a machine of the given order reads from two bytes (`fread` into the
field). -/
def load16 (o : ByteOrder) (bytes : List Nat) : Nat :=
  match o, bytes with
  | .littleEndian, [b0, b1] => b0 + 256 * b1
  | .bigEndian, [b0, b1] => 256 * b0 + b1
  | _, _ => 0

/-- The 32-bit word a machine of the given order reads from four bytes (`fread` into the
field). -/
def load32 (o : ByteOrder) (bytes : List Nat) : Nat :=
  match o, bytes with
  | .littleEndian, [b0, b1, b2, b3] => b0 + 256 * b1 + 65536 * b2 + 16777216 * b3
  | .bigEndian, [b0, b1, b2, b3] => 16777216 * b0 + 65536 * b1 + 256 * b2 + b3
  | _, _ => 0

/-- The record a host reads (`fread` of a whole `starData`) from the image that a writer
of the given order stored for `R`: each word passes through the writer's bytes, single
bytes are copied. -/
def readStored (host writer : ByteOrder) (R : starData) : starData :=
  { R with
    RA := load32 host (store32 writer R.RA)
    Dec := load32 host (store32 writer R.Dec)
    dRA := load32 host (store32 writer R.dRA)
    dDec := load32 host (store32 writer R.dDec)
    parallax := load32 host (store32 writer R.parallax)
    HD := load32 host (store32 writer R.HD)
    mag := load16 host (store16 writer R.mag)
    bv_index := load16 host (store16 writer R.bv_index) }

/-- The value of a `qint16` with the given bit pattern. -/
def toInt16 (x : Nat) : Int :=
  if x % 65536 < 32768 then (x % 65536 : Nat) else (x % 65536 : Nat) - 65536

/-- The header read of `loadStaticData`: the value of the local `faintmag` when the
faint limit is updated, given the flag `swapBytes` and the 16-bit word `fread` put into
`faintmag`.  The reads of `htm_level` and `t_MSpT` in between do not touch it. -/
def headerFaintmag (swapBytes : Bool) (faintmagRead : Nat) : Nat :=
  let faintmag := faintmagRead
  let faintmag := if swapBytes then bswap_16 faintmag else faintmag
  let faintmag := if swapBytes then bswap_16 faintmag else faintmag
  faintmag

/-- The faint-limit update of `loadStaticData`:
`if( faintmag / 100.0 > m_FaintMagnitude ) m_FaintMagnitude = faintmag / 100.0`. -/
def loadHeader (swapBytes : Bool) (faintmagRead : Nat) (st : StarComponent) : StarComponent :=
  let faintmag : Int := toInt16 (headerFaintmag swapBytes faintmagRead)
  if (faintmag : ℚ) / 100 > st.m_FaintMagnitude then
    { st with m_FaintMagnitude := (faintmag : ℚ) / 100 }
  else st

/-! ## Catalog loading (`loadStaticData`, `loadDeepStarCatalogs`) -/

/-- Modelled from the spec: one entry of the name table (`starName`): the fixed-length
long name and alternate (Bayer) name, as the strings the loader makes of them. -/
structure starName where
  longName : String
  bayerName : String
deriving DecidableEq, Repr

/-- Modelled from the spec: the data file `namedstars.dat` as `BinFileHelper` presents
it: whether `readHeader()` succeeds, `getByteSwap()`, the three header fields read after
the data offset, `getRecordCount(i)` for each trixel, and the records the stream still
delivers to `fread`, in file order. -/
structure CatalogFile where
  headerOk : Bool := true
  byteSwap : Bool := false
  faintmag : Nat
  htm_level : Nat
  t_MSpT : Nat := 0
  recordCount : Nat → Nat
  records : List starData

/-- Modelled from the spec: the name file `starnames.dat`: whether `readHeader()`
succeeds and the entries the stream still delivers to `fread`, in file order. -/
structure NameFile where
  headerOk : Bool := true
  entries : List starName

/-- The messages `loadStaticData` writes with `kDebug()`. -/
inductive LoadMessage where
  | couldNotOpenData
  | couldNotOpenNames
  | dataHeaderError
  | nameHeaderError
  | htmLevelMismatch
  | recordReadError (j : Nat) (trixel : Trixel)
  | nameReadError (trixel : Trixel) (j : Nat)
  | unnamedStar
deriving DecidableEq, Repr

/-- The functions of other classes that the record loop of `loadStaticData` calls:
`StarObject::init( &stardata )`, `i18nc( "star name", ... )`, `i18n( "star" )`,
`star->pmMagnitude()` and `HighPMStarList::append( trixel, star, pm )` (its result and
the band it leaves). -/
structure LoadHelpers where
  init : starData → StarObject
  i18ncStarName : String → String
  i18nStar : String
  pmMagnitude : StarObject → ℚ
  bandAppend : Trixel → StarObject → ℚ → HighPMStarList → Bool × HighPMStarList

/-- Modelled from the spec: `StarObject::setNames( name, name2 )`, which stores the name
and the alternate name of the record. -/
def StarObject.setNames (star : StarObject) (name name2 : String) : StarObject :=
  { star with name := name, gname := name2 }

/-- What the record loop of `loadStaticData` carries from one record to the next besides
the component: the two file streams, the member buffers `stardata` and `starname`, the
locals `name`, `gname`, `visibleName` (declared before the loops), the counter `nstars`
and the messages written so far. -/
structure LoadCursor where
  dataRest : List starData
  nameRest : List starName
  stardata : starData
  starname : starName
  name : String := ""
  gname : String := ""
  visibleName : String := ""
  nstars : Nat := 0
  log : List LoadMessage := []
deriving DecidableEq, Repr

/-- The first part of the body of the record loop: the `fread` of the record (a failed
read writes a message and leaves the buffer as it was), the byte swap, and, for a record
with flag bit `0x01`, the `fread` of a name-table entry and the assignment of `name`,
`gname` and `visibleName`. -/
def readRecord (h : LoadHelpers) (swapBytes : Bool) (trixel : Trixel) (j : Nat)
    (c : LoadCursor) : LoadCursor :=
  let c1 : LoadCursor :=
    match c.dataRest with
    | r :: rest => { c with stardata := r, dataRest := rest }
    | [] => { c with log := c.log ++ [LoadMessage.recordReadError j trixel] }
  let c2 : LoadCursor :=
    if swapBytes then { c1 with stardata := byteSwap c1.stardata } else c1
  if c2.stardata.flags % 2 = 1 then
    let c3 : LoadCursor := { c2 with visibleName := "" }
    let c4 : LoadCursor :=
      match c3.nameRest with
      | e :: rest => { c3 with starname := e, nameRest := rest }
      | [] => { c3 with log := c3.log ++ [LoadMessage.nameReadError trixel j] }
    let name := c4.starname.longName
    let gname := c4.starname.bayerName
    let visibleName := if gname ≠ "" ∧ gname.front ≠ '.' then gname else c4.visibleName
    let name := if name ≠ "" then h.i18ncStarName name else h.i18nStar
    { c4 with name := name, gname := gname, visibleName := visibleName }
  else
    { c2 with log := c2.log ++ [LoadMessage.unnamedStar] }

/-- The star the record loop creates from the buffer and the current names:
`star->init( &stardata ); star->setNames( name, visibleName )`. -/
def makeStar (h : LoadHelpers) (c : LoadCursor) : StarObject :=
  (h.init c.stardata).setNames c.name c.visibleName

/-- The loop over `m_highPMStars` in the record loop: the star is offered to each band
in turn until one takes it. -/
def appendToBands (h : LoadHelpers) (trixel : Trixel) (star : StarObject) (pm : ℚ) :
    List HighPMStarList → List HighPMStarList
  | [] => []
  | list :: rest =>
    let r := h.bandAppend trixel star pm list
    if r.1 then r.2 :: rest else r.2 :: appendToBands h trixel star pm rest

/-- The second part of the body of the record loop: the star is entered in `m_genName`
and `objectNames`, appended to `m_ObjectList` and to the cell `trixel` of the index,
offered to the fast-mover bands and entered in `m_HDHash`. -/
def registerStar (h : LoadHelpers) (trixel : Trixel) (c : LoadCursor) (star : StarObject)
    (st : StarComponent) : Option StarComponent :=
  let st1 : StarComponent :=
    if c.gname ≠ "" then { st with m_genName := (c.gname, star) :: st.m_genName } else st
  let st2 : StarComponent :=
    if c.name ≠ "" then { st1 with objectNames := st1.objectNames ++ [c.name] } else st1
  let st3 : StarComponent :=
    if c.gname ≠ "" ∧ c.gname ≠ c.name then
      { st2 with objectNames := st2.objectNames ++ [star.gname] }
    else st2
  let st4 : StarComponent := { st3 with m_ObjectList := st3.m_ObjectList ++ [star] }
  match st4.m_starIndex[trixel]? with
  | none => none
  | some starList =>
    let st5 : StarComponent :=
      { st4 with m_starIndex := st4.m_starIndex.set trixel (starList ++ [some star]) }
    let st6 : StarComponent :=
      { st5 with
        m_highPMStars := appendToBands h trixel star (h.pmMagnitude star) st5.m_highPMStars }
    some (if star.hd ≠ 0 then { st6 with m_HDHash := (star.hd, star) :: st6.m_HDHash }
      else st6)

/-- The body of the record loop, for record `j` of trixel `trixel`. -/
def loadRecord (h : LoadHelpers) (swapBytes : Bool) (trixel : Trixel) (j : Nat)
    (s : LoadCursor × StarComponent) : Option (LoadCursor × StarComponent) :=
  let c1 := readRecord h swapBytes trixel j s.1
  let star := makeStar h c1
  let c2 : LoadCursor := { c1 with nstars := c1.nstars + 1 }
  match registerStar h trixel c2 star s.2 with
  | none => none
  | some st => some (c2, st)

/-- The loop `for( j = 0; j < getRecordCount(i); ++j )`, with `n` records still to go,
the next being record `j`. -/
def loadTrixel (h : LoadHelpers) (swapBytes : Bool) (trixel : Trixel) :
    Nat → Nat → LoadCursor × StarComponent → Option (LoadCursor × StarComponent)
  | 0, _, s => some s
  | n + 1, j, s =>
    match loadRecord h swapBytes trixel j s with
    | none => none
    | some s1 => loadTrixel h swapBytes trixel n (j + 1) s1

/-- The loop `for( i = 0; i < m_skyMesh->size(); ++i )`, with `n` trixels still to go,
the next being trixel `i`; `Trixel trixel = i`. -/
def loadTrixels (h : LoadHelpers) (swapBytes : Bool) (recordCount : Nat → Nat) :
    Nat → Nat → LoadCursor × StarComponent → Option (LoadCursor × StarComponent)
  | 0, _, s => some s
  | n + 1, i, s =>
    match loadTrixel h swapBytes i (recordCount i) 0 s with
    | none => none
    | some s1 => loadTrixels h swapBytes recordCount n (i + 1) s1

/-- The cursor the record loops of `loadStaticData` start with: both streams at their
data offset, the buffers as they are, the locals empty. -/
def startCursor (data : CatalogFile) (names : NameFile) (stardata : starData)
    (starname : starName) : LoadCursor :=
  { dataRest := data.records, nameRest := names.entries
    stardata := stardata, starname := starname }

/-- What `loadStaticData` leaves: its return value, the component and the messages
written. -/
structure LoadResult where
  ok : Bool
  comp : StarComponent
  log : List LoadMessage
deriving DecidableEq, Repr

/-- `StarComponent::loadStaticData()`.  `meshSize` and `meshLevel` are
`m_skyMesh->size()` and `m_skyMesh->level()`; a file that cannot be opened is `none`;
`stardata` and `starname` are the member buffers as they are on entry.  The outer `none`
is an index out of range. -/
def loadStaticData (h : LoadHelpers) (meshSize meshLevel : Nat)
    (dataFile : Option CatalogFile) (nameFile : Option NameFile)
    (stardata : starData) (starname : starName) (st : StarComponent) : Option LoadResult :=
  if st.starsLoaded then some ⟨true, st, []⟩
  else
    -- prepare to index stars to this date
    let st1 : StarComponent := { st with m_skyMesh := ⟨st.m_reindexNum⟩ }
    match dataFile with
    | none => some ⟨false, st1, [LoadMessage.couldNotOpenData]⟩
    | some data =>
      match nameFile with
      | none => some ⟨false, st1, [LoadMessage.couldNotOpenNames]⟩
      | some names =>
        if data.headerOk = false then some ⟨false, st1, [LoadMessage.dataHeaderError]⟩
        else if names.headerOk = false then some ⟨false, st1, [LoadMessage.nameHeaderError]⟩
        else
          let st2 := loadHeader data.byteSwap data.faintmag st1
          let warn : List LoadMessage :=
            if data.htm_level ≠ meshLevel then [LoadMessage.htmLevelMismatch] else []
          let c0 := startCursor data names stardata starname
          match loadTrixels h data.byteSwap data.recordCount meshSize 0 (c0, st2) with
          | none => none
          | some s => some ⟨true, { s.2 with starsLoaded := true }, warn ++ s.1.log⟩

/-- `StarComponent::addDeepStarCatalogIfExists( fileName, trigMag, staticstars )`;
`testFileExists` is `BinFileHelper::testFileExists`. -/
def addDeepStarCatalogIfExists (testFileExists : String → Bool) (fileName : String)
    (trigMag : ℚ) (staticstars : Bool) (st : StarComponent) : Bool × StarComponent :=
  if testFileExists fileName then
    (true, { st with
      m_DeepStarComponents := st.m_DeepStarComponents ++
        [{ fileName := fileName, trigMag := trigMag, staticStars := staticstars }] })
  else (false, st)

/-- `StarComponent::loadDeepStarCatalogs()`: its return value and the component.  The
default of the parameter `staticstars` is `false`. -/
def loadDeepStarCatalogs (testFileExists : String → Bool) (st : StarComponent) :
    Nat × StarComponent :=
  -- Look for the basic unnamed star catalog to mag 8.0
  let r1 := addDeepStarCatalogIfExists testFileExists "unnamedstars.dat" (-5) true st
  if r1.1 = false then (0, r1.2)
  else
    -- Look for the Tycho-2 add-on with 2.5 million stars to mag 12.5
    let r2 := addDeepStarCatalogIfExists testFileExists "tycho2.dat" 8 false r1.2
    let r3 := if r2.1 = false then
        addDeepStarCatalogIfExists testFileExists "deepstars.dat" 8 false r2.2
      else r2
    if r3.1 = false then (1, r3.2)
    else
      -- Look for the USNO NOMAD 1e8 star catalog add-on with stars to mag 16
      let r4 := addDeepStarCatalogIfExists testFileExists "USNO-NOMAD-1e8.dat" 11 false r3.2
      if r4.1 = false then (2, r4.2) else (3, r4.2)

/-! ## Example data and auxiliary definitions -/

/-- Star A of the scenario: magnitude 2. -/
def starA : StarObject := { name := "A", mag := 2 }

/-- Star B of the scenario: magnitude 5. -/
def starB : StarObject := { name := "B", mag := 5 }

/-- Star C of the scenario: magnitude 3. -/
def starC : StarObject := { name := "C", mag := 3 }

/-- The three-trixel index of the scenario: A and B in trixel 0, C in trixel 1. -/
def scenarioIndex : StarIndex := [[some starA, some starB], [some starC], []]

/-- A draw pass in which every star is visible and on screen, with limit `L`, no
faint-star hiding. -/
def plainSettings (L : ℚ) : DrawSettings := { maglim := L }

/-- A two-cell strip mesh for examples: a star is filed under trixel 0 while its right
ascension, moved by its proper motion over the elapsed centuries, is below 10, and under
trixel 1 otherwise. -/
def stripMesh (num : KSNumbers) (s : StarObject) : Trixel :=
  if s.ra + s.pmRA * num.julianCenturies < 10 then 0 else 1

/-- Example record: magnitude 5, at rest in trixel 0 of the strip mesh. -/
def starP : StarObject := { name := "P", mag := 5, ra := 5 }

/-- Example record: magnitude 2, in trixel 1 of the strip mesh at epoch 0 and drifting
into trixel 0 after more than two centuries. -/
def starQ : StarObject := { name := "Q", mag := 2, ra := 12, pmRA := -1 }

/-- Example state as loaded at epoch 0: P in trixel 0, Q in trixel 1, each cell sorted. -/
def driftState : StarComponent :=
  { m_reindexInterval := 3
    m_starIndex := [[some starP], [some starQ]]
    m_ObjectList := [starP, starQ]
    m_highPMStars := [{ m_threshold := 840 }, { m_threshold := 304 }] }

/-- A band procedure for examples: a band without members, which changes nothing. -/
def idleBand (_num : KSNumbers) (b : HighPMStarList) (idx : StarIndex) :
    HighPMStarList × StarIndex := (b, idx)

/-- Example record: magnitude 5, one degree from the origin along the equator. -/
def starX : StarObject := { name := "X", mag := 5, ra := 1 }

/-- Example record: magnitude 3, three degrees from the origin along the equator. -/
def starY : StarObject := { name := "Y", mag := 3, ra := 3 }

/-- Example deep-tier record: two degrees from the origin along the equator. -/
def starZ : StarObject := { name := "star", mag := 4, ra := 2 }

/-- Example state after a draw pass that left the zoom magnitude limit at 4: Y and X in
the only cell, no deep tier. -/
def nearState : StarComponent :=
  { m_reindexInterval := 3
    m_zoomMagLimit := 4
    m_starIndex := [[some starY, some starX]]
    m_ObjectList := [starY, starX] }

/-- The example state with one deep tier. -/
def nearStateDeep : StarComponent :=
  { nearState with m_DeepStarComponents := [{ fileName := "unnamedstars.dat", trigMag := -5 }] }

/-- The records the example deep tier considers: Z. -/
def exampleCand (_d : DeepStarComponent) : List StarObject := [starZ]

/-- Example index with an empty cell and a null entry: trixel 0 empty, trixel 1 holding a
null pointer and then Y. -/
def sparseState : StarComponent :=
  { m_reindexInterval := 3
    m_zoomMagLimit := 4
    m_starIndex := [[], [none, some starY]]
    m_ObjectList := [starY]
    m_DeepStarComponents := [{ fileName := "unnamedstars.dat", trigMag := -5 }] }

/-- Example record: RA 0x01020304, magnitude 8.00 (0x0320), named (flag bit 0). -/
def sampleRecord : starData :=
  { RA := 16909060, Dec := 4294967295, dRA := 256, dDec := 0, parallax := 1, HD := 48915,
    mag := 800, bv_index := 65
    spec_type := (65, 48), flags := 1, unused := 0 }

/-- The stars the record loop creates in `n` passes from record `j` of a trixel on, and
the cursor it ends with. -/
def starsOfRun (h : LoadHelpers) (swapBytes : Bool) (trixel : Trixel) :
    Nat → Nat → LoadCursor → List StarObject × LoadCursor
  | 0, _, c => ([], c)
  | n + 1, j, c =>
    let c1 := readRecord h swapBytes trixel j c
    let c2 : LoadCursor := { c1 with nstars := c1.nstars + 1 }
    let r := starsOfRun h swapBytes trixel n (j + 1) c2
    (makeStar h c1 :: r.1, r.2)

/-- The stars the trixel loop creates for `n` trixels from trixel `i` on, one list per
trixel, and the cursor it ends with. -/
def starsOfRuns (h : LoadHelpers) (swapBytes : Bool) (recordCount : Nat → Nat) :
    Nat → Nat → LoadCursor → List (List StarObject) × LoadCursor
  | 0, _, c => ([], c)
  | n + 1, i, c =>
    let r := starsOfRun h swapBytes i (recordCount i) 0 c
    let rs := starsOfRuns h swapBytes recordCount n (i + 1) r.2
    (r.1 :: rs.1, rs.2)

/-- The list for trixel `u` in a list of per-trixel lists that starts at trixel `i`. -/
def runAt {α : Type} (runs : List (List α)) (i u : Nat) : List α :=
  if i ≤ u then runs.getD (u - i) [] else []

/-- The record stream of a file cut into the runs its record counts declare, for `n`
trixels from trixel `i` on. -/
def fileRuns (recordCount : Nat → Nat) : Nat → Nat → List starData → List (List starData)
  | 0, _, _ => []
  | n + 1, i, recs =>
    recs.take (recordCount i) :: fileRuns recordCount n (i + 1) (recs.drop (recordCount i))

/-- The number of records the counts declare for `n` trixels from trixel `i` on. -/
def declaredTotal (recordCount : Nat → Nat) : Nat → Nat → Nat
  | 0, _ => 0
  | n + 1, i => recordCount i + declaredTotal recordCount n (i + 1)

/-- A star is made from a record when it is the record's `init` image, byte-swapped
first if the file asks for it, with some pair of names set. -/
def MadeFrom (h : LoadHelpers) (swapBytes : Bool) (star : StarObject) (r : starData) : Prop :=
  ∃ name name2, star = (h.init (if swapBytes then byteSwap r else r)).setNames name name2

/-- Two components agree in every member the record loop leaves alone. -/
def SameSettings (st st' : StarComponent) : Prop :=
  st'.m_reindexNum = st.m_reindexNum ∧ st'.m_reindexInterval = st.m_reindexInterval ∧
    st'.m_FaintMagnitude = st.m_FaintMagnitude ∧ st'.m_zoomMagLimit = st.m_zoomMagLimit ∧
    st'.m_skyMesh = st.m_skyMesh ∧ st'.m_DeepStarComponents = st.m_DeepStarComponents ∧
    st'.starsLoaded = st.starsLoaded

/-- The stars `loadStaticData` creates, one list per trixel of the mesh. -/
def loadedRuns (h : LoadHelpers) (meshSize : Nat) (data : CatalogFile) (names : NameFile)
    (stardata : starData) (starname : starName) : List (List StarObject) :=
  (starsOfRuns h data.byteSwap data.recordCount meshSize 0
    (startCursor data names stardata starname)).1

/-- The component as constructed with one deep tier of faint magnitude 8 added. -/
def deepEightState : StarComponent :=
  { m_reindexInterval := 3, m_starIndex := [[], []]
    m_DeepStarComponents :=
      [{ fileName := "unnamedstars.dat", trigMag := -5, m_FaintMagnitude := 8 }] }

/-- Record initialisation for examples: the magnitude is the 16-bit field over 100, the
position and the cross-reference id are the raw fields, no proper motion. -/
def sampleInit (d : starData) : StarObject :=
  { name := "", mag := (toInt16 d.mag : ℚ) / 100, ra := (d.RA : ℚ), dec := (d.Dec : ℚ),
    hd := d.HD }

/-- Band procedure for examples: a band takes a star whose proper motion is not below
its cutoff. -/
def thresholdAppend (trixel : Trixel) (star : StarObject) (pm : ℚ) (b : HighPMStarList) :
    Bool × HighPMStarList :=
  if pm < b.m_threshold then (false, b)
  else (true, { b with m_stars := b.m_stars ++ [(trixel, star)] })

/-- Helper functions for examples: no translation, the generic name "star". -/
def sampleHelpers : LoadHelpers :=
  { init := sampleInit, i18ncStarName := id, i18nStar := "star"
    pmMagnitude := fun s => |s.pmRA| + |s.pmDec|, bandAppend := thresholdAppend }

/-- Example record: magnitude 5.00, RA field 5, flagged as named. -/
def recFaint : starData :=
  { RA := 5, Dec := 0, dRA := 0, dDec := 0, parallax := 0, HD := 0, mag := 500, bv_index := 0,
    flags := 1 }

/-- Example record: magnitude 2.00, RA field 5, flagged as named. -/
def recBright : starData :=
  { RA := 5, Dec := 1, dRA := 0, dDec := 0, parallax := 0, HD := 0, mag := 200, bv_index := 0,
    flags := 1 }

/-- A zeroed record buffer. -/
def zeroRecord : starData :=
  { RA := 0, Dec := 0, dRA := 0, dDec := 0, parallax := 0, HD := 0, mag := 0, bv_index := 0 }

/-- Example name table: the entry of the faint star, then the entry of the bright one. -/
def faintBrightNames : NameFile :=
  { entries := [{ longName := "Faint", bayerName := "alp" },
      { longName := "Bright", bayerName := "bet" }] }

/-- Example name table: the entry of the bright star, then the entry of the faint one. -/
def brightFaintNames : NameFile :=
  { entries := [{ longName := "Bright", bayerName := "bet" },
      { longName := "Faint", bayerName := "alp" }] }

/-- Example file: trixel 0 declares two records and stores the faint one first. -/
def unsortedFile : CatalogFile :=
  { faintmag := 800, htm_level := 3
    recordCount := fun i => if i = 0 then 2 else 0
    records := [recFaint, recBright] }

/-- Example file: trixel 1 declares one record, the faint star, whose position the strip
mesh files under trixel 0. -/
def misfiledFile : CatalogFile :=
  { faintmag := 800, htm_level := 3
    recordCount := fun i => if i = 1 then 1 else 0
    records := [recFaint] }

/-- Example file with mesh level 5 in its header: trixel 0 declares and stores two
records, the bright one first. -/
def levelFiveFile : CatalogFile :=
  { faintmag := 800, htm_level := 5
    recordCount := fun i => if i = 0 then 2 else 0
    records := [recBright, recFaint] }

/-- Example file: trixel 0 declares two records, the stream holds one. -/
def truncatedFile : CatalogFile :=
  { faintmag := 800, htm_level := 3
    recordCount := fun i => if i = 0 then 2 else 0
    records := [recBright] }

/-- The star loaded from `recFaint` with the names of its entry. -/
def starFaint : StarObject := { name := "Faint", mag := 5, gname := "alp", ra := 5 }

/-- The star loaded from `recBright` with the names of its entry. -/
def starBright : StarObject := { name := "Bright", mag := 2, gname := "bet", ra := 5, dec := 1 }

/-- Example name table with the entry of the bright star only. -/
def brightName : NameFile :=
  { entries := [{ longName := "Bright", bayerName := "bet" }] }

/-- Whether a record has the has-name bit `0x01` of its flag byte set. -/
def flagged (r : starData) : Bool := decide (r.flags % 2 = 1)

/-- The number of flagged records among the first `i` records of a stream. -/
def flaggedBefore (recs : List starData) (i : Nat) : Nat :=
  ((recs.take i).filter flagged).length

/-- The name the loader gives a record from a name-table entry: the translation of the
long name, or the translated generic name when the long name is empty. -/
def nameOf (h : LoadHelpers) (e : starName) : String :=
  if e.longName ≠ "" then h.i18ncStarName e.longName else h.i18nStar

/-- The alternate name the loader gives a record from a name-table entry: the entry's
alternate name unless that is empty or starts with a dot. -/
def visibleNameOf (e : starName) : String :=
  if e.bayerName ≠ "" ∧ e.bayerName.front ≠ '.' then e.bayerName else ""

/-- The stars the loop body creates when run once for each label (trixel, record
number) of a list, and the cursor it ends with. -/
def starsOfLabels (h : LoadHelpers) (swapBytes : Bool) :
    List (Trixel × Nat) → LoadCursor → List StarObject × LoadCursor
  | [], c => ([], c)
  | (t, j) :: rest, c =>
    let c1 := readRecord h swapBytes t j c
    let c2 : LoadCursor := { c1 with nstars := c1.nstars + 1 }
    let r := starsOfLabels h swapBytes rest c2
    (makeStar h c1 :: r.1, r.2)

/-- The labels of `n` records of trixel `t` from record `j` on. -/
def labelsOfRun (t : Trixel) : Nat → Nat → List (Trixel × Nat)
  | 0, _ => []
  | n + 1, j => (t, j) :: labelsOfRun t n (j + 1)

/-- The labels of all records of `n` trixels from trixel `i` on, in loop order. -/
def labelsOfRuns (recordCount : Nat → Nat) : Nat → Nat → List (Trixel × Nat)
  | 0, _ => []
  | n + 1, i => labelsOfRun i (recordCount i) 0 ++ labelsOfRuns recordCount n (i + 1)

/-- Example name table: one entry with an empty long name and an alternate name that
starts with a dot. -/
def dotNames : NameFile :=
  { entries := [{ longName := "", bayerName := ".Cen" }] }

/-- Example file: trixel 0 declares and stores one record, flagged as named. -/
def oneRecordFile : CatalogFile :=
  { faintmag := 800, htm_level := 3
    recordCount := fun i => if i = 0 then 1 else 0
    records := [recBright] }

/-- The star loaded from `recBright` with the generic name and no alternate name. -/
def starGeneric : StarObject := { name := "star", mag := 2, gname := "", ra := 5, dec := 1 }

/-- The values `draw` reads from the map and from `Options` before its loop:
`map->isSlewing()`, `Options::hideOnSlew()`, `Options::hideLabels()`,
`Options::showStarMagnitudes()`, `Options::showStarNames()`, `Options::hideStars()`,
`Options::magLimitHideStar()` and `Options::starLabelDensity()`. -/
structure DrawOptions where
  isSlewing : Bool
  hideOnSlew : Bool
  hideLabels : Bool
  showStarMagnitudes : Bool
  showStarNames : Bool
  hideStars : Bool
  magLimitHideStar : ℚ
  starLabelDensity : ℚ
deriving DecidableEq, Repr

/-- The part of `draw` before its loop, after the call of `reindex`: the component with
the zoom magnitude limit stored in `m_zoomMagLimit`, and the values the loop reads (the
member `m_hideLabels` is the field `hideLabels` of the settings).  `MAXZOOM` is the
constant of that name. -/
def drawSetup (log10 : ℚ → ℚ) (MINZOOM MAXZOOM : ℚ) (opts : Options) (d : DrawOptions)
    (st : StarComponent) : StarComponent × DrawSettings :=
  let checkSlewing := d.isSlewing && d.hideOnSlew
  let m_hideLabels := (d.isSlewing && d.hideLabels) ||
    !(d.showStarMagnitudes || d.showStarNames)
  -- shortcuts to inform whether to draw different objects
  let hideFaintStars := checkSlewing && d.hideStars
  let hideStarsMag := d.magLimitHideStar
  let lgmin := log10 MINZOOM
  let lgmax := log10 MAXZOOM
  let lgz := log10 opts.zoomFactor
  let maglim := zoomMagnitudeLimit log10 MINZOOM opts
  let labelMagLim := d.starLabelDensity / 5
  let labelMagLim := labelMagLim + (12 - labelMagLim) * (lgz - lgmin) / (lgmax - lgmin)
  let labelMagLim := if labelMagLim > 8 then 8 else labelMagLim
  ({ st with m_zoomMagLimit := maglim },
    { maglim := maglim, hideFaintStars := hideFaintStars, hideStarsMag := hideStarsMag,
      hideLabels := m_hideLabels, labelMagLim := labelMagLim })

/-- The effective magnitude limit of a draw pass, in the words of the specification: the
zoom magnitude limit, or the smaller of it and the hide-stars magnitude while faint stars
are hidden. -/
def effectiveLimit (o : DrawSettings) : ℚ :=
  if o.hideFaintStars = true then min o.maglim o.hideStarsMag else o.maglim

/-- A component whose only record bears the generic name: zoom magnitude limit 4, one
cell holding the record named "star" (magnitude 4, two degrees from the origin). -/
def genericState : StarComponent :=
  { m_reindexInterval := 3, m_zoomMagLimit := 4, m_starIndex := [[some starZ]] }

/-- The deep tiers' answers in the words of the specification: each tier, in tier order,
is asked with the best radius found so far (the smaller of the radius it is reached with
and the radius the tier before it left). -/
def queryDeepTiers (deepNearest : DeepStarComponent → SkyPoint → ℚ → Option StarObject × ℚ)
    (p : SkyPoint) : List DeepStarComponent → ℚ → List (Option StarObject × ℚ)
  | [], _ => []
  | d :: rest, r =>
    deepNearest d p r :: queryDeepTiers deepNearest p rest (min r (deepNearest d p r).2)

/-- Taking the global minimum, in the words of the specification: an answer replaces the
current best only when its radius is strictly smaller. -/
def pickCloser (best r : Option StarObject × ℚ) : Option StarObject × ℚ :=
  if r.2 < best.2 then r else best

/-- A logarithm for examples: the integer part of the decimal logarithm of the integer
part of `x` (0 below 10, 1 from 10 to 99, and so on). -/
def floorLog10 (x : ℚ) : ℚ := (Nat.log 10 ⌊x⌋₊ : ℕ)

/-- The name accessors `findByName` reads, of classes that are not in the embedded file:
`o->name()`, `o->longname()`, `o->name2()` and `((StarObject *)o)->gname( false )`. -/
structure NameAccessors where
  name : StarObject → String
  longname : StarObject → String
  name2 : StarObject → String
  gname : StarObject → String

/-- The condition of the `if` in the loop of `findByName`; `compare a b` is
`QString::compare( a, b, Qt::CaseInsensitive )`. -/
def nameMatches (a : NameAccessors) (compare : String → String → Int) (name : String)
    (o : StarObject) : Bool :=
  decide (compare (a.name o) name = 0) || decide (compare (a.longname o) name = 0) ||
    decide (compare (a.name2 o) name = 0) || decide (compare (a.gname o) name = 0)

/-- The loop `foreach(SkyObject* o, m_ObjectList)` of `findByName`, on the part of the
list not yet visited; `none` is the null pointer returned after the loop. -/
def findByNameLoop (a : NameAccessors) (compare : String → String → Int) (name : String) :
    List StarObject → Option StarObject
  | [] => none
  | o :: rest =>
    if nameMatches a compare name o then some o else findByNameLoop a compare name rest

/-- `StarComponent::findByName( name )`: the object returned and the component as the
call leaves it. -/
def findByName (a : NameAccessors) (compare : String → String → Int) (name : String)
    (st : StarComponent) : Option StarObject × StarComponent :=
  (findByNameLoop a compare name st.m_ObjectList, st)

/-- What `findByHDIndex` reads outside the component: the first deep tier's own
`findByHDIndex`; the index file `Henry-Draper.idx` (`none` if it cannot be opened,
else the offset read at position `(HDnum - 1) * 4`); the record the second deep tier's
data file delivers at an offset (`none` when the read fails and the buffer stays as it
was); that tier's byte-swap flag; and `StarObject::init`. -/
structure HDLookup where
  deepFind : DeepStarComponent → Nat → Option StarObject
  hdidxOffset : Option (Nat → Int)
  readAt : Int → Option starData
  deepByteSwap : Bool
  init : starData → StarObject

/-- `StarComponent::findByHDIndex( HDnum )`: the object returned (`none` is null) and the
member `focusStar` as the call leaves it.  `stardata` is the member buffer on entry.
`m_HDHash.value( HDnum, NULL )` is the value of the latest insertion under the key.  HD
numbers are held as naturals, as the keys of the table are. -/
def findByHDIndex (env : HDLookup) (HDnum : Nat) (stardata : starData)
    (focusStar : Option StarObject) (st : StarComponent) :
    Option StarObject × Option StarObject :=
  -- First check the hash to see if we have a corresponding StarObject already
  match st.m_HDHash.lookup HDnum with
  | some o => (some o, focusStar)
  | none =>
    -- If we don't have the StarObject here, try it in the DeepStarComponents' hashes
    let o : Option StarObject :=
      match st.m_DeepStarComponents[0]? with
      | some d => env.deepFind d HDnum
      | none => none
    match o with
    | some o => (some o, focusStar)
    | none =>
      if st.m_DeepStarComponents.length ≥ 2 then
        match env.hdidxOffset with
        | none => (none, focusStar)
        | some offsetAt =>
          let offset := offsetAt HDnum
          if offset ≤ 0 then (none, focusStar)
          else
            let stardata := (env.readAt offset).getD stardata
            let stardata := if env.deepByteSwap then byteSwap stardata else stardata
            let m_starObject := env.init stardata
            (some m_starObject, some m_starObject)
      else (none, focusStar)

/-- The entries a load makes in `m_HDHash` for the stars it creates, latest first: one
for each star whose HD number is not 0. -/
def hdEntries (stars : List StarObject) : List (Nat × StarObject) :=
  ((stars.filter (fun s => decide (s.hd ≠ 0))).map (fun s => (s.hd, s))).reverse

/-- Example record: the faint example record with HD number 48915. -/
def recHDFaint : starData := { recFaint with HD := 48915 }

/-- Example record: the bright example record with the same HD number 48915. -/
def recHDBright : starData := { recBright with HD := 48915 }

/-- Example file: trixel 0 declares three records, two that share HD number 48915 and
one with HD number 0. -/
def hdFile : CatalogFile :=
  { faintmag := 800, htm_level := 3
    recordCount := fun i => if i = 0 then 3 else 0
    records := [recHDFaint, recHDBright, recBright] }

/-- Example name table for the three records of the example file. -/
def hdNames : NameFile :=
  { entries := [⟨"Faint", "alp"⟩, ⟨"Bright", "bet"⟩, ⟨"Plain", "gam"⟩] }

/-- An environment of `findByHDIndex` for examples: the first deep tier knows no star and
the index file cannot be opened. -/
def noDeepLookup : HDLookup :=
  { deepFind := fun _ _ => none, hdidxOffset := none, readAt := fun _ => none
    deepByteSwap := false, init := sampleInit }

/-- One list of the label array, `LabelList = QList<SkyLabel>`; a label is held as the
star it names (its screen position is that of the star in the pass). -/
abbrev LabelList := List StarObject

/-- The conversion `int( x )` of a floating-point value: truncation toward zero.  The
value is taken to lie within the range of `int`, as ten times a magnitude does. -/
def truncToInt (x : ℚ) : Int := if 0 ≤ x then ⌊x⌋ else ⌈x⌉

/-- The index that `addLabel` computes from a star's magnitude and `drawLabels` from
`m_zoomMagLimit`: `int( mag * 10.0 )`, set to 0 if negative and to `MAX_LINENUMBER_MAG`
if greater.  `MAX_LINENUMBER_MAG` is the constant of that name. -/
def labelBin (MAX_LINENUMBER_MAG : Nat) (mag : ℚ) : Nat :=
  let idx : Int := truncToInt (mag * 10)
  let idx : Int := if idx < 0 then 0 else idx
  let idx : Int := if idx > MAX_LINENUMBER_MAG then MAX_LINENUMBER_MAG else idx
  idx.toNat

/-- The label array as the constructor leaves it: the loop
`for ( int i = 0; i <= MAX_LINENUMBER_MAG; i++ ) m_labelList[ i ] = new LabelList`. -/
def newLabelLists (MAX_LINENUMBER_MAG : Nat) : List LabelList :=
  List.replicate (MAX_LINENUMBER_MAG + 1) []

/-- `StarComponent::addLabel( p, star )` on the label array; `none` is an index outside
the array. -/
def addLabel (MAX_LINENUMBER_MAG : Nat) (star : StarObject) (m_labelList : List LabelList) :
    Option (List LabelList) :=
  let idx := labelBin MAX_LINENUMBER_MAG star.mag
  match m_labelList[idx]? with
  | none => none
  | some list => some (m_labelList.set idx (list ++ [star]))

/-- The calls of `addLabel` that a draw pass makes, in call order. -/
def addLabels (MAX_LINENUMBER_MAG : Nat) :
    List StarObject → List LabelList → Option (List LabelList)
  | [], m_labelList => some m_labelList
  | star :: rest, m_labelList =>
    match addLabel MAX_LINENUMBER_MAG star m_labelList with
    | none => none
    | some l => addLabels MAX_LINENUMBER_MAG rest l

/-- The loop `for ( int i = 0; i <= max; i++ )` of `drawLabels`, with `n` passes still to
go, the next for list `i`: the labels of the list are drawn, then the list is cleared. -/
def drawLabelsLoop :
    Nat → Nat → List LabelList → List StarObject → Option (List StarObject × List LabelList)
  | 0, _, m_labelList, drawn => some (drawn, m_labelList)
  | n + 1, i, m_labelList, drawn =>
    match m_labelList[i]? with
    | none => none
    | some list => drawLabelsLoop n (i + 1) (m_labelList.set i []) (drawn ++ list)

/-- `StarComponent::drawLabels`: the labels drawn, in order, and the label array it
leaves; `none` is an index outside the array.  It reads the members `m_hideLabels` and
`m_zoomMagLimit`, both set by `draw`. -/
def drawLabels (MAX_LINENUMBER_MAG : Nat) (m_hideLabels : Bool) (m_zoomMagLimit : ℚ)
    (m_labelList : List LabelList) : Option (List StarObject × List LabelList) :=
  if m_hideLabels then some ([], m_labelList)
  else
    let max := labelBin MAX_LINENUMBER_MAG m_zoomMagLimit
    drawLabelsLoop (max + 1) 0 m_labelList []

/-- Settings for examples: limit 4, labels shown, label limit 8. -/
def labelSettings : DrawSettings :=
  { maglim := 4, hideLabels := false, labelMagLim := 8 }

/-- Modelled from the spec: a block, a chunk of one tier's records for one trixel; `seq`
is its place in the trixel's chain of blocks, in ascending-faintness order, `faintMag`
the faintest magnitude it covers. -/
structure Block where
  trixel : Trixel
  tier : Nat
  seq : Nat
  faintMag : ℚ
  stars : List StarObject
deriving DecidableEq, Repr

/-- Modelled from the spec: the catalog files behind the cache: for each trixel and tier
the successive chunks of the tier's file, each with its faint limit and its records. -/
abbrev BlockStore := Trixel → Nat → List (ℚ × List StarObject)

/-- Modelled from the spec: the block that loading chunk `seq` of a trixel and tier
yields; `none` when the tier has no such chunk. -/
def blockAt (store : BlockStore) (trixel : Trixel) (tier seq : Nat) : Option Block :=
  ((store trixel tier)[seq]?).map (fun chunk => ⟨trixel, tier, seq, chunk.1, chunk.2⟩)

/-- Modelled from the spec: a resident block with the time of its last use. -/
structure CacheEntry where
  block : Block
  lastUsed : Nat
deriving DecidableEq, Repr

/-- Modelled from the spec: the record of one eviction: the block evicted and the
blocks that were resident when it was chosen. -/
structure Eviction where
  victim : CacheEntry
  residents : List CacheEntry
deriving DecidableEq, Repr

/-- Modelled from the spec: the block cache: its configured capacity, counted in blocks,
a clock that advances with every use, the resident blocks in insertion order, and the
evictions made so far. -/
structure BlockCache where
  capacity : Nat
  clock : Nat := 0
  pool : List CacheEntry := []
  evictions : List Eviction := []
deriving DecidableEq, Repr

/-- Modelled from the spec: the least-recently-used entry of a pool, the earliest
inserted among equals, and the pool without it; `none` for an empty pool. -/
def takeLeastRecent : List CacheEntry → Option (CacheEntry × List CacheEntry)
  | [] => none
  | e :: rest =>
    match takeLeastRecent rest with
    | none => some (e, [])
    | some (v, rest') =>
      if e.lastUsed ≤ v.lastUsed then some (e, rest) else some (v, e :: rest')

/-- Modelled from the spec: eviction of the globally least-recently-used block. -/
def evict (c : BlockCache) : BlockCache :=
  match takeLeastRecent c.pool with
  | none => c
  | some (v, rest) => { c with pool := rest, evictions := c.evictions ++ [⟨v, c.pool⟩] }

/-- Modelled from the spec: insertion of a newly loaded block: "if the pool is at its
configured capacity, evict the globally least-recently-used Block", then the block
becomes resident, used now. -/
def insertBlock (c : BlockCache) (b : Block) : BlockCache :=
  let c1 := if c.pool.length = c.capacity then evict c else c
  { c1 with pool := c1.pool ++ [⟨b, c1.clock⟩], clock := c1.clock + 1 }

/-- Modelled from the spec: the tail of a trixel and tier's chain of resident blocks,
the resident block with the greatest place in the chain. -/
def chainTail (trixel : Trixel) (tier : Nat) : List CacheEntry → Option Block
  | [] => none
  | e :: rest =>
    match chainTail trixel tier rest with
    | none => if e.block.trixel = trixel ∧ e.block.tier = tier then some e.block else none
    | some b =>
      if e.block.trixel = trixel ∧ e.block.tier = tier ∧ b.seq < e.block.seq then
        some e.block
      else some b

/-- Modelled from the spec: the loading loop of `ensure`: successive chunks are loaded
and inserted "until the resident faint limit reaches or exceeds the requested
magnitude, or the tier is exhausted".  The list holds the chunks not yet loaded, the
first being chunk `seq`; `limit` is the resident faint limit, if any block is
resident. -/
def loadBlocks (needed : ℚ) (trixel : Trixel) (tier : Nat) :
    List (ℚ × List StarObject) → Nat → Option ℚ → BlockCache → BlockCache
  | [], _, _, c => c
  | chunk :: rest, seq, limit, c =>
    if (match limit with
        | some f => decide (needed ≤ f)
        | none => false) then c
    else
      loadBlocks needed trixel tier rest (seq + 1) (some chunk.1)
        (insertBlock c ⟨trixel, tier, seq, chunk.1, chunk.2⟩)

/-- Modelled from the spec: the use of a trixel and tier's resident blocks by a call:
each is stamped with the current time. -/
def touch (trixel : Trixel) (tier : Nat) (c : BlockCache) : BlockCache :=
  { c with
    pool := c.pool.map (fun e =>
      if e.block.trixel = trixel ∧ e.block.tier = tier then { e with lastUsed := c.clock }
      else e)
    clock := c.clock + 1 }

/-- Modelled from the spec: `ensure(trixel, tier, faintMagnitudeNeeded)`: the cache it
leaves and the view it returns, the resident records of the trixel and tier up to the
requested limit. -/
def ensure (store : BlockStore) (trixel : Trixel) (tier : Nat) (needed : ℚ)
    (c : BlockCache) : BlockCache × List StarObject :=
  let tail := chainTail trixel tier c.pool
  let next := match tail with
    | some b => b.seq + 1
    | none => 0
  let c1 := loadBlocks needed trixel tier ((store trixel tier).drop next) next
    (tail.map (fun b => b.faintMag)) c
  let c2 := touch trixel tier c1
  (c2, (((c2.pool.filter (fun e =>
      decide (e.block.trixel = trixel ∧ e.block.tier = tier))).map
      (fun e => e.block.stars)).flatten).filter (fun s => decide (s.mag ≤ needed)))

/-- Modelled from the spec: a call made on the cache: `ensure`, or the load of one
chunk. -/
inductive CacheCall where
  | ensure (trixel : Trixel) (tier : Nat) (needed : ℚ)
  | load (trixel : Trixel) (tier seq : Nat)
deriving DecidableEq, Repr

/-- Modelled from the spec: the load of one chunk: the block is read from the file and
inserted; a chunk the tier does not have changes nothing. -/
def loadBlock (store : BlockStore) (trixel : Trixel) (tier seq : Nat) (c : BlockCache) :
    BlockCache :=
  match blockAt store trixel tier seq with
  | none => c
  | some b => insertBlock c b

/-- Modelled from the spec: a sequence of calls made on the cache, in order. -/
def runCalls (store : BlockStore) : List CacheCall → BlockCache → BlockCache
  | [], c => c
  | CacheCall.ensure trixel tier needed :: rest, c =>
    runCalls store rest (ensure store trixel tier needed c).1
  | CacheCall.load trixel tier seq :: rest, c =>
    runCalls store rest (loadBlock store trixel tier seq c)

/-- The tier that `addDeepStarCatalogIfExists( "unnamedstars.dat", -5.0, true )`
appends. -/
def tierUnnamed : DeepStarComponent :=
  { fileName := "unnamedstars.dat", trigMag := -5, staticStars := true }

/-- The tier that `addDeepStarCatalogIfExists( "tycho2.dat", 8.0 )` appends. -/
def tierTycho2 : DeepStarComponent := { fileName := "tycho2.dat", trigMag := 8 }

/-- The tier that `addDeepStarCatalogIfExists( "deepstars.dat", 8.0 )` appends. -/
def tierDeepstars : DeepStarComponent := { fileName := "deepstars.dat", trigMag := 8 }

/-- The tier that `addDeepStarCatalogIfExists( "USNO-NOMAD-1e8.dat", 11.0 )` appends. -/
def tierNomad : DeepStarComponent := { fileName := "USNO-NOMAD-1e8.dat", trigMag := 11 }

/-! ## Facts about the draw pass -/

theorem records_nil : records [] = [] := rfl

theorem records_none_cons (l : StarList) : records (none :: l) = records l := rfl

theorem records_some_cons (s : StarObject) (l : StarList) :
    records (some s :: l) = s :: records l := rfl

/-- The inner loop draws, after what was drawn before, the visible records of the longest
prefix of the cell's non-null records that pass the magnitude test. -/
theorem drawStarList_drawn (o : DrawSettings) (cv os : StarObject → Bool) :
    ∀ (l : StarList) (acc : DrawPass),
      (drawStarList o cv os l acc).drawn =
        acc.drawn ++ (((records l).takeWhile (passesGate o)).filter (fun s => cv s && os s))
  | [], acc => by simp [drawStarList, records_nil]
  | none :: rest, acc => by
    rw [drawStarList, records_none_cons]
    exact drawStarList_drawn o cv os rest acc
  | some s :: rest, acc => by
    rw [drawStarList, records_some_cons]
    by_cases hg : s.mag > o.maglim ∨ (o.hideFaintStars = true ∧ s.mag > o.hideStarsMag)
    · have hp : passesGate o s = false := by simp [passesGate, hg]
      rw [if_pos hg, List.takeWhile_cons, hp]
      simp
    · have hp : passesGate o s = true := by simp [passesGate, hg]
      rw [if_neg hg, List.takeWhile_cons, hp]
      by_cases hcv : cv s = false
      · rw [if_pos hcv, drawStarList_drawn o cv os rest acc]
        simp [List.filter_cons, hcv]
      · rw [if_neg hcv]
        have hcv1 : cv s = true := by simpa using hcv
        by_cases hos : os s = false
        · rw [if_pos hos, drawStarList_drawn o cv os rest acc]
          simp [List.filter_cons, hos]
        · rw [if_neg hos]
          have hos1 : os s = true := by simpa using hos
          by_cases hl : o.hideLabels = true ∨ s.mag > o.labelMagLim
          · simp only [if_pos hl]
            rw [drawStarList_drawn o cv os rest _]
            simp [List.filter_cons, hcv1, hos1]
          · simp only [if_neg hl]
            rw [drawStarList_drawn o cv os rest _]
            simp [List.filter_cons, hcv1, hos1]

/-- On a list in non-decreasing magnitude order, the longest prefix below a limit is the
whole set of records below that limit. -/
theorem takeWhile_eq_filter_of_sorted (L : ℚ) :
    ∀ (l : List StarObject), l.Pairwise (fun a b => a.mag ≤ b.mag) →
      l.takeWhile (fun s => decide (s.mag ≤ L)) = l.filter (fun s => decide (s.mag ≤ L))
  | [], _ => rfl
  | s :: rest, h => by
    have hrest := (List.pairwise_cons.mp h).2
    have hhead := (List.pairwise_cons.mp h).1
    by_cases hs : s.mag ≤ L
    · simp [List.takeWhile_cons, List.filter_cons, hs,
        takeWhile_eq_filter_of_sorted L rest hrest]
    · have hnone : rest.filter (fun s => decide (s.mag ≤ L)) = [] := by
        rw [List.filter_eq_nil_iff]
        intro a ha
        have := hhead a ha
        simp only [decide_eq_true_eq]
        intro hle
        exact hs (le_trans this hle)
      simp [List.takeWhile_cons, List.filter_cons, hs, hnone]

/-- Without faint-star hiding the magnitude test is `mag ≤ maglim`. -/
theorem passesGate_of_not_hiding (o : DrawSettings) (h : o.hideFaintStars = false) :
    passesGate o = fun s => decide (s.mag ≤ o.maglim) := by
  funext s
  by_cases hs : s.mag ≤ o.maglim
  · simp [passesGate, h, hs]
  · simp [passesGate, h, hs, lt_of_not_ge hs]

/-- The outer loop: when every enumerated trixel is a cell of the index, the loop ends
normally and has drawn, cell after cell, what the inner loop draws. -/
theorem drawRegion_drawn (o : DrawSettings) (cv os : StarObject → Bool) (idx : StarIndex) :
    ∀ (region : List Trixel) (acc : DrawPass), (∀ t ∈ region, t < idx.length) →
      ∃ pass, drawRegion o cv os idx region acc = some pass ∧
        pass.drawn = acc.drawn ++ ((region.map (fun t =>
          ((records (idx.getD t [])).takeWhile (passesGate o)).filter
            (fun s => cv s && os s))).flatten)
  | [], acc, _ => ⟨acc, rfl, by simp⟩
  | t :: rest, acc, h => by
    have ht : t < idx.length := h t (List.mem_cons_self _ _)
    have hrest : ∀ u ∈ rest, u < idx.length := fun u hu => h u (List.mem_cons_of_mem _ hu)
    obtain ⟨pass, hp, hd⟩ :=
      drawRegion_drawn o cv os idx rest (drawStarList o cv os idx[t] acc) hrest
    refine ⟨pass, ?_, ?_⟩
    · rw [drawRegion, List.getElem?_eq_getElem ht]
      exact hp
    · rw [hd, drawStarList_drawn]
      simp [List.getD_eq_getElem?_getD, List.getElem?_eq_getElem ht]

/-! ## Region scan (C1) -/

/-- C1, as stated, fails: in a cell that holds B (magnitude 5) before A (magnitude 2),
with limit 4 and everything visible, the scan stops at B and selects nothing, although
A is a non-null record of the cell with magnitude at most 4. -/
theorem regionScan_misses_after_break :
    drawRegion (plainSettings 4) (fun _ => true) (fun _ => true)
        [[some starB, some starA]] [0] {} = some { drawn := [] } ∧
      bruteForce [[some starB, some starA]] [0] 4 = [starA] := by
  constructor
  · decide
  · decide

/-- C1, amended: without faint-star hiding, on an index whose enumerated cells are each
in non-decreasing magnitude order, the draw loop ends normally and the records it draws
are exactly the non-null records of those cells with magnitude at most the limit that
pass the two visibility tests, in cell-enumeration order and list order within a cell. -/
theorem regionScan_exact_of_sorted (o : DrawSettings) (cv os : StarObject → Bool)
    (idx : StarIndex) (region : List Trixel)
    (hno : o.hideFaintStars = false)
    (hin : ∀ t ∈ region, t < idx.length)
    (hs : ∀ t ∈ region, magSorted (idx.getD t [])) :
    ∃ pass, drawRegion o cv os idx region {} = some pass ∧
      pass.drawn = (bruteForce idx region o.maglim).filter (fun s => cv s && os s) := by
  obtain ⟨pass, hp, hd⟩ := drawRegion_drawn o cv os idx region {} hin
  refine ⟨pass, hp, ?_⟩
  rw [hd, passesGate_of_not_hiding o hno]
  have hmap : region.map (fun t =>
        ((records (idx.getD t [])).takeWhile (fun s => decide (s.mag ≤ o.maglim))).filter
          (fun s => cv s && os s)) =
      region.map (fun t =>
        ((records (idx.getD t [])).filter (fun s => decide (s.mag ≤ o.maglim))).filter
          (fun s => cv s && os s)) := by
    apply List.map_congr_left
    intro t ht
    rw [takeWhile_eq_filter_of_sorted o.maglim _ (hs t ht)]
  rw [hmap]
  unfold bruteForce
  generalize region = r
  induction r with
  | nil => rfl
  | cons t rest ih =>
    simp only [List.map_cons, List.flatten_cons, List.filter_append]
    simp only [List.nil_append] at ih
    simp only [List.nil_append]
    rw [ih]

/-- The scenario of C1: trixels {0: [A, B], 1: [C], 2: []}, limit 4, everything visible:
the scan draws A then C and leaves B out. -/
theorem regionScan_exact_of_sorted_witness :
    (∃ pass, drawRegion (plainSettings 4) (fun _ => true) (fun _ => true)
        scenarioIndex [0, 1, 2] {} = some pass ∧
      pass.drawn = (bruteForce scenarioIndex [0, 1, 2] (plainSettings 4).maglim).filter
        (fun s => (fun _ => true) s && (fun _ => true) s)) ∧
    drawRegion (plainSettings 4) (fun _ => true) (fun _ => true)
        scenarioIndex [0, 1, 2] {} = some { drawn := [starA, starC], visibleStarCount := 2 } :=
  ⟨regionScan_exact_of_sorted (plainSettings 4) (fun _ => true) (fun _ => true)
      scenarioIndex [0, 1, 2] rfl (by decide) (by decide), by decide⟩

/-! ## Facts about the full reindex -/

theorem clearIndex_eq_replicate (idx : StarIndex) :
    clearIndex idx = List.replicate idx.length [] := by
  unfold clearIndex
  exact List.map_const' idx []

theorem clearIndex_length (idx : StarIndex) : (clearIndex idx).length = idx.length := by
  simp [clearIndex]

theorem clearIndex_getElem? (idx : StarIndex) (t : Nat) (h : t < idx.length) :
    (clearIndex idx)[t]? = some [] := by
  rw [clearIndex_eq_replicate, List.getElem?_replicate_of_lt h]

/-- The repopulation loop, when the mesh yields only trixels of the index: it ends
normally, keeps the number of cells, and appends to each cell the object-list records
filed under it, in object-list order. -/
theorem repopulate_spec (indexStar : KSNumbers → StarObject → Trixel) (num : KSNumbers) :
    ∀ (objs : List StarObject) (idx : StarIndex),
      (∀ s ∈ objs, indexStar num s < idx.length) →
      ∃ idx', repopulate indexStar num objs idx = some idx' ∧ idx'.length = idx.length ∧
        ∀ t l, idx[t]? = some l → idx'[t]? = some (l ++ filedUnder indexStar num objs t)
  | [], idx, _ => ⟨idx, rfl, rfl, by intro t l h; simp [filedUnder, h]⟩
  | star :: rest, idx, h => by
    have ht : indexStar num star < idx.length := h star (List.mem_cons_self _ _)
    have hlen : (idx.set (indexStar num star) (idx[indexStar num star] ++ [some star])).length
        = idx.length := List.length_set _ _ _
    have hrest : ∀ s ∈ rest, indexStar num s <
        (idx.set (indexStar num star) (idx[indexStar num star] ++ [some star])).length := by
      intro s hs
      rw [hlen]
      exact h s (List.mem_cons_of_mem _ hs)
    obtain ⟨idx', hrun, hl, hcells⟩ := repopulate_spec indexStar num rest _ hrest
    refine ⟨idx', ?_, hl.trans hlen, ?_⟩
    · rw [repopulate]
      simp only [List.getElem?_eq_getElem ht]
      exact hrun
    · intro t l htl
      by_cases heq : indexStar num star = t
      · subst heq
        have hl' : l = idx[indexStar num star] := by
          rw [List.getElem?_eq_getElem ht] at htl
          exact (Option.some.inj htl).symm
        have := hcells (indexStar num star) (idx[indexStar num star] ++ [some star])
          (List.getElem?_set_self ht)
        rw [this, hl']
        simp [filedUnder, List.filter_cons]
      · have := hcells t l (by rw [List.getElem?_set_ne heq]; exact htl)
        rw [this]
        simp [filedUnder, List.filter_cons, heq]

/-- The full reindex, when the mesh yields only trixels of the index: it ends normally;
the new index has as many cells as the old, cell `t` holding exactly the object-list
records the mesh files under `t` at epoch `num`, in object-list order; the epoch of the
last full pass and the mesh epoch are `num`; the object list is unchanged. -/
theorem reindexAll_spec (indexStar : KSNumbers → StarObject → Trixel) (num : KSNumbers)
    (st : StarComponent) (h : ∀ s ∈ st.m_ObjectList, indexStar num s < st.m_starIndex.length) :
    ∃ st', reindexAll indexStar num st = some st' ∧
      st'.m_starIndex.length = st.m_starIndex.length ∧
      (∀ t, t < st.m_starIndex.length →
        st'.m_starIndex[t]? = some (filedUnder indexStar num st.m_ObjectList t)) ∧
      st'.m_ObjectList = st.m_ObjectList ∧ st'.m_reindexNum = num ∧
      st'.m_skyMesh.m_KSNumbers = num ∧
      st'.m_highPMStars = st.m_highPMStars.map (HighPMStarList.setIndexTime num) ∧
      st'.m_reindexInterval = st.m_reindexInterval := by
  have h' : ∀ s ∈ st.m_ObjectList, indexStar num s < (clearIndex st.m_starIndex).length := by
    intro s hs
    rw [clearIndex_length]
    exact h s hs
  obtain ⟨idx', hrun, hl, hcells⟩ :=
    repopulate_spec indexStar num st.m_ObjectList (clearIndex st.m_starIndex) h'
  refine ⟨{ st with
      m_reindexNum := num
      m_skyMesh := ⟨num⟩
      m_starIndex := idx'
      m_highPMStars := st.m_highPMStars.map (HighPMStarList.setIndexTime num) },
    ?_, ?_, ?_, ?_, ?_, ?_, ?_, ?_⟩
  · unfold reindexAll
    simp only [hrun]
  · simpa [clearIndex_length] using hl
  · intro t ht
    have := hcells t [] (clearIndex_getElem? _ t ht)
    simpa using this
  · rfl
  · rfl
  · rfl
  · rfl
  · rfl

/-! ## Full reindex: ordering (C2), cell of each record (C3), idempotence (C4) -/

/-- C2, the code at the failing input: the loaded index has P (magnitude 5) alone in
trixel 0 and Q (magnitude 2) alone in trixel 1, both cells sorted; at epoch 5 the mesh
files both under trixel 0, and `reindexAll` leaves that cell as [P, Q], object-list
order, which is not in non-decreasing magnitude order. -/
theorem reindexAll_breaks_magnitude_order :
    (∀ l ∈ driftState.m_starIndex, magSorted l) ∧
      (reindexAll stripMesh ⟨5⟩ driftState).map (fun st => st.m_starIndex) =
        some [[some starP, some starQ], []] ∧
      ¬ magSorted [some starP, some starQ] := by
  have hP : stripMesh ⟨5⟩ starP = 0 := by norm_num [stripMesh, starP]
  have hQ : stripMesh ⟨5⟩ starQ = 0 := by norm_num [stripMesh, starQ]
  refine ⟨by decide, ?_, by decide⟩
  simp [reindexAll, repopulate, clearIndex, driftState, hP, hQ]

theorem stripMesh_lt_two (num : KSNumbers) (s : StarObject) : stripMesh num s < 2 := by
  unfold stripMesh
  split
  · exact Nat.zero_lt_two
  · exact Nat.one_lt_two

theorem mem_filedUnder (indexStar : KSNumbers → StarObject → Trixel) (num : KSNumbers)
    (objs : List StarObject) (t : Trixel) (s : StarObject) :
    some s ∈ filedUnder indexStar num objs t ↔ s ∈ objs ∧ indexStar num s = t := by
  simp [filedUnder]

/-- C3: after `reindexAll( num )`, for mesh results within the index, the call ends
normally, the mesh epoch is `num`, and for every record of the object list and every
cell of the new index, the cell's list contains the record exactly when the cell is the
one the mesh computes for the record at the mesh epoch; that cell exists. -/
theorem reindexAll_cell_is_mesh_cell (indexStar : KSNumbers → StarObject → Trixel)
    (num : KSNumbers) (st : StarComponent)
    (h : ∀ s ∈ st.m_ObjectList, indexStar num s < st.m_starIndex.length) :
    ∃ st', reindexAll indexStar num st = some st' ∧ st'.m_skyMesh.m_KSNumbers = num ∧
      ∀ s ∈ st'.m_ObjectList,
        (∃ l, st'.m_starIndex[indexStar st'.m_skyMesh.m_KSNumbers s]? = some l ∧ some s ∈ l) ∧
        ∀ t l, st'.m_starIndex[t]? = some l →
          (some s ∈ l ↔ t = indexStar st'.m_skyMesh.m_KSNumbers s) := by
  obtain ⟨st', hrun, hlen, hcells, hobjs, _, hmesh, _, _⟩ := reindexAll_spec indexStar num st h
  refine ⟨st', hrun, hmesh, ?_⟩
  intro s hs
  rw [hobjs] at hs
  rw [hmesh]
  constructor
  · refine ⟨_, hcells _ (h s hs), ?_⟩
    exact (mem_filedUnder indexStar num _ _ s).mpr ⟨hs, rfl⟩
  · intro t l htl
    have ht : t < st.m_starIndex.length := by
      rw [← hlen]
      exact (List.getElem?_eq_some.mp htl).1
    rw [hcells t ht] at htl
    rw [← Option.some.inj htl, mem_filedUnder]
    constructor
    · intro hh
      exact hh.2.symm
    · intro hh
      exact ⟨hs, hh.symm⟩

/-- C3 at the example state: the strip mesh at epoch 5 yields trixels 0 and 1 only. -/
theorem reindexAll_cell_is_mesh_cell_witness :
    (∀ s ∈ driftState.m_ObjectList, stripMesh ⟨5⟩ s < driftState.m_starIndex.length) ∧
    ∃ st', reindexAll stripMesh ⟨5⟩ driftState = some st' ∧
      st'.m_skyMesh.m_KSNumbers = ⟨5⟩ ∧
      ∀ s ∈ st'.m_ObjectList,
        (∃ l, st'.m_starIndex[stripMesh st'.m_skyMesh.m_KSNumbers s]? = some l ∧ some s ∈ l) ∧
        ∀ t l, st'.m_starIndex[t]? = some l →
          (some s ∈ l ↔ t = stripMesh st'.m_skyMesh.m_KSNumbers s) :=
  ⟨fun s _ => stripMesh_lt_two ⟨5⟩ s,
    reindexAll_cell_is_mesh_cell stripMesh ⟨5⟩ driftState (fun s _ => stripMesh_lt_two ⟨5⟩ s)⟩

theorem setIndexTime_idem (num : KSNumbers) (b : HighPMStarList) :
    HighPMStarList.setIndexTime num (HighPMStarList.setIndexTime num b) =
      HighPMStarList.setIndexTime num b := rfl

/-- C4: for mesh results within the index, `reindexAll` ends normally and a second call
with the same epoch ends normally in the very same state: every cell has the same
members in the same order (and every other member of the component is the same too). -/
theorem reindexAll_idempotent (indexStar : KSNumbers → StarObject → Trixel)
    (num : KSNumbers) (st : StarComponent)
    (h : ∀ s ∈ st.m_ObjectList, indexStar num s < st.m_starIndex.length) :
    ∃ st', reindexAll indexStar num st = some st' ∧
      reindexAll indexStar num st' = some st' := by
  have h' : ∀ s ∈ st.m_ObjectList, indexStar num s < (clearIndex st.m_starIndex).length := by
    intro s hs
    rw [clearIndex_length]
    exact h s hs
  obtain ⟨idx', hrun, hl, _⟩ :=
    repopulate_spec indexStar num st.m_ObjectList (clearIndex st.m_starIndex) h'
  have hclear : clearIndex idx' = clearIndex st.m_starIndex := by
    rw [clearIndex_eq_replicate, clearIndex_eq_replicate, hl, clearIndex_length]
  refine ⟨{ st with
      m_reindexNum := num
      m_skyMesh := ⟨num⟩
      m_starIndex := idx'
      m_highPMStars := st.m_highPMStars.map (HighPMStarList.setIndexTime num) }, ?_, ?_⟩
  · unfold reindexAll
    simp only [hrun]
  · unfold reindexAll
    simp only [hclear, hrun, List.map_map]
    rfl

/-- C4 at the example state, with the state both calls end in. -/
theorem reindexAll_idempotent_witness :
    (∀ s ∈ driftState.m_ObjectList, stripMesh ⟨5⟩ s < driftState.m_starIndex.length) ∧
    ∃ st', reindexAll stripMesh ⟨5⟩ driftState = some st' ∧
      reindexAll stripMesh ⟨5⟩ st' = some st' :=
  ⟨fun s _ => stripMesh_lt_two ⟨5⟩ s,
    reindexAll_idempotent stripMesh ⟨5⟩ driftState (fun s _ => stripMesh_lt_two ⟨5⟩ s)⟩

/-! ## The reindex trigger rule (C5) -/

theorem reindexBands_calls
    (bandReindex : KSNumbers → HighPMStarList → StarIndex → HighPMStarList × StarIndex)
    (num : KSNumbers) :
    ∀ (bands : List HighPMStarList) (j : Nat) (idx : StarIndex),
      (reindexBands bandReindex num j bands idx).2.2 =
        (List.range' j bands.length).map (fun i => ReindexCall.band i num)
  | [], _, _ => rfl
  | b :: rest, j, idx => by
    simp [reindexBands, List.range', reindexBands_calls bandReindex num rest (j + 1)]

theorem reindexBands_index
    (bandReindex : KSNumbers → HighPMStarList → StarIndex → HighPMStarList × StarIndex)
    (num : KSNumbers) :
    ∀ (bands : List HighPMStarList) (j : Nat) (idx : StarIndex),
      (reindexBands bandReindex num j bands idx).2.1 =
        bands.foldl (fun i b => (bandReindex num b i).2) idx
  | [], _, _ => rfl
  | b :: rest, j, idx => by
    simp [reindexBands, reindexBands_index bandReindex num rest (j + 1)]

theorem reindexBands_length
    (bandReindex : KSNumbers → HighPMStarList → StarIndex → HighPMStarList × StarIndex)
    (num : KSNumbers) :
    ∀ (bands : List HighPMStarList) (j : Nat) (idx : StarIndex),
      (reindexBands bandReindex num j bands idx).1.length = bands.length
  | [], _, _ => rfl
  | b :: rest, j, idx => by
    simp [reindexBands, reindexBands_length bandReindex num rest (j + 1)]

theorem foldl_index_fixed
    (bandReindex : KSNumbers → HighPMStarList → StarIndex → HighPMStarList × StarIndex)
    (num : KSNumbers) (hfix : ∀ b idx, (bandReindex num b idx).2 = idx) :
    ∀ (bands : List HighPMStarList) (idx : StarIndex),
      bands.foldl (fun i b => (bandReindex num b i).2) idx = idx
  | [], _ => rfl
  | b :: rest, idx => by
    rw [List.foldl_cons, hfix, foldl_index_fixed bandReindex num hfix rest idx]

/-- C5: with a null epoch `reindex` makes no call and leaves the state as it is.  With
an epoch `num` it calls `reindexAll` exactly when the distance in Julian centuries from
the epoch of the last full pass is strictly greater than the reindex interval, and then
does nothing else.  Otherwise it calls the bands' `reindex`, once each in band order,
and nothing else: the epoch of the last full pass, the mesh epoch and the object list
stay, the index is the one the bands' calls leave behind (the old index threaded
through them), so it is the old index when the bands move nothing. -/
theorem reindex_trigger_rule (indexStar : KSNumbers → StarObject → Trixel)
    (bandReindex : KSNumbers → HighPMStarList → StarIndex → HighPMStarList × StarIndex)
    (st : StarComponent) :
    reindex indexStar bandReindex none st = (some st, []) ∧
    ∀ num : KSNumbers,
      (ReindexCall.full num ∈ (reindex indexStar bandReindex (some num) st).2 ↔
        |num.julianCenturies - st.m_reindexNum.julianCenturies| > st.m_reindexInterval) ∧
      (|num.julianCenturies - st.m_reindexNum.julianCenturies| > st.m_reindexInterval →
        reindex indexStar bandReindex (some num) st =
          (reindexAll indexStar num st, [ReindexCall.full num])) ∧
      (¬ |num.julianCenturies - st.m_reindexNum.julianCenturies| > st.m_reindexInterval →
        (reindex indexStar bandReindex (some num) st).2 =
          (List.range st.m_highPMStars.length).map (fun j => ReindexCall.band j num) ∧
        ∃ st', (reindex indexStar bandReindex (some num) st).1 = some st' ∧
          st'.m_reindexNum = st.m_reindexNum ∧ st'.m_skyMesh = st.m_skyMesh ∧
          st'.m_ObjectList = st.m_ObjectList ∧
          st'.m_highPMStars.length = st.m_highPMStars.length ∧
          st'.m_starIndex =
            st.m_highPMStars.foldl (fun i b => (bandReindex num b i).2) st.m_starIndex ∧
          ((∀ b idx, (bandReindex num b idx).2 = idx) → st'.m_starIndex = st.m_starIndex)) := by
  refine ⟨rfl, fun num => ⟨?_, ?_, ?_⟩⟩
  · by_cases hc : |num.julianCenturies - st.m_reindexNum.julianCenturies| > st.m_reindexInterval
    · simp [reindex, hc]
    · simp only [reindex, if_neg hc, reindexBands_calls, hc, iff_false]
      simp
  · intro hc
    simp [reindex, hc]
  · intro hc
    refine ⟨?_, ?_⟩
    · simp only [reindex, if_neg hc, reindexBands_calls, List.range_eq_range']
    · simp only [reindex, if_neg hc]
      refine ⟨_, rfl, rfl, rfl, rfl, reindexBands_length _ _ _ _ _,
        reindexBands_index _ _ _ _ _, ?_⟩
      intro hfix
      simp only [reindexBands_index]
      exact foldl_index_fixed bandReindex num hfix _ _

/-- C5 at the example state (last full pass at epoch 0, interval 3, two idle bands):
epoch 5 triggers the full pass, epoch 2 only the two band calls, in band order. -/
theorem reindex_trigger_rule_witness :
    ReindexCall.full ⟨5⟩ ∈ (reindex stripMesh idleBand (some ⟨5⟩) driftState).2 ∧
    (reindex stripMesh idleBand (some ⟨2⟩) driftState).2 =
      [ReindexCall.band 0 ⟨2⟩, ReindexCall.band 1 ⟨2⟩] :=
  ⟨((reindex_trigger_rule stripMesh idleBand driftState).2 ⟨5⟩).1.mpr
      (by norm_num [driftState]),
    (((reindex_trigger_rule stripMesh idleBand driftState).2 ⟨2⟩).2.2
      (by norm_num [driftState])).1⟩

/-! ## Facts about the nearest-object query -/

/-- The inner loop of the base scan is the strict-improvement scan over the cell's
non-null records with magnitude at most `m_zoomMagLimit`. -/
theorem nearestInList_eq_foldl (dist : StarObject → SkyPoint → ℚ) (lim : ℚ) (p : SkyPoint) :
    ∀ (l : StarList) (best : Option StarObject × ℚ),
      nearestInList dist lim p l best =
        ((records l).filter (fun s => decide (s.mag ≤ lim))).foldl (closer dist p) best
  | [], best => rfl
  | none :: rest, best => by
    rw [nearestInList, records_none_cons]
    exact nearestInList_eq_foldl dist lim p rest best
  | some s :: rest, best => by
    rw [nearestInList, records_some_cons]
    by_cases hm : s.mag > lim
    · have hle : ¬ s.mag ≤ lim := not_le.mpr hm
      rw [if_pos hm, nearestInList_eq_foldl dist lim p rest best]
      simp [List.filter_cons, hle]
    · have hle : s.mag ≤ lim := not_lt.mp hm
      rw [if_neg hm]
      simp only [List.filter_cons, hle, decide_True, if_true, List.foldl_cons]
      by_cases hr : dist s p < best.2
      · simp only [if_pos hr, closer]
        exact nearestInList_eq_foldl dist lim p rest _
      · simp only [if_neg hr, closer]
        exact nearestInList_eq_foldl dist lim p rest _

/-- The base scan, when every trixel of the search region is a cell of the index: it
ends normally and is the strict-improvement scan over the region's non-null records
with magnitude at most `m_zoomMagLimit`, in scan order. -/
theorem nearestInRegion_eq_foldl (dist : StarObject → SkyPoint → ℚ) (lim : ℚ)
    (p : SkyPoint) (idx : StarIndex) :
    ∀ (region : List Trixel) (best : Option StarObject × ℚ),
      (∀ t ∈ region, t < idx.length) →
      nearestInRegion dist lim p idx region best =
        some ((bruteForce idx region lim).foldl (closer dist p) best)
  | [], best, _ => rfl
  | t :: rest, best, h => by
    have ht : t < idx.length := h t (List.mem_cons_self _ _)
    have hrest : ∀ u ∈ rest, u < idx.length := fun u hu => h u (List.mem_cons_of_mem _ hu)
    rw [nearestInRegion]
    simp only [List.getElem?_eq_getElem ht]
    rw [nearestInRegion_eq_foldl dist lim p idx rest _ hrest, nearestInList_eq_foldl]
    simp [bruteForce, List.getD_eq_getElem?_getD, List.getElem?_eq_getElem ht]

/-- The strict-improvement scan: either nothing in the list is strictly within the
radius and the pair is unchanged, or the result is a record of the list, strictly within
the radius, at distance equal to the new radius, and no record of the list is closer. -/
theorem foldl_closer_spec (dist : StarObject → SkyPoint → ℚ) (p : SkyPoint) :
    ∀ (l : List StarObject) (best : Option StarObject × ℚ),
      (l.foldl (closer dist p) best = best ∧ ∀ c ∈ l, ¬ dist c p < best.2) ∨
      (∃ s ∈ l, (l.foldl (closer dist p) best).1 = some s ∧
        (l.foldl (closer dist p) best).2 = dist s p ∧
        (l.foldl (closer dist p) best).2 < best.2 ∧
        ∀ c ∈ l, (l.foldl (closer dist p) best).2 ≤ dist c p)
  | [], best => Or.inl ⟨rfl, by simp⟩
  | a :: rest, best => by
    rw [List.foldl_cons]
    by_cases hr : dist a p < best.2
    · have hc : closer dist p best a = (some a, dist a p) := by simp [closer, hr]
      rw [hc]
      rcases foldl_closer_spec dist p rest (some a, dist a p) with ⟨heq, hnone⟩ | ⟨s, hs, h1, h2, h3, h4⟩
      · right
        refine ⟨a, List.mem_cons_self _ _, by rw [heq], by rw [heq], by rw [heq]; exact hr, ?_⟩
        intro c hc'
        rw [heq]
        rcases List.mem_cons.mp hc' with rfl | hin
        · exact le_refl _
        · exact not_lt.mp (hnone c hin)
      · right
        refine ⟨s, List.mem_cons_of_mem _ hs, h1, h2, lt_trans h3 hr, ?_⟩
        intro c hc'
        rcases List.mem_cons.mp hc' with rfl | hin
        · exact le_of_lt h3
        · exact h4 c hin
    · have hc : closer dist p best a = best := by simp [closer, hr]
      rw [hc]
      rcases foldl_closer_spec dist p rest best with ⟨heq, hnone⟩ | ⟨s, hs, h1, h2, h3, h4⟩
      · left
        refine ⟨heq, ?_⟩
        intro c hc'
        rcases List.mem_cons.mp hc' with rfl | hin
        · exact hr
        · exact hnone c hin
      · right
        refine ⟨s, List.mem_cons_of_mem _ hs, h1, h2, h3, ?_⟩
        intro c hc'
        rcases List.mem_cons.mp hc' with rfl | hin
        · exact le_trans (le_of_lt h3) (not_lt.mp hr)
        · exact h4 c hin

/-- The example deep-tier procedure meets the deep-tier contract. -/
theorem deepScan_contract (dist : StarObject → SkyPoint → ℚ)
    (cand : DeepStarComponent → List StarObject) (p : SkyPoint) :
    DeepContract dist (deepScan dist cand) cand p := by
  intro d r
  unfold deepScan
  rcases foldl_closer_spec dist p (cand d) (none, r) with ⟨heq, hnone⟩ | ⟨s, hs, h1, h2, h3, h4⟩
  · rw [heq]
    refine ⟨by simp, by simp, ?_⟩
    intro c hc hlt
    exact absurd hlt (hnone c hc)
  · refine ⟨?_, ?_, ?_⟩
    · intro s' hs'
      rw [h1] at hs'
      cases hs'
      exact ⟨hs, h2.symm, h3⟩
    · intro hn
      rw [h1] at hn
      cases hn
    · intro c hc _
      exact h4 c hc

theorem deepSound_of_contract (dist : StarObject → SkyPoint → ℚ)
    (deepNearest : DeepStarComponent → SkyPoint → ℚ → Option StarObject × ℚ)
    (cand : DeepStarComponent → List StarObject) (p : SkyPoint)
    (h : DeepContract dist deepNearest cand p) : DeepSound dist deepNearest p := by
  intro d r
  obtain ⟨h1, h2, _⟩ := h d r
  refine ⟨fun s hs => (h1 s hs).2.1, h2, ?_⟩
  cases ho : (deepNearest d p r).1 with
  | none => exact le_of_eq (h2 ho)
  | some s => exact le_of_lt (h1 s ho).2.2

/-- The deep loop never leaves a radius larger than the best radius it started from. -/
theorem nearestDeep_le
    (deepNearest : DeepStarComponent → SkyPoint → ℚ → Option StarObject × ℚ) (p : SkyPoint) :
    ∀ (deeps : List DeepStarComponent) (rTry rBest : ℚ) (oBest : Option StarObject),
      (nearestDeep deepNearest p deeps rTry rBest oBest).2 ≤ rBest
  | [], _, _, _ => le_refl _
  | d :: rest, rTry, rBest, oBest => by
    rw [nearestDeep]
    by_cases h : (deepNearest d p rTry).2 < rBest
    · simp only [if_pos h]
      exact le_trans (nearestDeep_le deepNearest p rest _ _ _) (le_of_lt h)
    · simp only [if_neg h]
      exact nearestDeep_le deepNearest p rest _ _ _

/-- Deep tiers that find nothing leave the best object and radius as they were. -/
theorem nearestDeep_nothing
    (deepNearest : DeepStarComponent → SkyPoint → ℚ → Option StarObject × ℚ) (p : SkyPoint)
    (r : ℚ) (oBest : Option StarObject) :
    ∀ (deeps : List DeepStarComponent), (∀ d ∈ deeps, deepNearest d p r = (none, r)) →
      nearestDeep deepNearest p deeps r r oBest = (oBest, r)
  | [], _ => rfl
  | d :: rest, h => by
    have hd : deepNearest d p r = (none, r) := h d (List.mem_cons_self _ _)
    rw [nearestDeep]
    simp only [hd, lt_irrefl, if_false]
    exact nearestDeep_nothing deepNearest p r oBest rest
      (fun e he => h e (List.mem_cons_of_mem _ he))

/-- With sound deep tiers, a record left by the deep loop lies at the radius left. -/
theorem nearestDeep_sound (dist : StarObject → SkyPoint → ℚ)
    (deepNearest : DeepStarComponent → SkyPoint → ℚ → Option StarObject × ℚ) (p : SkyPoint)
    (hs : DeepSound dist deepNearest p) :
    ∀ (deeps : List DeepStarComponent) (r : ℚ) (oBest : Option StarObject),
      (∀ s, oBest = some s → r = dist s p) →
      ∀ s, (nearestDeep deepNearest p deeps r r oBest).1 = some s →
        (nearestDeep deepNearest p deeps r r oBest).2 = dist s p
  | [], r, oBest, h => fun s hs' => h s hs'
  | d :: rest, r, oBest, h => by
    obtain ⟨h1, _, h3⟩ := hs d r
    rw [nearestDeep]
    by_cases hlt : (deepNearest d p r).2 < r
    · simp only [if_pos hlt]
      exact nearestDeep_sound dist deepNearest p hs rest _ _ (fun s hs' => (h1 s hs').symm)
    · simp only [if_neg hlt]
      have heq : (deepNearest d p r).2 = r := le_antisymm h3 (not_lt.mp hlt)
      rw [heq]
      exact nearestDeep_sound dist deepNearest p hs rest r oBest h

/-- With deep tiers that meet their contract, the deep loop either changes nothing, no
deep record being strictly within the radius, or leaves a deep record strictly within
the radius, at the radius left, with no deep record closer. -/
theorem nearestDeep_spec (dist : StarObject → SkyPoint → ℚ)
    (deepNearest : DeepStarComponent → SkyPoint → ℚ → Option StarObject × ℚ)
    (cand : DeepStarComponent → List StarObject) (p : SkyPoint)
    (hc : DeepContract dist deepNearest cand p) :
    ∀ (deeps : List DeepStarComponent) (r : ℚ) (oBest : Option StarObject),
      (nearestDeep deepNearest p deeps r r oBest = (oBest, r) ∧
        ∀ c ∈ (deeps.map cand).flatten, ¬ dist c p < r) ∨
      (∃ s ∈ (deeps.map cand).flatten,
        (nearestDeep deepNearest p deeps r r oBest).1 = some s ∧
        (nearestDeep deepNearest p deeps r r oBest).2 = dist s p ∧
        (nearestDeep deepNearest p deeps r r oBest).2 < r ∧
        ∀ c ∈ (deeps.map cand).flatten,
          (nearestDeep deepNearest p deeps r r oBest).2 ≤ dist c p)
  | [], r, oBest => Or.inl ⟨rfl, by simp⟩
  | d :: rest, r, oBest => by
    obtain ⟨h1, h2, h3⟩ := hc d r
    rw [nearestDeep]
    simp only [List.map_cons, List.flatten_cons, List.mem_append]
    by_cases hlt : (deepNearest d p r).2 < r
    · simp only [if_pos hlt]
      cases ho : (deepNearest d p r).1 with
      | none => exact absurd (h2 ho) (ne_of_lt hlt)
      | some s0 =>
        obtain ⟨hs0, hd0, _⟩ := h1 s0 ho
        have hall : ∀ c ∈ cand d, (deepNearest d p r).2 ≤ dist c p := by
          intro c hcd
          by_cases hcr : dist c p < r
          · exact h3 c hcd hcr
          · exact le_trans (le_of_lt hlt) (not_lt.mp hcr)
        rcases nearestDeep_spec dist deepNearest cand p hc rest (deepNearest d p r).2 (some s0)
          with ⟨heq, hnone⟩ | ⟨s, hs, e1, e2, e3, e4⟩
        · right
          refine ⟨s0, Or.inl hs0, by rw [heq], by rw [heq]; exact hd0.symm,
            by rw [heq]; exact hlt, ?_⟩
          intro c hcm
          rw [heq]
          rcases hcm with hcm | hcm
          · exact hall c hcm
          · exact not_lt.mp (hnone c hcm)
        · right
          refine ⟨s, Or.inr hs, e1, e2, lt_trans e3 hlt, ?_⟩
          intro c hcm
          rcases hcm with hcm | hcm
          · exact le_trans (le_of_lt e3) (hall c hcm)
          · exact e4 c hcm
    · simp only [if_neg hlt]
      have hle : (deepNearest d p r).2 ≤ r := (deepSound_of_contract dist deepNearest cand p hc d r).2.2
      have heq : (deepNearest d p r).2 = r := le_antisymm hle (not_lt.mp hlt)
      have hnoned : ∀ c ∈ cand d, ¬ dist c p < r := by
        intro c hcd hcr
        have := h3 c hcd hcr
        rw [heq] at this
        exact absurd hcr (not_lt.mpr this)
      rw [heq]
      rcases nearestDeep_spec dist deepNearest cand p hc rest r oBest
        with ⟨heq', hnone⟩ | ⟨s, hs, e1, e2, e3, e4⟩
      · left
        refine ⟨heq', ?_⟩
        intro c hcm
        rcases hcm with hcm | hcm
        · exact hnoned c hcm
        · exact hnone c hcm
      · right
        refine ⟨s, Or.inr hs, e1, e2, e3, ?_⟩
        intro c hcm
        rcases hcm with hcm | hcm
        · exact le_trans (le_of_lt e3) (not_lt.mp (hnoned c hcm))
        · exact e4 c hcm

theorem mem_bruteForce (idx : StarIndex) (L : ℚ) (c : StarObject) :
    ∀ (region : List Trixel), c ∈ bruteForce idx region L ↔
      ∃ t ∈ region, c ∈ records (idx.getD t []) ∧ c.mag ≤ L := by
  intro region
  simp [bruteForce]

/-! ## Nearest-object query: minimality (C6), absence and radius (C7) -/

/-- C6, as stated, fails: with the zoom magnitude limit at 4, X (magnitude 5) one degree
from p and Y (magnitude 3) three degrees from p in the searched cell, radius 4 and no
deep tier, `objectNearest` returns Y and radius 3, although X is a record of the
searched cell within the radius and closer. -/
theorem objectNearest_skips_faint_record :
    objectNearest equatorDistance (deepScan equatorDistance exampleCand) nearState [0]
        ⟨0, 0⟩ 4 = some (some starY, 3) ∧
      some starX ∈ nearState.m_starIndex.getD 0 [] ∧
      equatorDistance starX ⟨0, 0⟩ < 4 ∧
      equatorDistance starX ⟨0, 0⟩ < equatorDistance starY ⟨0, 0⟩ := by
  have hX : equatorDistance starX ⟨0, 0⟩ = 1 := by norm_num [equatorDistance, starX]
  have hY : equatorDistance starY ⟨0, 0⟩ = 3 := by norm_num [equatorDistance, starY]
  refine ⟨?_, by decide, by rw [hX]; norm_num, by rw [hX, hY]; norm_num⟩
  have hmX : starX.mag = 5 := rfl
  have hmY : starY.mag = 3 := rfl
  simp [objectNearest, nearestInRegion, nearestInList, nearestDeep, nearState, hX, hY,
    hmX, hmY]
  norm_num

/-- C6, amended: when the search region lies within the index and every deep tier's
procedure meets its contract, `objectNearest` ends normally and, among the non-null
base-tier records of the searched cells with magnitude at most `m_zoomMagLimit` and the
records the deep tiers consider, either none lies strictly within the radius, and the
result is null with the radius unchanged, or the result is one of them, strictly within
the radius, the radius left is its distance, and none of them is closer. -/
theorem objectNearest_minimum (dist : StarObject → SkyPoint → ℚ)
    (deepNearest : DeepStarComponent → SkyPoint → ℚ → Option StarObject × ℚ)
    (cand : DeepStarComponent → List StarObject)
    (st : StarComponent) (region : List Trixel) (p : SkyPoint) (maxrad : ℚ)
    (hin : ∀ t ∈ region, t < st.m_starIndex.length)
    (hc : DeepContract dist deepNearest cand p) :
    ∃ o rad, objectNearest dist deepNearest st region p maxrad = some (o, rad) ∧
      ((o = none ∧ rad = maxrad ∧
          ∀ c ∈ nearestCandidates st region cand, ¬ dist c p < maxrad) ∨
        (∃ s ∈ nearestCandidates st region cand, o = some s ∧ dist s p = rad ∧
          rad < maxrad ∧ ∀ c ∈ nearestCandidates st region cand, rad ≤ dist c p)) := by
  unfold objectNearest
  rw [nearestInRegion_eq_foldl dist st.m_zoomMagLimit p st.m_starIndex region _ hin]
  simp only
  refine ⟨_, _, rfl, ?_⟩
  unfold nearestCandidates
  simp only [List.mem_append]
  rcases foldl_closer_spec dist p (bruteForce st.m_starIndex region st.m_zoomMagLimit)
      (none, maxrad) with ⟨heq, hnone⟩ | ⟨sb, hsb, b1, b2, b3, b4⟩
  · rw [heq]
    rcases nearestDeep_spec dist deepNearest cand p hc st.m_DeepStarComponents maxrad none
      with ⟨heq', hnone'⟩ | ⟨s, hs, e1, e2, e3, e4⟩
    · left
      refine ⟨by rw [heq'], by rw [heq'], ?_⟩
      intro c hcm
      rcases hcm with hcm | hcm
      · exact hnone c hcm
      · exact hnone' c hcm
    · right
      refine ⟨s, Or.inr hs, e1, e2.symm, e3, ?_⟩
      intro c hcm
      rcases hcm with hcm | hcm
      · exact le_trans (le_of_lt e3) (not_lt.mp (hnone c hcm))
      · exact e4 c hcm
  · simp only at b3
    rcases nearestDeep_spec dist deepNearest cand p hc st.m_DeepStarComponents
        ((bruteForce st.m_starIndex region st.m_zoomMagLimit).foldl (closer dist p)
          (none, maxrad)).2
        ((bruteForce st.m_starIndex region st.m_zoomMagLimit).foldl (closer dist p)
          (none, maxrad)).1
      with ⟨heq', hnone'⟩ | ⟨s, hs, e1, e2, e3, e4⟩
    · right
      refine ⟨sb, Or.inl hsb, by rw [heq']; exact b1, by rw [heq']; exact b2.symm,
        by rw [heq']; exact b3, ?_⟩
      intro c hcm
      rw [heq']
      rcases hcm with hcm | hcm
      · exact b4 c hcm
      · exact not_lt.mp (hnone' c hcm)
    · right
      refine ⟨s, Or.inr hs, e1, e2.symm, lt_trans e3 b3, ?_⟩
      intro c hcm
      rcases hcm with hcm | hcm
      · exact le_trans (le_of_lt e3) (b4 c hcm)
      · exact e4 c hcm

/-- C6 at the example state with a deep tier whose procedure is the example scan. -/
theorem objectNearest_minimum_witness :
    (∀ t ∈ [0], t < nearStateDeep.m_starIndex.length) ∧
    DeepContract equatorDistance (deepScan equatorDistance exampleCand) exampleCand ⟨0, 0⟩ ∧
    ∃ o rad, objectNearest equatorDistance (deepScan equatorDistance exampleCand)
        nearStateDeep [0] ⟨0, 0⟩ 4 = some (o, rad) ∧
      ((o = none ∧ rad = 4 ∧
          ∀ c ∈ nearestCandidates nearStateDeep [0] exampleCand,
            ¬ equatorDistance c ⟨0, 0⟩ < 4) ∨
        (∃ s ∈ nearestCandidates nearStateDeep [0] exampleCand, o = some s ∧
          equatorDistance s ⟨0, 0⟩ = rad ∧ rad < 4 ∧
          ∀ c ∈ nearestCandidates nearStateDeep [0] exampleCand,
            rad ≤ equatorDistance c ⟨0, 0⟩)) :=
  ⟨by decide, deepScan_contract equatorDistance exampleCand ⟨0, 0⟩,
    objectNearest_minimum equatorDistance (deepScan equatorDistance exampleCand) exampleCand
      nearStateDeep [0] ⟨0, 0⟩ 4 (by decide)
      (deepScan_contract equatorDistance exampleCand ⟨0, 0⟩)⟩

/-- C7: when the search region lies within the index, `objectNearest` ends normally for
every index, point and radius, and the radius it leaves is at most the radius given.  If
no non-null record of the searched cells lies strictly within the radius and every deep
tier, asked with that radius, finds nothing, the result is null and the radius is
unchanged.  With sound deep tiers, whenever a record is returned the radius left is that
record's distance to the point. -/
theorem objectNearest_absent_and_radius (dist : StarObject → SkyPoint → ℚ)
    (deepNearest : DeepStarComponent → SkyPoint → ℚ → Option StarObject × ℚ)
    (st : StarComponent) (region : List Trixel) (p : SkyPoint) (maxrad : ℚ)
    (hin : ∀ t ∈ region, t < st.m_starIndex.length) :
    ∃ o rad, objectNearest dist deepNearest st region p maxrad = some (o, rad) ∧
      rad ≤ maxrad ∧
      ((∀ t ∈ region, ∀ s ∈ records (st.m_starIndex.getD t []), ¬ dist s p < maxrad) →
        (∀ d ∈ st.m_DeepStarComponents, deepNearest d p maxrad = (none, maxrad)) →
        o = none ∧ rad = maxrad) ∧
      (DeepSound dist deepNearest p → ∀ s, o = some s → rad = dist s p) := by
  unfold objectNearest
  rw [nearestInRegion_eq_foldl dist st.m_zoomMagLimit p st.m_starIndex region _ hin]
  simp only
  refine ⟨_, _, rfl, ?_, ?_, ?_⟩
  · refine le_trans (nearestDeep_le deepNearest p _ _ _ _) ?_
    rcases foldl_closer_spec dist p (bruteForce st.m_starIndex region st.m_zoomMagLimit)
        (none, maxrad) with ⟨heq, _⟩ | ⟨sb, _, _, _, b3, _⟩
    · rw [heq]
    · exact le_of_lt b3
  · intro hbase hdeep
    rcases foldl_closer_spec dist p (bruteForce st.m_starIndex region st.m_zoomMagLimit)
        (none, maxrad) with ⟨heq, _⟩ | ⟨sb, hsb, _, b2, b3, _⟩
    · rw [heq, nearestDeep_nothing deepNearest p maxrad none _ hdeep]
      exact ⟨rfl, rfl⟩
    · obtain ⟨t, ht, hrec, _⟩ := (mem_bruteForce _ _ sb region).mp hsb
      rw [b2] at b3
      exact absurd b3 (hbase t ht sb hrec)
  · intro hsound s hs
    have hbase : ∀ s, ((bruteForce st.m_starIndex region st.m_zoomMagLimit).foldl
        (closer dist p) (none, maxrad)).1 = some s →
        ((bruteForce st.m_starIndex region st.m_zoomMagLimit).foldl
          (closer dist p) (none, maxrad)).2 = dist s p := by
      intro s' hs'
      rcases foldl_closer_spec dist p (bruteForce st.m_starIndex region st.m_zoomMagLimit)
          (none, maxrad) with ⟨heq, _⟩ | ⟨sb, _, b1, b2, _, _⟩
      · rw [heq] at hs'
        cases hs'
      · rw [b1] at hs'
        cases hs'
        exact b2
    exact nearestDeep_sound dist deepNearest p hsound _ _ _ hbase s hs

/-- C7 at the example index with an empty cell and a null entry, radius 2 around the
origin, where Y is three degrees away and the deep tier considers nothing: the result is
null and the radius stays 2. -/
theorem objectNearest_absent_and_radius_witness :
    (∀ t ∈ [0, 1], t < sparseState.m_starIndex.length) ∧
    (∃ o rad, objectNearest equatorDistance (deepScan equatorDistance (fun _ => []))
        sparseState [0, 1] ⟨0, 0⟩ 2 = some (o, rad) ∧
      rad ≤ 2 ∧
      ((∀ t ∈ [0, 1], ∀ s ∈ records (sparseState.m_starIndex.getD t []),
          ¬ equatorDistance s ⟨0, 0⟩ < 2) →
        (∀ d ∈ sparseState.m_DeepStarComponents,
          deepScan equatorDistance (fun _ => []) d ⟨0, 0⟩ 2 = (none, 2)) →
        o = none ∧ rad = 2) ∧
      (DeepSound equatorDistance (deepScan equatorDistance (fun _ => [])) ⟨0, 0⟩ →
        ∀ s, o = some s → rad = equatorDistance s ⟨0, 0⟩)) ∧
    objectNearest equatorDistance (deepScan equatorDistance (fun _ => []))
        sparseState [0, 1] ⟨0, 0⟩ 2 = some (none, 2) :=
  ⟨by decide,
    objectNearest_absent_and_radius equatorDistance (deepScan equatorDistance (fun _ => []))
      sparseState [0, 1] ⟨0, 0⟩ 2 (by decide),
    by
      have hY : equatorDistance starY ⟨0, 0⟩ = 3 := by norm_num [equatorDistance, starY]
      have hmY : starY.mag = 3 := rfl
      simp [objectNearest, nearestInRegion, nearestInList, nearestDeep, sparseState,
        deepScan, hY, hmY]
      norm_num⟩

/-! ## The zoom magnitude limit is not clamped (C8) -/

/-- C8, as stated, fails: with the zoom factor at `MINZOOM` (here 200), star density 1
and no catalog loaded (faint magnitude -5.0, no deep tier), `faintMagnitude()` is -5
while `zoomMagnitudeLimit()` is 3.5, for every logarithm that is 0 at 1. -/
theorem zoomMagnitudeLimit_exceeds_faintMagnitude :
    faintMagnitude emptyComponent = -5 ∧
      ∀ log10 : ℚ → ℚ, log10 1 = 0 →
        zoomMagnitudeLimit log10 200 ⟨200, 1⟩ = 7 / 2 ∧
        ¬ zoomMagnitudeLimit log10 200 ⟨200, 1⟩ ≤ faintMagnitude emptyComponent := by
  have hf : faintMagnitude emptyComponent = -5 := rfl
  refine ⟨hf, ?_⟩
  intro log10 h1
  have hz : zoomMagnitudeLimit log10 200 ⟨200, 1⟩ = 7 / 2 := by
    simp only [zoomMagnitudeLimit, Int.cast_one, h1]
    norm_num
  refine ⟨hz, ?_⟩
  rw [hz, hf]
  norm_num

/-- C8, amended: `zoomMagnitudeLimit()` is the analytic value alone and takes no account
of the tiers' faint magnitudes; the clamp is in `starRenderingSize`, whose size limit is
the smaller of `zoomMagnitudeLimit()` and `faintMagnitude() * (1 - 1.5/16)`, hence never
greater than `faintMagnitude() * (1 - 1.5/16)` nor than `zoomMagnitudeLimit()`. -/
theorem sizeMagLim_clamped (log10 : ℚ → ℚ) (MINZOOM : ℚ) (opts : Options)
    (st : StarComponent) :
    zoomMagnitudeLimit log10 MINZOOM opts =
        37 / 10 * (log10 opts.zoomFactor - log10 MINZOOM) +
          2222 / 1000 * log10 (opts.starDensity : ℚ) + 35 / 10 ∧
      sizeMagLim log10 MINZOOM opts st =
        min (zoomMagnitudeLimit log10 MINZOOM opts) (faintMagnitude st * (1 - (15 / 10) / 16)) ∧
      sizeMagLim log10 MINZOOM opts st ≤ faintMagnitude st * (1 - (15 / 10) / 16) ∧
      sizeMagLim log10 MINZOOM opts st ≤ zoomMagnitudeLimit log10 MINZOOM opts := by
  have hmin : sizeMagLim log10 MINZOOM opts st =
      min (zoomMagnitudeLimit log10 MINZOOM opts)
        (faintMagnitude st * (1 - (15 / 10) / 16)) := by
    unfold sizeMagLim
    by_cases h : zoomMagnitudeLimit log10 MINZOOM opts >
        faintMagnitude st * (1 - (15 / 10) / 16)
    · simp only [if_pos h]
      exact (min_eq_right (le_of_lt h)).symm
    · simp only [if_neg h]
      exact (min_eq_left (not_lt.mp h)).symm
  refine ⟨rfl, hmin, ?_, ?_⟩
  · rw [hmin]
    exact min_le_right _ _
  · rw [hmin]
    exact min_le_left _ _

/-! ## Byte order of records (C9) and of the header (C10) -/

theorem bytes_of_word16 (b0 b1 : Nat) (h0 : b0 < 256) (h1 : b1 < 256) :
    (b0 * 256 + b1) % 256 = b1 ∧ (b0 * 256 + b1) / 256 % 256 = b0 := by
  refine ⟨by omega, by omega⟩

theorem bytes_of_word32 (b0 b1 b2 b3 : Nat) (h0 : b0 < 256) (h1 : b1 < 256)
    (h2 : b2 < 256) (h3 : b3 < 256) :
    (b0 * 16777216 + b1 * 65536 + b2 * 256 + b3) % 256 = b3 ∧
      (b0 * 16777216 + b1 * 65536 + b2 * 256 + b3) / 256 % 256 = b2 ∧
      (b0 * 16777216 + b1 * 65536 + b2 * 256 + b3) / 65536 % 256 = b1 ∧
      (b0 * 16777216 + b1 * 65536 + b2 * 256 + b3) / 16777216 % 256 = b0 := by
  refine ⟨by omega, by omega, by omega, by omega⟩

/-- The bytes of a swapped 16-bit word are the bytes of the word, exchanged. -/
theorem bswap_16_bytes (x : Nat) :
    bswap_16 x % 256 = x / 256 % 256 ∧ bswap_16 x / 256 % 256 = x % 256 :=
  bytes_of_word16 (x % 256) (x / 256 % 256) (Nat.mod_lt _ (by decide))
    (Nat.mod_lt _ (by decide))

/-- The bytes of a swapped 32-bit word are the bytes of the word, in reverse order. -/
theorem bswap_32_bytes (x : Nat) :
    bswap_32 x % 256 = x / 16777216 % 256 ∧ bswap_32 x / 256 % 256 = x / 65536 % 256 ∧
      bswap_32 x / 65536 % 256 = x / 256 % 256 ∧ bswap_32 x / 16777216 % 256 = x % 256 :=
  bytes_of_word32 (x % 256) (x / 256 % 256) (x / 65536 % 256) (x / 16777216 % 256)
    (Nat.mod_lt _ (by decide)) (Nat.mod_lt _ (by decide)) (Nat.mod_lt _ (by decide))
    (Nat.mod_lt _ (by decide))

theorem bswap_16_involutive (x : Nat) (h : x < 65536) : bswap_16 (bswap_16 x) = x := by
  obtain ⟨h0, h1⟩ := bswap_16_bytes x
  have hx : bswap_16 (bswap_16 x) =
      (bswap_16 x % 256) * 256 + bswap_16 x / 256 % 256 := rfl
  rw [hx, h0, h1]
  omega

theorem bswap_32_involutive (x : Nat) (h : x < 4294967296) : bswap_32 (bswap_32 x) = x := by
  obtain ⟨h0, h1, h2, h3⟩ := bswap_32_bytes x
  have hx : bswap_32 (bswap_32 x) =
      (bswap_32 x % 256) * 16777216 + (bswap_32 x / 256 % 256) * 65536 +
        (bswap_32 x / 65536 % 256) * 256 + bswap_32 x / 16777216 % 256 := rfl
  rw [hx, h0, h1, h2, h3]
  omega

theorem bswap_16_lt (x : Nat) : bswap_16 x < 65536 := by
  unfold bswap_16
  omega

theorem bswap_32_lt (x : Nat) : bswap_32 x < 4294967296 := by
  unfold bswap_32
  omega

/-- Storing a swapped word stores the bytes of the word in reverse order. -/
theorem store16_bswap (o : ByteOrder) (x : Nat) :
    store16 o (bswap_16 x) = (store16 o x).reverse := by
  obtain ⟨h0, h1⟩ := bswap_16_bytes x
  cases o <;> simp [store16, h0, h1]

theorem store32_bswap (o : ByteOrder) (x : Nat) :
    store32 o (bswap_32 x) = (store32 o x).reverse := by
  obtain ⟨h0, h1, h2, h3⟩ := bswap_32_bytes x
  cases o <;> simp [store32, h0, h1, h2, h3]

theorem load16_store16_same (o : ByteOrder) (x : Nat) (h : x < 65536) :
    load16 o (store16 o x) = x := by
  cases o <;> simp only [store16, load16] <;> omega

theorem load32_store32_same (o : ByteOrder) (x : Nat) (h : x < 4294967296) :
    load32 o (store32 o x) = x := by
  cases o <;> simp only [store32, load32] <;> omega

/-- A word read in the order opposite to the one it was stored in is the swapped word. -/
theorem load16_store16_other (host writer : ByteOrder) (hne : host ≠ writer) (x : Nat) :
    load16 host (store16 writer x) = bswap_16 x := by
  cases host <;> cases writer <;> first
    | exact absurd rfl hne
    | (simp only [store16, load16, bswap_16]; omega)

theorem load32_store32_other (host writer : ByteOrder) (hne : host ≠ writer) (x : Nat) :
    load32 host (store32 writer x) = bswap_32 x := by
  cases host <;> cases writer <;> first
    | exact absurd rfl hne
    | (simp only [store32, load32, bswap_32]; omega)

/-- C9: `byteSwap` stores, for each of RA, Dec, dRA, dDec, parallax and HD (32-bit) and
mag and bv_index (16-bit), the word whose bytes are those of the field in reverse order,
and leaves the spectral-type bytes, the flag byte and the unused byte as they are.
Hence, for every record whose fields fit their widths, `byteSwap` of what a host reads
from the record stored in the other byte order is what the host reads from the record
stored in its own order, namely the record itself; and `byteSwap` applied twice is the
identity. -/
theorem byteSwap_round_trip (R : starData) (hR : R.wellFormed) (host writer : ByteOrder)
    (hne : host ≠ writer) :
    byteSwap (readStored host writer R) = readStored host host R ∧
      readStored host host R = R ∧
      byteSwap (byteSwap R) = R ∧
      (byteSwap R).spec_type = R.spec_type ∧ (byteSwap R).flags = R.flags ∧
      (byteSwap R).unused = R.unused ∧
      ∀ o : ByteOrder,
        store32 o (byteSwap R).RA = (store32 o R.RA).reverse ∧
        store32 o (byteSwap R).Dec = (store32 o R.Dec).reverse ∧
        store32 o (byteSwap R).dRA = (store32 o R.dRA).reverse ∧
        store32 o (byteSwap R).dDec = (store32 o R.dDec).reverse ∧
        store32 o (byteSwap R).parallax = (store32 o R.parallax).reverse ∧
        store32 o (byteSwap R).HD = (store32 o R.HD).reverse ∧
        store16 o (byteSwap R).mag = (store16 o R.mag).reverse ∧
        store16 o (byteSwap R).bv_index = (store16 o R.bv_index).reverse := by
  obtain ⟨h1, h2, h3, h4, h5, h6, h7, h8⟩ := hR
  have hsame : readStored host host R = R := by
    cases R
    simp only [readStored] at *
    simp only [load32_store32_same, load16_store16_same, h1, h2, h3, h4, h5, h6, h7, h8]
  have hother : byteSwap (readStored host writer R) = R := by
    cases R
    simp only [readStored, byteSwap] at *
    simp only [load32_store32_other host writer hne, load16_store16_other host writer hne,
      bswap_32_involutive, bswap_16_involutive, h1, h2, h3, h4, h5, h6, h7, h8]
  have htwice : byteSwap (byteSwap R) = R := by
    cases R
    simp only [byteSwap] at *
    simp only [bswap_32_involutive, bswap_16_involutive, h1, h2, h3, h4, h5, h6, h7, h8]
  refine ⟨hother.trans hsame.symm, hsame, htwice, rfl, rfl, rfl, ?_⟩
  intro o
  exact ⟨store32_bswap o _, store32_bswap o _, store32_bswap o _, store32_bswap o _,
    store32_bswap o _, store32_bswap o _, store16_bswap o _, store16_bswap o _⟩

/-- C9 at the example record, written by a big-endian machine and read by a
little-endian host: the host reads RA as 0x04030201 and the magnitude as 0x2003, and
`byteSwap` restores 0x01020304 and 0x0320. -/
theorem byteSwap_round_trip_witness :
    sampleRecord.wellFormed ∧ ByteOrder.littleEndian ≠ ByteOrder.bigEndian ∧
    (byteSwap (readStored .littleEndian .bigEndian sampleRecord) =
        readStored .littleEndian .littleEndian sampleRecord ∧
      readStored .littleEndian .littleEndian sampleRecord = sampleRecord ∧
      byteSwap (byteSwap sampleRecord) = sampleRecord ∧
      (byteSwap sampleRecord).spec_type = sampleRecord.spec_type ∧
      (byteSwap sampleRecord).flags = sampleRecord.flags ∧
      (byteSwap sampleRecord).unused = sampleRecord.unused ∧
      ∀ o : ByteOrder,
        store32 o (byteSwap sampleRecord).RA = (store32 o sampleRecord.RA).reverse ∧
        store32 o (byteSwap sampleRecord).Dec = (store32 o sampleRecord.Dec).reverse ∧
        store32 o (byteSwap sampleRecord).dRA = (store32 o sampleRecord.dRA).reverse ∧
        store32 o (byteSwap sampleRecord).dDec = (store32 o sampleRecord.dDec).reverse ∧
        store32 o (byteSwap sampleRecord).parallax =
          (store32 o sampleRecord.parallax).reverse ∧
        store32 o (byteSwap sampleRecord).HD = (store32 o sampleRecord.HD).reverse ∧
        store16 o (byteSwap sampleRecord).mag = (store16 o sampleRecord.mag).reverse ∧
        store16 o (byteSwap sampleRecord).bv_index =
          (store16 o sampleRecord.bv_index).reverse) ∧
    (readStored .littleEndian .bigEndian sampleRecord).RA = 67305985 ∧
    (readStored .littleEndian .bigEndian sampleRecord).mag = 8195 :=
  ⟨by decide, by decide,
    byteSwap_round_trip sampleRecord (by decide) .littleEndian .bigEndian (by decide),
    by decide, by decide⟩

/-- C10, the code at the failing input: a header whose faint magnitude is 8.00 (800,
bytes 0x03 0x20 in host order) written in the other byte order is read as 0x2003 = 8195
with the swap flag set.  The two conditional swaps of `faintmag` cancel (the second
stands where `t_MSpT` would be swapped), so the limit is updated from the stored value
8195, giving 81.95, while the same header written in host order gives 8.00, the value
of the byte-swapped field. -/
theorem headerFaintmag_swapped_twice :
    bswap_16 8195 = 800 ∧ headerFaintmag true 8195 = 8195 ∧
      (loadHeader true 8195 emptyComponent).m_FaintMagnitude = 8195 / 100 ∧
      (loadHeader false 800 emptyComponent).m_FaintMagnitude = 8 ∧
      ∀ x, x < 65536 → headerFaintmag true x = x := by
  refine ⟨by decide, by decide, ?_, ?_, ?_⟩
  · have h : headerFaintmag true 8195 = 8195 := by decide
    have h2 : toInt16 8195 = 8195 := by decide
    simp only [loadHeader, h, h2, emptyComponent]
    norm_num
  · have h : headerFaintmag false 800 = 800 := by decide
    have h2 : toInt16 800 = 800 := by decide
    simp only [loadHeader, h, h2, emptyComponent]
    norm_num
  · intro x hx
    simp only [headerFaintmag, if_true]
    exact bswap_16_involutive x hx

/-! ## Facts about catalog loading -/

theorem SameSettings.refl (st : StarComponent) : SameSettings st st :=
  ⟨rfl, rfl, rfl, rfl, rfl, rfl, rfl⟩

theorem SameSettings.trans {a b c : StarComponent} (h1 : SameSettings a b)
    (h2 : SameSettings b c) : SameSettings a c := by
  obtain ⟨a1, a2, a3, a4, a5, a6, a7⟩ := h1
  obtain ⟨b1, b2, b3, b4, b5, b6, b7⟩ := h2
  exact ⟨b1.trans a1, b2.trans a2, b3.trans a3, b4.trans a4, b5.trans a5, b6.trans a6,
    b7.trans a7⟩

/-- The second part of the loop body, for a trixel of the index: it ends normally,
appends the star to the object list and to the cell of the trixel, and leaves the other
cells and the settings alone. -/
theorem registerStar_spec (h : LoadHelpers) (trixel : Trixel) (c : LoadCursor)
    (star : StarObject) (st : StarComponent) (ht : trixel < st.m_starIndex.length) :
    ∃ st', registerStar h trixel c star st = some st' ∧
      st'.m_ObjectList = st.m_ObjectList ++ [star] ∧
      st'.m_starIndex.length = st.m_starIndex.length ∧
      (∀ u l, st.m_starIndex[u]? = some l →
        st'.m_starIndex[u]? = some (if u = trixel then l ++ [some star] else l)) ∧
      SameSettings st st' := by
  have hcell : ∀ u l, st.m_starIndex[u]? = some l →
      (st.m_starIndex.set trixel (st.m_starIndex[trixel] ++ [some star]))[u]? =
        some (if u = trixel then l ++ [some star] else l) := by
    intro u l hu
    by_cases hut : u = trixel
    · subst hut
      rw [List.getElem?_eq_getElem ht] at hu
      rw [List.getElem?_set_self ht, if_pos rfl, ← Option.some.inj hu]
    · rw [List.getElem?_set_ne (Ne.symm hut), if_neg hut]
      exact hu
  unfold registerStar
  split_ifs <;> simp only [List.getElem?_eq_getElem ht] <;>
    exact ⟨_, rfl, rfl, List.length_set _ _ _, hcell, ⟨rfl, rfl, rfl, rfl, rfl, rfl, rfl⟩⟩

/-- The record loop for one trixel of the index: it ends normally with the cursor of
`starsOfRun`, appends the stars created to the object list and to the cell of the
trixel, in order, and leaves the other cells and the settings alone. -/
theorem loadTrixel_spec (h : LoadHelpers) (swap : Bool) (trixel : Trixel) :
    ∀ (n j : Nat) (c : LoadCursor) (st : StarComponent), trixel < st.m_starIndex.length →
      ∃ st', loadTrixel h swap trixel n j (c, st) =
          some ((starsOfRun h swap trixel n j c).2, st') ∧
        st'.m_ObjectList = st.m_ObjectList ++ (starsOfRun h swap trixel n j c).1 ∧
        st'.m_starIndex.length = st.m_starIndex.length ∧
        (∀ u l, st.m_starIndex[u]? = some l →
          st'.m_starIndex[u]? = some (if u = trixel then
            l ++ ((starsOfRun h swap trixel n j c).1).map some else l)) ∧
        SameSettings st st'
  | 0, j, c, st, _ => ⟨st, rfl, by simp [starsOfRun], rfl,
      by intro u l hu; simp [starsOfRun, hu], SameSettings.refl st⟩
  | n + 1, j, c, st, ht => by
    obtain ⟨st1, hreg, hobj1, hlen1, hcell1, hset1⟩ :=
      registerStar_spec h trixel
        { readRecord h swap trixel j c with nstars := (readRecord h swap trixel j c).nstars + 1 }
        (makeStar h (readRecord h swap trixel j c)) st ht
    obtain ⟨st', hrun, hobj, hlen, hcell, hset⟩ :=
      loadTrixel_spec h swap trixel n (j + 1)
        { readRecord h swap trixel j c with nstars := (readRecord h swap trixel j c).nstars + 1 }
        st1 (by rw [hlen1]; exact ht)
    refine ⟨st', ?_, ?_, hlen.trans hlen1, ?_, hset1.trans hset⟩
    · rw [loadTrixel, loadRecord]
      simp only [hreg]
      rw [hrun]
      rfl
    · rw [hobj, hobj1]
      simp [starsOfRun]
    · intro u l hu
      rw [hcell u _ (hcell1 u l hu)]
      by_cases hut : u = trixel
      · simp [hut, starsOfRun]
      · simp [hut]

theorem runAt_nil {α : Type} (i u : Nat) : runAt ([] : List (List α)) i u = [] := by
  unfold runAt
  split <;> simp

theorem runAt_cons {α : Type} (r : List α) (rs : List (List α)) (i u : Nat) :
    runAt (r :: rs) i u = if u = i then r else runAt rs (i + 1) u := by
  unfold runAt
  by_cases hui : u = i
  · subst hui
    simp
  · by_cases hle : i ≤ u
    · have h1 : i + 1 ≤ u := by omega
      have h2 : u - i = (u - (i + 1)) + 1 := by omega
      simp only [hle, h1, if_true, if_neg hui]
      rw [h2, List.getD_cons_succ]
    · have h1 : ¬ i + 1 ≤ u := by omega
      simp [hle, h1, hui]

/-- The trixel loop, when the trixels to go are cells of the index: it ends normally
with the cursor of `starsOfRuns`, appends all stars created to the object list in file
order and the stars of each trixel to the cell of that trixel, and leaves the settings
alone. -/
theorem loadTrixels_spec (h : LoadHelpers) (swap : Bool) (count : Nat → Nat) :
    ∀ (n i : Nat) (c : LoadCursor) (st : StarComponent), i + n ≤ st.m_starIndex.length →
      ∃ st', loadTrixels h swap count n i (c, st) =
          some ((starsOfRuns h swap count n i c).2, st') ∧
        st'.m_ObjectList = st.m_ObjectList ++ (starsOfRuns h swap count n i c).1.flatten ∧
        st'.m_starIndex.length = st.m_starIndex.length ∧
        (∀ u l, st.m_starIndex[u]? = some l →
          st'.m_starIndex[u]? =
            some (l ++ (runAt (starsOfRuns h swap count n i c).1 i u).map some)) ∧
        SameSettings st st'
  | 0, i, c, st, _ => ⟨st, rfl, by simp [starsOfRuns], rfl,
      by intro u l hu; simp [starsOfRuns, runAt_nil, hu], SameSettings.refl st⟩
  | n + 1, i, c, st, hi => by
    obtain ⟨st1, hrun1, hobj1, hlen1, hcell1, hset1⟩ :=
      loadTrixel_spec h swap i (count i) 0 c st
        (lt_of_lt_of_le (Nat.lt_add_of_pos_right (Nat.succ_pos n)) hi)
    obtain ⟨st', hrun, hobj, hlen, hcell, hset⟩ :=
      loadTrixels_spec h swap count n (i + 1) (starsOfRun h swap i (count i) 0 c).2 st1
        (by rw [hlen1]; omega)
    refine ⟨st', ?_, ?_, hlen.trans hlen1, ?_, hset1.trans hset⟩
    · rw [loadTrixels]
      simp only [hrun1]
      rw [hrun]
      rfl
    · rw [hobj, hobj1]
      simp [starsOfRuns]
    · intro u l hu
      rw [hcell u _ (hcell1 u l hu)]
      simp only [starsOfRuns, runAt_cons]
      by_cases hui : u = i
      · subst hui
        have : runAt (starsOfRuns h swap count n (u + 1) (starsOfRun h swap u (count u) 0 c).2).1
            (u + 1) u = [] := by
          unfold runAt
          simp
        simp [this]
      · simp [hui]

/-- The read part of the loop body when the data stream still has a record: the buffer
holds that record, byte-swapped if the file asks for it, and the stream has moved on. -/
theorem readRecord_cons (h : LoadHelpers) (swap : Bool) (t : Trixel) (j : Nat)
    (c : LoadCursor) (r : starData) (rest : List starData) (hc : c.dataRest = r :: rest) :
    (readRecord h swap t j c).stardata = (if swap then byteSwap r else r) ∧
      (readRecord h swap t j c).dataRest = rest := by
  unfold readRecord
  rw [hc]
  cases swap <;> simp only [if_true, if_false, Bool.false_eq_true] <;> split_ifs <;>
    first
      | exact ⟨rfl, rfl⟩
      | (split <;> exact ⟨rfl, rfl⟩)

theorem makeStar_madeFrom (h : LoadHelpers) (swap : Bool) (c : LoadCursor) (r : starData)
    (hc : c.stardata = (if swap then byteSwap r else r)) : MadeFrom h swap (makeStar h c) r :=
  ⟨c.name, c.visibleName, by rw [makeStar, hc]⟩

/-- With enough records in the stream, the stars of a run are made from the next
records of the stream, one each, in order. -/
theorem starsOfRun_madeFrom (h : LoadHelpers) (swap : Bool) (t : Trixel) :
    ∀ (n j : Nat) (c : LoadCursor), n ≤ c.dataRest.length →
      List.Forall₂ (MadeFrom h swap) (starsOfRun h swap t n j c).1 (c.dataRest.take n) ∧
        (starsOfRun h swap t n j c).2.dataRest = c.dataRest.drop n
  | 0, _, c, _ => ⟨by simp [starsOfRun], by simp [starsOfRun]⟩
  | n + 1, j, c, hn => by
    cases hd : c.dataRest with
    | nil => rw [hd] at hn; simp at hn
    | cons r rest =>
      obtain ⟨hbuf, hrest⟩ := readRecord_cons h swap t j c r rest hd
      have hn' : n ≤ rest.length := by
        rw [hd] at hn
        simpa using hn
      have key : ∀ c2 : LoadCursor, c2.dataRest = rest →
          List.Forall₂ (MadeFrom h swap) (starsOfRun h swap t n (j + 1) c2).1 (rest.take n) ∧
            (starsOfRun h swap t n (j + 1) c2).2.dataRest = rest.drop n := by
        intro c2 h2
        have := starsOfRun_madeFrom h swap t n (j + 1) c2 (by rw [h2]; exact hn')
        rw [h2] at this
        exact this
      obtain ⟨hall, hdrop⟩ := key
        { readRecord h swap t j c with nstars := (readRecord h swap t j c).nstars + 1 } hrest
      refine ⟨?_, ?_⟩
      · simp only [starsOfRun, List.take_succ_cons]
        exact List.Forall₂.cons (makeStar_madeFrom h swap _ r hbuf) hall
      · simp only [starsOfRun, List.drop_succ_cons]
        exact hdrop

/-- With as many records in the stream as the counts declare, the stars of each trixel
are made from the records of that trixel's run, one each, in order. -/
theorem starsOfRuns_madeFrom (h : LoadHelpers) (swap : Bool) (count : Nat → Nat) :
    ∀ (n i : Nat) (c : LoadCursor), declaredTotal count n i ≤ c.dataRest.length →
      List.Forall₂ (List.Forall₂ (MadeFrom h swap)) (starsOfRuns h swap count n i c).1
        (fileRuns count n i c.dataRest)
  | 0, _, _, _ => by simp [starsOfRuns, fileRuns]
  | n + 1, i, c, hn => by
    have h1 : count i ≤ c.dataRest.length := by
      simp only [declaredTotal] at hn
      omega
    obtain ⟨hall, hdrop⟩ := starsOfRun_madeFrom h swap i (count i) 0 c h1
    have h2 : declaredTotal count n (i + 1) ≤
        (starsOfRun h swap i (count i) 0 c).2.dataRest.length := by
      rw [hdrop, List.length_drop]
      simp only [declaredTotal] at hn
      omega
    have := starsOfRuns_madeFrom h swap count n (i + 1) _ h2
    rw [hdrop] at this
    simp only [starsOfRuns, fileRuns]
    exact List.Forall₂.cons hall this

theorem starsOfRun_length (h : LoadHelpers) (swap : Bool) (t : Trixel) :
    ∀ (n j : Nat) (c : LoadCursor), (starsOfRun h swap t n j c).1.length = n
  | 0, _, _ => rfl
  | n + 1, j, c => by simp [starsOfRun, starsOfRun_length h swap t n]

theorem loadHeader_fields (swap : Bool) (raw : Nat) (st : StarComponent) :
    (loadHeader swap raw st).m_starIndex = st.m_starIndex ∧
      (loadHeader swap raw st).m_ObjectList = st.m_ObjectList ∧
      (loadHeader swap raw st).starsLoaded = st.starsLoaded ∧
      (loadHeader swap raw st).m_skyMesh = st.m_skyMesh ∧
      (loadHeader swap raw st).m_reindexNum = st.m_reindexNum := by
  unfold loadHeader
  dsimp only
  split_ifs <;> exact ⟨rfl, rfl, rfl, rfl, rfl⟩

theorem runAt_zero {α : Type} (runs : List (List α)) (u : Nat) :
    runAt runs 0 u = runs.getD u [] := by
  simp [runAt]

/-- The faint-limit update takes the larger of the old limit and the header value. -/
theorem loadHeader_faint (swap : Bool) (raw : Nat) (st : StarComponent) :
    (loadHeader swap raw st).m_FaintMagnitude =
      max st.m_FaintMagnitude ((toInt16 (headerFaintmag swap raw) : ℚ) / 100) := by
  unfold loadHeader
  dsimp only
  split_ifs with hc
  · exact (max_eq_right (le_of_lt hc)).symm
  · exact (max_eq_left (not_lt.mp hc)).symm

/-- `loadStaticData` on a component not yet loaded, with both files open, both headers
readable and a mesh no larger than the index: it ends normally, returns true and marks
the stars loaded; the object list gains all stars created, in file order; cell `u` gains
the stars created for trixel `u`, in file order; the faint limit is the larger of the
old one and the header value; the mesh epoch is the epoch of the last full pass. -/
theorem loadStaticData_spec (h : LoadHelpers) (meshSize meshLevel : Nat)
    (data : CatalogFile) (names : NameFile) (buf : starData) (nbuf : starName)
    (st : StarComponent) (hnot : st.starsLoaded = false) (hd : data.headerOk = true)
    (hn : names.headerOk = true) (hsize : meshSize ≤ st.m_starIndex.length) :
    ∃ res, loadStaticData h meshSize meshLevel (some data) (some names) buf nbuf st =
        some res ∧
      res.ok = true ∧ res.comp.starsLoaded = true ∧
      res.comp.m_ObjectList =
        st.m_ObjectList ++ (loadedRuns h meshSize data names buf nbuf).flatten ∧
      res.comp.m_starIndex.length = st.m_starIndex.length ∧
      (∀ u l, st.m_starIndex[u]? = some l →
        res.comp.m_starIndex[u]? =
          some (l ++ ((loadedRuns h meshSize data names buf nbuf).getD u []).map some)) ∧
      res.comp.m_FaintMagnitude =
        max st.m_FaintMagnitude ((toInt16 (headerFaintmag data.byteSwap data.faintmag) : ℚ) / 100) ∧
      res.comp.m_skyMesh = ⟨st.m_reindexNum⟩ ∧
      res.log = (if data.htm_level ≠ meshLevel then [LoadMessage.htmLevelMismatch] else []) ++
        (starsOfRuns h data.byteSwap data.recordCount meshSize 0
          (startCursor data names buf nbuf)).2.log := by
  obtain ⟨f1, f2, f3, f4, f5⟩ :=
    loadHeader_fields data.byteSwap data.faintmag { st with m_skyMesh := ⟨st.m_reindexNum⟩ }
  obtain ⟨st', hrun, hobj, hlen, hcell, hset⟩ :=
    loadTrixels_spec h data.byteSwap data.recordCount meshSize 0
      (startCursor data names buf nbuf)
      (loadHeader data.byteSwap data.faintmag { st with m_skyMesh := ⟨st.m_reindexNum⟩ })
      (by rw [f1]; simpa using hsize)
  obtain ⟨s1, s2, s3, s4, s5, s6, s7⟩ := hset
  refine ⟨⟨true, { st' with starsLoaded := true }, _⟩, ?_, rfl, rfl, ?_, ?_, ?_, ?_, ?_, rfl⟩
  · unfold loadStaticData
    simp only [hnot, hd, hn, Bool.false_eq_true, if_false, Bool.true_eq_false]
    have hrun' := hrun
    simp only [hnot] at hrun'
    simp only [hrun']
  · show st'.m_ObjectList = _
    rw [hobj, f2]
    rfl
  · show st'.m_starIndex.length = _
    rw [hlen, f1]
  · intro u l hu
    show st'.m_starIndex[u]? = _
    have := hcell u l (by rw [f1]; exact hu)
    rw [this, runAt_zero]
    rfl
  · show st'.m_FaintMagnitude = _
    rw [s3, loadHeader_faint]
  · show st'.m_skyMesh = _
    rw [s5, f4]

/-! ## Full reindex changes membership only (C13), faintest magnitude (C14) -/

theorem flatten_set_append_perm {α : Type} (a : α) :
    ∀ (L : List (List α)) (i : Nat) (l : List α), L[i]? = some l →
      List.Perm (L.set i (l ++ [a])).flatten (L.flatten ++ [a])
  | [], i, l, h => by simp at h
  | x :: xs, 0, l, h => by
    simp only [List.getElem?_cons_zero, Option.some.injEq] at h
    subst h
    simp only [List.set_cons_zero, List.flatten_cons, List.append_assoc]
    exact List.Perm.append_left _ List.perm_append_comm
  | x :: xs, i + 1, l, h => by
    simp only [List.getElem?_cons_succ] at h
    simp only [List.set_cons_succ, List.flatten_cons, List.append_assoc]
    exact List.Perm.append_left _ (flatten_set_append_perm a xs i l h)

/-- The repopulation loop adds to the cells, taken together, exactly the records of the
object list. -/
theorem repopulate_perm (indexStar : KSNumbers → StarObject → Trixel) (num : KSNumbers) :
    ∀ (objs : List StarObject) (idx idx' : StarIndex),
      repopulate indexStar num objs idx = some idx' →
      List.Perm idx'.flatten (idx.flatten ++ objs.map some)
  | [], idx, idx', h => by
    simp only [repopulate, Option.some.injEq] at h
    subst h
    simp
  | star :: rest, idx, idx', h => by
    rw [repopulate] at h
    cases hc : idx[indexStar num star]? with
    | none => simp [hc] at h
    | some l =>
      simp only [hc] at h
      have h1 := repopulate_perm indexStar num rest _ idx' h
      have h2 := flatten_set_append_perm (some star) idx (indexStar num star) l hc
      refine h1.trans ?_
      refine (List.Perm.append_right _ h2).trans ?_
      simp

theorem clearIndex_flatten (idx : StarIndex) : (clearIndex idx).flatten = [] := by
  rw [clearIndex_eq_replicate]
  induction idx.length with
  | zero => rfl
  | succ n ih => simp [List.replicate_succ]

theorem count_some_map (s : StarObject) :
    ∀ (l : List StarObject), (l.map some).count (some s) = l.count s
  | [] => rfl
  | a :: rest => by
    simp only [List.map_cons, List.count_cons, count_some_map s rest]
    by_cases h : a = s
    · simp [h]
    · simp [h]

theorem count_filedUnder (indexStar : KSNumbers → StarObject → Trixel) (num : KSNumbers)
    (objs : List StarObject) (s : StarObject) :
    (filedUnder indexStar num objs (indexStar num s)).count (some s) = objs.count s := by
  unfold filedUnder
  rw [count_some_map]
  exact List.count_filter (by simp)

/-- C13: for mesh results within the index, `reindexAll` ends normally; the cells taken
together are a permutation of the object list, so no cell holds anything else; each
record of the object list is in the cell the mesh gives it and in no other, as many
times as it is in the object list (once, when the list has no repetition); the object
list and the number of cells are unchanged. -/
theorem reindexAll_membership_only (indexStar : KSNumbers → StarObject → Trixel)
    (num : KSNumbers) (st : StarComponent)
    (h : ∀ s ∈ st.m_ObjectList, indexStar num s < st.m_starIndex.length) :
    ∃ st', reindexAll indexStar num st = some st' ∧
      List.Perm st'.m_starIndex.flatten (st.m_ObjectList.map some) ∧
      st'.m_ObjectList = st.m_ObjectList ∧
      st'.m_starIndex.length = st.m_starIndex.length ∧
      (∀ s ∈ st.m_ObjectList, ∀ t l, st'.m_starIndex[t]? = some l →
        (some s ∈ l ↔ t = indexStar num s) ∧
        (t = indexStar num s → l.count (some s) = st.m_ObjectList.count s)) ∧
      (st.m_ObjectList.Nodup → ∀ s ∈ st.m_ObjectList,
        ∃ l, st'.m_starIndex[indexStar num s]? = some l ∧ l.count (some s) = 1) := by
  obtain ⟨st', hrun, hlen, hcells, hobjs, _, _, _, _⟩ := reindexAll_spec indexStar num st h
  have hperm : List.Perm st'.m_starIndex.flatten (st.m_ObjectList.map some) := by
    unfold reindexAll at hrun
    cases hrep : repopulate indexStar num st.m_ObjectList (clearIndex st.m_starIndex) with
    | none => simp [hrep] at hrun
    | some idx' =>
      simp only [hrep, Option.some.injEq] at hrun
      subst hrun
      have := repopulate_perm indexStar num _ _ idx' hrep
      simpa [clearIndex_flatten] using this
  refine ⟨st', hrun, hperm, hobjs, hlen, ?_, ?_⟩
  · intro s hs t l htl
    have ht : t < st.m_starIndex.length := by
      rw [← hlen]
      exact (List.getElem?_eq_some.mp htl).1
    rw [hcells t ht] at htl
    have hl := Option.some.inj htl
    constructor
    · rw [← hl, mem_filedUnder]
      exact ⟨fun hh => hh.2.symm, fun hh => ⟨hs, hh.symm⟩⟩
    · intro hts
      rw [← hl, hts]
      exact count_filedUnder indexStar num _ s
  · intro hnd s hs
    refine ⟨_, hcells _ (h s hs), ?_⟩
    rw [count_filedUnder]
    exact List.count_eq_one_of_mem hnd hs

theorem reindexAll_membership_only_witness :
    (∀ s ∈ driftState.m_ObjectList, stripMesh ⟨5⟩ s < driftState.m_starIndex.length) ∧
    ∃ st', reindexAll stripMesh ⟨5⟩ driftState = some st' ∧
      List.Perm st'.m_starIndex.flatten (driftState.m_ObjectList.map some) ∧
      st'.m_ObjectList = driftState.m_ObjectList ∧
      st'.m_starIndex.length = driftState.m_starIndex.length ∧
      (∀ s ∈ driftState.m_ObjectList, ∀ t l, st'.m_starIndex[t]? = some l →
        (some s ∈ l ↔ t = stripMesh ⟨5⟩ s) ∧
        (t = stripMesh ⟨5⟩ s → l.count (some s) = driftState.m_ObjectList.count s)) ∧
      (driftState.m_ObjectList.Nodup → ∀ s ∈ driftState.m_ObjectList,
        ∃ l, st'.m_starIndex[stripMesh ⟨5⟩ s]? = some l ∧ l.count (some s) = 1) :=
  ⟨fun s _ => stripMesh_lt_two ⟨5⟩ s,
    reindexAll_membership_only stripMesh ⟨5⟩ driftState (fun s _ => stripMesh_lt_two ⟨5⟩ s)⟩

theorem faintMagnitudeLoop_spec :
    ∀ (deeps : List DeepStarComponent) (f : ℚ),
      f ≤ faintMagnitudeLoop deeps f ∧
      (∀ d ∈ deeps, d.m_FaintMagnitude ≤ faintMagnitudeLoop deeps f) ∧
      (faintMagnitudeLoop deeps f = f ∨
        ∃ d ∈ deeps, faintMagnitudeLoop deeps f = d.m_FaintMagnitude)
  | [], f => ⟨le_refl _, by simp, Or.inl rfl⟩
  | d :: rest, f => by
    rw [faintMagnitudeLoop]
    by_cases hlt : f < d.m_FaintMagnitude
    · simp only [if_pos hlt]
      obtain ⟨h1, h2, h3⟩ := faintMagnitudeLoop_spec rest d.m_FaintMagnitude
      refine ⟨le_trans (le_of_lt hlt) h1, ?_, ?_⟩
      · intro e he
        rcases List.mem_cons.mp he with rfl | he'
        · exact h1
        · exact h2 e he'
      · right
        rcases h3 with h3 | ⟨e, he, h3⟩
        · exact ⟨d, List.mem_cons_self _ _, h3⟩
        · exact ⟨e, List.mem_cons_of_mem _ he, h3⟩
    · simp only [if_neg hlt]
      obtain ⟨h1, h2, h3⟩ := faintMagnitudeLoop_spec rest f
      refine ⟨h1, ?_, ?_⟩
      · intro e he
        rcases List.mem_cons.mp he with rfl | he'
        · exact le_trans (not_lt.mp hlt) h1
        · exact h2 e he'
      · rcases h3 with h3 | ⟨e, he, h3⟩
        · exact Or.inl h3
        · exact Or.inr ⟨e, List.mem_cons_of_mem _ he, h3⟩

/-- C14: `faintMagnitude()` is at least the base tier's faint magnitude and at least
every deep tier's, and equals one of them; with no deep tier it is the base tier's.  The
header update of `loadStaticData` leaves the base value at the larger of its old value
and the header's faint magnitude / 100, so it never lowers it, changes it only when the
header value is larger, and from the initial -5.0 never goes below -5.0. -/
theorem faintMagnitude_is_max (st : StarComponent) :
    st.m_FaintMagnitude ≤ faintMagnitude st ∧
      (∀ d ∈ st.m_DeepStarComponents, d.m_FaintMagnitude ≤ faintMagnitude st) ∧
      (faintMagnitude st = st.m_FaintMagnitude ∨
        ∃ d ∈ st.m_DeepStarComponents, faintMagnitude st = d.m_FaintMagnitude) ∧
      (st.m_DeepStarComponents = [] → faintMagnitude st = st.m_FaintMagnitude) ∧
      ∀ (swapBytes : Bool) (faintmag : Nat),
        (loadHeader swapBytes faintmag st).m_FaintMagnitude =
          max st.m_FaintMagnitude ((toInt16 (headerFaintmag swapBytes faintmag) : ℚ) / 100) ∧
        st.m_FaintMagnitude ≤ (loadHeader swapBytes faintmag st).m_FaintMagnitude ∧
        (¬ (toInt16 (headerFaintmag swapBytes faintmag) : ℚ) / 100 > st.m_FaintMagnitude →
          loadHeader swapBytes faintmag st = st) ∧
        headerFaintmag false faintmag = faintmag ∧
        (-5 ≤ st.m_FaintMagnitude → -5 ≤ (loadHeader swapBytes faintmag st).m_FaintMagnitude) := by
  obtain ⟨h1, h2, h3⟩ := faintMagnitudeLoop_spec st.m_DeepStarComponents st.m_FaintMagnitude
  refine ⟨h1, h2, h3, ?_, ?_⟩
  · intro hnil
    unfold faintMagnitude
    rw [hnil]
    rfl
  · intro swapBytes faintmag
    have hmax := loadHeader_faint swapBytes faintmag st
    refine ⟨hmax, ?_, ?_, rfl, ?_⟩
    · rw [hmax]
      exact le_max_left _ _
    · intro hc
      unfold loadHeader
      dsimp only
      rw [if_neg hc]
    · intro h5
      rw [hmax]
      exact le_trans h5 (le_max_left _ _)

/-- C14 at the component as constructed, one deep tier of faint magnitude 8 added, and
a header faint magnitude of 8.00. -/
theorem faintMagnitude_is_max_witness :
    faintMagnitude deepEightState = 8 ∧
      (loadHeader false 800 emptyComponent).m_FaintMagnitude = max (-5) (800 / 100) ∧
      faintMagnitude emptyComponent = -5 :=
  ⟨by
      simp only [faintMagnitude, faintMagnitudeLoop, deepEightState]
      norm_num,
    by
      have := ((faintMagnitude_is_max emptyComponent).2.2.2.2 false 800).1
      have h2 : toInt16 (headerFaintmag false 800) = 800 := by decide
      rw [h2] at this
      simpa [emptyComponent] using this,
    rfl⟩

/-! ## Facts about loaded cells -/

theorem sampleInit_recFaint : (sampleInit recFaint).setNames "Faint" "alp" = starFaint := by
  norm_num [sampleInit, recFaint, toInt16, StarObject.setNames, starFaint]

theorem sampleInit_recBright :
    (sampleInit recBright).setNames "Bright" "bet" = starBright := by
  norm_num [sampleInit, recBright, toInt16, StarObject.setNames, starBright]

/-- An index of two cells is determined by its two cells. -/
theorem index_eq_pair (idx : StarIndex) (a b : StarList) (hlen : idx.length = 2)
    (h0 : idx[0]? = some a) (h1 : idx[1]? = some b) : idx = [a, b] := by
  match idx, hlen with
  | [x, y], _ =>
    simp only [List.getElem?_cons_zero, Option.some.injEq] at h0
    simp only [List.getElem?_cons_succ, List.getElem?_cons_zero, Option.some.injEq] at h1
    rw [h0, h1]

theorem forall₂_getD {α β : Type} (R : α → β → Prop) :
    ∀ (l1 : List (List α)) (l2 : List (List β)), List.Forall₂ (List.Forall₂ R) l1 l2 →
      ∀ t, List.Forall₂ R (l1.getD t []) (l2.getD t [])
  | [], [], _, t => by simp
  | a :: as, b :: bs, h, t => by
    cases h with
    | cons hab hrest =>
      cases t with
      | zero => simpa using hab
      | succ t => simpa using forall₂_getD R as bs hrest t

theorem madeFrom_mag (h : LoadHelpers) (swap : Bool) :
    ∀ (stars : List StarObject) (recs : List starData),
      List.Forall₂ (MadeFrom h swap) stars recs →
      stars.map (fun s => s.mag) =
        recs.map (fun r => (h.init (if swap then byteSwap r else r)).mag)
  | [], [], _ => rfl
  | s :: ss, r :: rs, hall => by
    cases hall with
    | cons hsr hrest =>
      obtain ⟨n1, n2, hs⟩ := hsr
      simp only [List.map_cons, madeFrom_mag h swap ss rs hrest, hs]
      rfl

theorem records_map_some (l : List StarObject) : records (l.map some) = l := by
  unfold records
  induction l with
  | nil => rfl
  | cons a rest ih => simp

theorem forall₂_mem_left {α β : Type} (R : α → β → Prop) :
    ∀ (l1 : List α) (l2 : List β), List.Forall₂ R l1 l2 → ∀ a ∈ l1, ∃ b ∈ l2, R a b
  | [], [], _, a, ha => by simp at ha
  | x :: xs, y :: ys, h, a, ha => by
    cases h with
    | cons hxy hrest =>
      rcases List.mem_cons.mp ha with rfl | ha'
      · exact ⟨y, List.mem_cons_self _ _, hxy⟩
      · obtain ⟨b, hb, hab⟩ := forall₂_mem_left R xs ys hrest a ha'
        exact ⟨b, List.mem_cons_of_mem _ hb, hab⟩

theorem getElem?_replicate_nil (n t : Nat) (ht : t < n) :
    (List.replicate n ([] : StarList))[t]? = some [] :=
  List.getElem?_replicate_of_lt ht

theorem loadedRuns_unsortedFile :
    loadedRuns sampleHelpers 2 unsortedFile faintBrightNames zeroRecord ⟨"", ""⟩ =
      [[(sampleInit recFaint).setNames "Faint" "alp",
        (sampleInit recBright).setNames "Bright" "bet"], []] := rfl

theorem loadedRuns_misfiledFile :
    loadedRuns sampleHelpers 2 misfiledFile faintBrightNames zeroRecord ⟨"", ""⟩ =
      [[], [(sampleInit recFaint).setNames "Faint" "alp"]] := rfl

/-! ## Loading keeps the file's order (C11) and the file's trixel runs (C12) -/

/-- C11, as stated, fails: from a file whose run for trixel 0 holds a record of
magnitude 5.00 before one of magnitude 2.00, `loadStaticData` returns true and leaves
cell 0 as [Faint, Bright], file order, which is not in non-decreasing magnitude order. -/
theorem loadStaticData_keeps_file_order :
    ∃ res, loadStaticData sampleHelpers 2 3 (some unsortedFile) (some faintBrightNames)
        zeroRecord ⟨"", ""⟩ emptyComponent = some res ∧
      res.ok = true ∧
      res.comp.m_starIndex = [[some starFaint, some starBright], []] ∧
      ¬ magSorted [some starFaint, some starBright] := by
  obtain ⟨res, hres, hok, _, _, hlen, hcell, _⟩ :=
    loadStaticData_spec sampleHelpers 2 3 unsortedFile faintBrightNames zeroRecord ⟨"", ""⟩
      emptyComponent rfl rfl rfl (by decide)
  refine ⟨res, hres, hok, ?_, by decide⟩
  have h0 := hcell 0 [] rfl
  have h1 := hcell 1 [] rfl
  rw [loadedRuns_unsortedFile, sampleInit_recFaint, sampleInit_recBright] at h0 h1
  exact index_eq_pair _ _ _ hlen h0 h1

/-- C11, amended: when the index starts with empty cells and the file holds the records
its counts declare, `loadStaticData` leaves in each cell the stars of that trixel's run
in file order: the magnitudes of the cell are the magnitudes of the run's records, in
the same order, so the cell is sorted by non-decreasing magnitude exactly when the
trixel's run in the file is. -/
theorem loadStaticData_sorted_iff_run_sorted (h : LoadHelpers) (meshSize meshLevel : Nat)
    (data : CatalogFile) (names : NameFile) (buf : starData) (nbuf : starName)
    (st : StarComponent) (hnot : st.starsLoaded = false) (hd : data.headerOk = true)
    (hn : names.headerOk = true) (hidx : st.m_starIndex = List.replicate meshSize [])
    (hdata : declaredTotal data.recordCount meshSize 0 ≤ data.records.length) :
    ∃ res, loadStaticData h meshSize meshLevel (some data) (some names) buf nbuf st =
        some res ∧
      ∀ t, t < meshSize → ∃ cell, res.comp.m_starIndex[t]? = some cell ∧
        none ∉ cell ∧
        (records cell).map (fun s => s.mag) =
          ((fileRuns data.recordCount meshSize 0 data.records).getD t []).map
            (fun r => (h.init (if data.byteSwap then byteSwap r else r)).mag) ∧
        (magSorted cell ↔
          (((fileRuns data.recordCount meshSize 0 data.records).getD t []).map
            (fun r => (h.init (if data.byteSwap then byteSwap r else r)).mag)).Pairwise
              (fun a b => a ≤ b)) := by
  obtain ⟨res, hres, _, _, _, _, hcell, _⟩ :=
    loadStaticData_spec h meshSize meshLevel data names buf nbuf st hnot hd hn
      (by rw [hidx, List.length_replicate])
  refine ⟨res, hres, ?_⟩
  intro t ht
  have hc := hcell t [] (by rw [hidx]; exact getElem?_replicate_nil meshSize t ht)
  rw [List.nil_append] at hc
  have hall := forall₂_getD (MadeFrom h data.byteSwap) _ _
    (starsOfRuns_madeFrom h data.byteSwap data.recordCount meshSize 0
      (startCursor data names buf nbuf) hdata) t
  have hmag := madeFrom_mag h data.byteSwap _ _ hall
  refine ⟨_, hc, by simp, ?_, ?_⟩
  · rw [records_map_some]
    exact hmag
  · unfold magSorted
    rw [records_map_some]
    rw [← List.pairwise_map (f := fun s : StarObject => s.mag) (R := fun a b => a ≤ b)]
    exact Iff.of_eq (congrArg _ hmag)

/-- C11 at the example file that stores the bright record first. -/
theorem loadStaticData_sorted_iff_run_sorted_witness :
    emptyComponent.starsLoaded = false ∧ levelFiveFile.headerOk = true ∧
    brightFaintNames.headerOk = true ∧ emptyComponent.m_starIndex = List.replicate 2 [] ∧
    declaredTotal levelFiveFile.recordCount 2 0 ≤ levelFiveFile.records.length ∧
    ∃ res, loadStaticData sampleHelpers 2 3 (some levelFiveFile) (some brightFaintNames)
        zeroRecord ⟨"", ""⟩ emptyComponent = some res ∧
      ∀ t, t < 2 → ∃ cell, res.comp.m_starIndex[t]? = some cell ∧
        none ∉ cell ∧
        (records cell).map (fun s => s.mag) =
          ((fileRuns levelFiveFile.recordCount 2 0 levelFiveFile.records).getD t []).map
            (fun r => (sampleHelpers.init
              (if levelFiveFile.byteSwap then byteSwap r else r)).mag) ∧
        (magSorted cell ↔
          (((fileRuns levelFiveFile.recordCount 2 0 levelFiveFile.records).getD t []).map
            (fun r => (sampleHelpers.init
              (if levelFiveFile.byteSwap then byteSwap r else r)).mag)).Pairwise
              (fun a b => a ≤ b)) :=
  ⟨rfl, rfl, rfl, rfl, by decide,
    loadStaticData_sorted_iff_run_sorted sampleHelpers 2 3 levelFiveFile brightFaintNames
      zeroRecord ⟨"", ""⟩ emptyComponent rfl rfl rfl rfl (by decide)⟩

/-- C12, as stated, fails: a record that the file stores in the run of trixel 1, while
the mesh files its position under trixel 0 at the reference epoch, is loaded into
cell 1. -/
theorem loadStaticData_files_by_run :
    ∃ res, loadStaticData sampleHelpers 2 3 (some misfiledFile) (some faintBrightNames)
        zeroRecord ⟨"", ""⟩ emptyComponent = some res ∧
      res.comp.m_starIndex = [[], [some starFaint]] ∧
      stripMesh res.comp.m_skyMesh.m_KSNumbers starFaint = 0 := by
  obtain ⟨res, hres, _, _, _, hlen, hcell, _, hmesh, _⟩ :=
    loadStaticData_spec sampleHelpers 2 3 misfiledFile faintBrightNames zeroRecord ⟨"", ""⟩
      emptyComponent rfl rfl rfl (by decide)
  refine ⟨res, hres, ?_, ?_⟩
  · have h0 := hcell 0 [] rfl
    have h1 := hcell 1 [] rfl
    rw [loadedRuns_misfiledFile, sampleInit_recFaint] at h0 h1
    exact index_eq_pair _ _ _ hlen h0 h1
  · rw [hmesh]
    norm_num [stripMesh, starFaint, emptyComponent]

/-- C12, amended: when the mesh is no larger than the index and the file holds the
records its counts declare, `loadStaticData` ends normally; the stars it creates are
made one from each record, in file order; each is appended to the object list and to
the cell whose trixel is the run of the file the record is stored in; the mesh epoch is
the epoch of the last full pass.  So a loaded record sits in the cell the mesh gives
its position whenever the file stores each record in the run of that cell. -/
theorem loadStaticData_cell_is_file_run (h : LoadHelpers) (meshSize meshLevel : Nat)
    (data : CatalogFile) (names : NameFile) (buf : starData) (nbuf : starName)
    (st : StarComponent) (hnot : st.starsLoaded = false) (hd : data.headerOk = true)
    (hn : names.headerOk = true) (hsize : meshSize ≤ st.m_starIndex.length)
    (hdata : declaredTotal data.recordCount meshSize 0 ≤ data.records.length) :
    ∃ res runs, loadStaticData h meshSize meshLevel (some data) (some names) buf nbuf st =
        some res ∧
      List.Forall₂ (List.Forall₂ (MadeFrom h data.byteSwap)) runs
        (fileRuns data.recordCount meshSize 0 data.records) ∧
      res.comp.m_ObjectList = st.m_ObjectList ++ runs.flatten ∧
      (∀ u l, st.m_starIndex[u]? = some l →
        res.comp.m_starIndex[u]? = some (l ++ (runs.getD u []).map some)) ∧
      res.comp.m_skyMesh.m_KSNumbers = st.m_reindexNum ∧
      ∀ indexStar : KSNumbers → StarObject → Trixel,
        (∀ t, ∀ r ∈ (fileRuns data.recordCount meshSize 0 data.records).getD t [],
          ∀ star, MadeFrom h data.byteSwap star r → indexStar st.m_reindexNum star = t) →
        ∀ t, ∀ s ∈ runs.getD t [], indexStar res.comp.m_skyMesh.m_KSNumbers s = t := by
  obtain ⟨res, hres, _, _, hobj, _, hcell, _, hmesh, _⟩ :=
    loadStaticData_spec h meshSize meshLevel data names buf nbuf st hnot hd hn hsize
  have hall := starsOfRuns_madeFrom h data.byteSwap data.recordCount meshSize 0
    (startCursor data names buf nbuf) hdata
  refine ⟨res, loadedRuns h meshSize data names buf nbuf, hres, hall, hobj, hcell,
    by rw [hmesh], ?_⟩
  intro indexStar hfile t s hs
  obtain ⟨r, hr, hsr⟩ := forall₂_mem_left _ _ _
    (forall₂_getD (MadeFrom h data.byteSwap) _ _ hall t) s hs
  rw [hmesh]
  exact hfile t r hr s hsr

/-- C12 at the example file that stores two records in the run of trixel 0. -/
theorem loadStaticData_cell_is_file_run_witness :
    emptyComponent.starsLoaded = false ∧ unsortedFile.headerOk = true ∧
    faintBrightNames.headerOk = true ∧ 2 ≤ emptyComponent.m_starIndex.length ∧
    declaredTotal unsortedFile.recordCount 2 0 ≤ unsortedFile.records.length ∧
    ∃ res runs, loadStaticData sampleHelpers 2 3 (some unsortedFile) (some faintBrightNames)
        zeroRecord ⟨"", ""⟩ emptyComponent = some res ∧
      List.Forall₂ (List.Forall₂ (MadeFrom sampleHelpers unsortedFile.byteSwap)) runs
        (fileRuns unsortedFile.recordCount 2 0 unsortedFile.records) ∧
      res.comp.m_ObjectList = emptyComponent.m_ObjectList ++ runs.flatten ∧
      (∀ u l, emptyComponent.m_starIndex[u]? = some l →
        res.comp.m_starIndex[u]? = some (l ++ (runs.getD u []).map some)) ∧
      res.comp.m_skyMesh.m_KSNumbers = emptyComponent.m_reindexNum ∧
      ∀ indexStar : KSNumbers → StarObject → Trixel,
        (∀ t, ∀ r ∈ (fileRuns unsortedFile.recordCount 2 0 unsortedFile.records).getD t [],
          ∀ star, MadeFrom sampleHelpers unsortedFile.byteSwap star r →
            indexStar emptyComponent.m_reindexNum star = t) →
        ∀ t, ∀ s ∈ runs.getD t [], indexStar res.comp.m_skyMesh.m_KSNumbers s = t :=
  ⟨rfl, rfl, rfl, by decide, by decide,
    loadStaticData_cell_is_file_run sampleHelpers 2 3 unsortedFile faintBrightNames
      zeroRecord ⟨"", ""⟩ emptyComponent rfl rfl rfl (by decide) (by decide)⟩

theorem loadedRuns_levelFiveFile :
    loadedRuns sampleHelpers 2 levelFiveFile brightFaintNames zeroRecord ⟨"", ""⟩ =
      [[(sampleInit recBright).setNames "Bright" "bet",
        (sampleInit recFaint).setNames "Faint" "alp"], []] := rfl

theorem loadedRuns_truncatedFile :
    loadedRuns sampleHelpers 2 truncatedFile brightName zeroRecord ⟨"", ""⟩ =
      [[(sampleInit recBright).setNames "Bright" "bet",
        (sampleInit recBright).setNames "Bright" "bet"], []] := rfl

/-! ## Mesh-level mismatch (C15, C16), unavailable files (C17), truncated files (C18) -/

/-- C16, as stated, fails: a file whose header stores mesh level 5, loaded with mesh
level 3 configured, is loaded all the same: `loadStaticData` returns true, marks the
stars loaded, and both records are in the object list and in cell 0. -/
theorem loadStaticData_level_mismatch_not_fatal :
    ∃ res, loadStaticData sampleHelpers 2 3 (some levelFiveFile) (some brightFaintNames)
        zeroRecord ⟨"", ""⟩ emptyComponent = some res ∧
      levelFiveFile.htm_level = 5 ∧
      res.ok = true ∧ res.comp.starsLoaded = true ∧
      res.comp.m_ObjectList = [starBright, starFaint] ∧
      res.comp.m_starIndex = [[some starBright, some starFaint], []] ∧
      res.log = [LoadMessage.htmLevelMismatch] := by
  obtain ⟨res, hres, hok, hloaded, hobj, hlen, hcell, _, _, hlog⟩ :=
    loadStaticData_spec sampleHelpers 2 3 levelFiveFile brightFaintNames zeroRecord ⟨"", ""⟩
      emptyComponent rfl rfl rfl (by decide)
  refine ⟨res, hres, rfl, hok, hloaded, ?_, ?_, ?_⟩
  · rw [hobj, loadedRuns_levelFiveFile, sampleInit_recFaint, sampleInit_recBright]
    rfl
  · have h0 := hcell 0 [] rfl
    have h1 := hcell 1 [] rfl
    rw [loadedRuns_levelFiveFile, sampleInit_recFaint, sampleInit_recBright] at h0 h1
    exact index_eq_pair _ _ _ hlen h0 h1
  · rw [hlog]
    rfl

/-- C16, amended: a mesh-level mismatch does not abort the load.  The mesh level stored
in the header influences nothing but the warning: the return value and the component
that `loadStaticData` leaves are the same whatever level the header stores. -/
theorem loadStaticData_ignores_level (h : LoadHelpers) (meshSize meshLevel : Nat)
    (data : CatalogFile) (nameFile : Option NameFile) (buf : starData) (nbuf : starName)
    (st : StarComponent) (level : Nat) :
    (loadStaticData h meshSize meshLevel (some { data with htm_level := level }) nameFile
        buf nbuf st).map (fun r => (r.ok, r.comp)) =
      (loadStaticData h meshSize meshLevel (some data) nameFile buf nbuf st).map
        (fun r => (r.ok, r.comp)) := by
  unfold loadStaticData
  cases hl : st.starsLoaded
  · simp only [Bool.false_eq_true, if_false]
    cases nameFile with
    | none => rfl
    | some names =>
      cases hd : data.headerOk <;> cases hn : names.headerOk <;>
        simp only [hd, hn, if_true, if_false, Bool.true_eq_false, Bool.false_eq_true,
          startCursor]
      split <;> rfl
  · simp only [if_true]

/-- C17: on a component not yet loaded, when the data file or the name file cannot be
opened, or the header of either cannot be read, `loadStaticData` returns false and
leaves the component as it was but for the mesh epoch: nothing is added to the object
list, to any cell, to the name and cross-reference tables or to the fast-mover bands,
and the stars stay marked as not loaded. -/
theorem loadStaticData_unavailable (h : LoadHelpers) (meshSize meshLevel : Nat)
    (dataFile : Option CatalogFile) (nameFile : Option NameFile) (buf : starData)
    (nbuf : starName) (st : StarComponent) (hnot : st.starsLoaded = false)
    (hfail : dataFile = none ∨ nameFile = none ∨
      (∃ d, dataFile = some d ∧ d.headerOk = false) ∨
      (∃ n, nameFile = some n ∧ n.headerOk = false)) :
    ∃ res, loadStaticData h meshSize meshLevel dataFile nameFile buf nbuf st = some res ∧
      res.ok = false ∧
      res.comp = { st with m_skyMesh := ⟨st.m_reindexNum⟩ } ∧
      res.comp.m_ObjectList = st.m_ObjectList ∧ res.comp.m_starIndex = st.m_starIndex ∧
      res.comp.m_genName = st.m_genName ∧ res.comp.m_HDHash = st.m_HDHash ∧
      res.comp.objectNames = st.objectNames ∧
      res.comp.m_highPMStars = st.m_highPMStars ∧ res.comp.starsLoaded = false := by
  unfold loadStaticData
  simp only [hnot, if_false, Bool.false_eq_true]
  cases dataFile with
  | none => exact ⟨_, rfl, rfl, rfl, rfl, rfl, rfl, rfl, rfl, rfl, rfl⟩
  | some data =>
    cases nameFile with
    | none => exact ⟨_, rfl, rfl, rfl, rfl, rfl, rfl, rfl, rfl, rfl, rfl⟩
    | some names =>
      by_cases hd : data.headerOk = false
      · simp only [hd, if_true]
        exact ⟨_, rfl, rfl, rfl, rfl, rfl, rfl, rfl, rfl, rfl, rfl⟩
      · by_cases hn : names.headerOk = false
        · simp only [hd, hn, if_true, if_false, Bool.false_eq_true]
          exact ⟨_, rfl, rfl, rfl, rfl, rfl, rfl, rfl, rfl, rfl, rfl⟩
        · exfalso
          rcases hfail with hf | hf | ⟨d, hf, hd'⟩ | ⟨n, hf, hn'⟩
          · cases hf
          · cases hf
          · cases hf
            exact hd hd'
          · cases hf
            exact hn hn'

/-- C17 at the component as constructed, when `namedstars.dat` cannot be opened. -/
theorem loadStaticData_unavailable_witness :
    emptyComponent.starsLoaded = false ∧
    ∃ res, loadStaticData sampleHelpers 2 3 none (some brightFaintNames) zeroRecord ⟨"", ""⟩
        emptyComponent = some res ∧
      res.ok = false ∧
      res.comp = { emptyComponent with m_skyMesh := ⟨emptyComponent.m_reindexNum⟩ } ∧
      res.comp.m_ObjectList = emptyComponent.m_ObjectList ∧
      res.comp.m_starIndex = emptyComponent.m_starIndex ∧
      res.comp.m_genName = emptyComponent.m_genName ∧
      res.comp.m_HDHash = emptyComponent.m_HDHash ∧
      res.comp.objectNames = emptyComponent.objectNames ∧
      res.comp.m_highPMStars = emptyComponent.m_highPMStars ∧
      res.comp.starsLoaded = false :=
  ⟨rfl, loadStaticData_unavailable sampleHelpers 2 3 none (some brightFaintNames) zeroRecord
    ⟨"", ""⟩ emptyComponent rfl (Or.inl rfl)⟩

/-- C18, the code at the failing input: the file declares two records for trixel 0 but
its stream holds one, and the name table holds one entry.  The second `fread` fails; the
loop writes the message and goes on with the buffer as the first read left it, so
`loadStaticData` returns true and marks the stars loaded with a second star in the
object list and in cell 0 that was never read from the file, a copy of the first. -/
theorem loadStaticData_truncated_file :
    ∃ res, loadStaticData sampleHelpers 2 3 (some truncatedFile) (some brightName)
        zeroRecord ⟨"", ""⟩ emptyComponent = some res ∧
      truncatedFile.recordCount 0 = 2 ∧ truncatedFile.records = [recBright] ∧
      res.ok = true ∧ res.comp.starsLoaded = true ∧
      res.comp.m_ObjectList = [starBright, starBright] ∧
      res.comp.m_starIndex = [[some starBright, some starBright], []] ∧
      res.log = [LoadMessage.recordReadError 1 0, LoadMessage.nameReadError 0 1] := by
  obtain ⟨res, hres, hok, hloaded, hobj, hlen, hcell, _, _, hlog⟩ :=
    loadStaticData_spec sampleHelpers 2 3 truncatedFile brightName zeroRecord ⟨"", ""⟩
      emptyComponent rfl rfl rfl (by decide)
  refine ⟨res, hres, rfl, rfl, hok, hloaded, ?_, ?_, ?_⟩
  · rw [hobj, loadedRuns_truncatedFile, sampleInit_recBright]
    rfl
  · have h0 := hcell 0 [] rfl
    have h1 := hcell 1 [] rfl
    rw [loadedRuns_truncatedFile, sampleInit_recBright] at h0 h1
    exact index_eq_pair _ _ _ hlen h0 h1
  · rw [hlog]
    rfl

/-! ## Facts about the name table -/

theorem starsOfRun_eq_labels (h : LoadHelpers) (swap : Bool) (t : Trixel) :
    ∀ (n j : Nat) (c : LoadCursor),
      starsOfRun h swap t n j c = starsOfLabels h swap (labelsOfRun t n j) c
  | 0, _, _ => rfl
  | n + 1, j, c => by
    simp only [starsOfRun, labelsOfRun, starsOfLabels, starsOfRun_eq_labels h swap t n]

theorem starsOfLabels_append (h : LoadHelpers) (swap : Bool) :
    ∀ (a b : List (Trixel × Nat)) (c : LoadCursor),
      starsOfLabels h swap (a ++ b) c =
        ((starsOfLabels h swap a c).1 ++
            (starsOfLabels h swap b (starsOfLabels h swap a c).2).1,
          (starsOfLabels h swap b (starsOfLabels h swap a c).2).2)
  | [], b, c => by simp [starsOfLabels]
  | (t, j) :: rest, b, c => by
    have ih := starsOfLabels_append h swap rest b
      { readRecord h swap t j c with nstars := (readRecord h swap t j c).nstars + 1 }
    show starsOfLabels h swap ((t, j) :: (rest ++ b)) c = _
    simp only [starsOfLabels]
    rw [ih]
    rfl

/-- The stars of all trixels, in loop order, are the stars of one pass over all labels. -/
theorem starsOfRuns_flatten (h : LoadHelpers) (swap : Bool) (count : Nat → Nat) :
    ∀ (n i : Nat) (c : LoadCursor),
      ((starsOfRuns h swap count n i c).1.flatten, (starsOfRuns h swap count n i c).2) =
        starsOfLabels h swap (labelsOfRuns count n i) c
  | 0, _, _ => rfl
  | n + 1, i, c => by
    have ih := starsOfRuns_flatten h swap count n (i + 1)
      (starsOfRun h swap i (count i) 0 c).2
    simp only [starsOfRuns, labelsOfRuns, List.flatten_cons, starsOfLabels_append,
      ← starsOfRun_eq_labels]
    rw [← ih]

theorem labelsOfRun_length (t : Trixel) :
    ∀ (n j : Nat), (labelsOfRun t n j).length = n
  | 0, _ => rfl
  | n + 1, j => by simp [labelsOfRun, labelsOfRun_length t n]

theorem labelsOfRuns_length (count : Nat → Nat) :
    ∀ (n i : Nat), (labelsOfRuns count n i).length = declaredTotal count n i
  | 0, _ => rfl
  | n + 1, i => by
    simp [labelsOfRuns, declaredTotal, labelsOfRun_length, labelsOfRuns_length count n]

theorem starsOfLabels_length (h : LoadHelpers) (swap : Bool) :
    ∀ (labels : List (Trixel × Nat)) (c : LoadCursor),
      (starsOfLabels h swap labels c).1.length = labels.length
  | [], _ => rfl
  | (t, j) :: rest, c => by simp [starsOfLabels, starsOfLabels_length h swap rest]

/-- The read part of the loop body and the name stream, when the data stream still has
a record: a flagged record takes the first entry off the name stream and gets its names
from it; a record without the flag leaves the name stream alone. -/
theorem readRecord_names (h : LoadHelpers) (swap : Bool) (t : Trixel) (j : Nat)
    (c : LoadCursor) (r : starData) (rest : List starData) (hc : c.dataRest = r :: rest) :
    (readRecord h swap t j c).dataRest = rest ∧
      (flagged r = false → (readRecord h swap t j c).nameRest = c.nameRest) ∧
      (flagged r = true → (readRecord h swap t j c).nameRest = c.nameRest.tail) ∧
      (flagged r = true → ∀ e es, c.nameRest = e :: es →
        (readRecord h swap t j c).name = nameOf h e ∧
        (readRecord h swap t j c).visibleName = visibleNameOf e) := by
  obtain ⟨dataRest, nameRest, stardata, starname, name, gname, vis, nstars, log⟩ := c
  simp only at hc
  subst hc
  cases nameRest <;> cases swap <;> by_cases hf : r.flags % 2 = 1 <;>
    simp [readRecord, flagged, nameOf, visibleNameOf, hf, byteSwap]

theorem flaggedBefore_zero (recs : List starData) : flaggedBefore recs 0 = 0 := by
  simp [flaggedBefore]

theorem flaggedBefore_succ (r0 : starData) (recs : List starData) (i : Nat) :
    flaggedBefore (r0 :: recs) (i + 1) =
      (if flagged r0 = true then 1 else 0) + flaggedBefore recs i := by
  unfold flaggedBefore
  rw [List.take_succ_cons, List.filter_cons]
  by_cases hf : flagged r0 = true
  · simp only [hf, if_true, List.length_cons]
    omega
  · simp only [hf, if_false, Bool.false_eq_true, Nat.zero_add]

theorem makeStar_names (h : LoadHelpers) (c : LoadCursor) :
    (makeStar h c).name = c.name ∧ (makeStar h c).gname = c.visibleName := ⟨rfl, rfl⟩

/-- Lock-step of the two streams over one pass of the loop body per label: the record
at position `i` of the data stream, if flagged, gets its names from the entry of the
name stream whose position is the number of flagged records before it. -/
theorem starsOfLabels_lockstep (h : LoadHelpers) (swap : Bool) :
    ∀ (labels : List (Trixel × Nat)) (c : LoadCursor) (i : Nat) (r : starData),
      i < labels.length → c.dataRest[i]? = some r → flagged r = true →
      ∀ e, c.nameRest[flaggedBefore c.dataRest i]? = some e →
        ∃ star, (starsOfLabels h swap labels c).1[i]? = some star ∧
          star.name = nameOf h e ∧ star.gname = visibleNameOf e
  | [], _, i, _, hi, _, _, _, _ => absurd hi (Nat.not_lt_zero i)
  | (t, j) :: rest, c, 0, r, _, hr, hf, e, he => by
    cases hd : c.dataRest with
    | nil => rw [hd] at hr; simp at hr
    | cons r0 recs =>
      rw [hd] at hr he
      simp only [List.getElem?_cons_zero, Option.some.injEq] at hr
      subst hr
      rw [flaggedBefore_zero] at he
      cases hn : c.nameRest with
      | nil => rw [hn] at he; simp at he
      | cons e0 es =>
        rw [hn] at he
        simp only [List.getElem?_cons_zero, Option.some.injEq] at he
        subst he
        obtain ⟨_, _, _, hnames⟩ := readRecord_names h swap t j c r0 recs hd
        obtain ⟨h1, h2⟩ := hnames hf e0 es hn
        refine ⟨makeStar h (readRecord h swap t j c), by simp [starsOfLabels], ?_, ?_⟩
        · rw [(makeStar_names h _).1, h1]
        · rw [(makeStar_names h _).2, h2]
  | (t, j) :: rest, c, i + 1, r, hi, hr, hf, e, he => by
    cases hd : c.dataRest with
    | nil => rw [hd] at hr; simp at hr
    | cons r0 recs =>
      rw [hd] at hr he
      simp only [List.getElem?_cons_succ] at hr
      rw [flaggedBefore_succ] at he
      obtain ⟨hrest, hun, hfl, _⟩ := readRecord_names h swap t j c r0 recs hd
      have key : ∀ c2 : LoadCursor, c2.dataRest = recs →
          c2.nameRest = (readRecord h swap t j c).nameRest →
          ∃ star, (starsOfLabels h swap rest c2).1[i]? = some star ∧
            star.name = nameOf h e ∧ star.gname = visibleNameOf e := by
        intro c2 h2d h2n
        apply starsOfLabels_lockstep h swap rest c2 i r
          (by simpa using hi) (by rw [h2d]; exact hr) hf e
        rw [h2d, h2n]
        cases hf0 : flagged r0 with
        | false =>
          rw [hun hf0]
          simpa [hf0] using he
        | true =>
          rw [hfl hf0]
          simp only [hf0, if_true] at he
          cases hn : c.nameRest with
          | nil => rw [hn] at he; simp at he
          | cons e0 es =>
            rw [hn] at he
            rw [Nat.add_comm, List.getElem?_cons_succ] at he
            exact he
      obtain ⟨star, hs, hname, hg⟩ := key
        { readRecord h swap t j c with nstars := (readRecord h swap t j c).nstars + 1 }
        hrest rfl
      exact ⟨star, by simpa [starsOfLabels] using hs, hname, hg⟩

/-- The name stream after one pass of the loop body per label, when the data stream
holds a record for each: as many entries were taken off as there were flagged records. -/
theorem starsOfLabels_nameRest (h : LoadHelpers) (swap : Bool) :
    ∀ (labels : List (Trixel × Nat)) (c : LoadCursor),
      labels.length ≤ c.dataRest.length →
      (starsOfLabels h swap labels c).2.nameRest =
        c.nameRest.drop (flaggedBefore c.dataRest labels.length)
  | [], c, _ => by simp [starsOfLabels, flaggedBefore_zero]
  | (t, j) :: rest, c, hlen => by
    cases hd : c.dataRest with
    | nil => rw [hd] at hlen; simp at hlen
    | cons r0 recs =>
      rw [hd] at hlen
      obtain ⟨hrest, hun, hfl, _⟩ := readRecord_names h swap t j c r0 recs hd
      have key : ∀ c2 : LoadCursor, c2.dataRest = recs →
          c2.nameRest = (readRecord h swap t j c).nameRest →
          (starsOfLabels h swap rest c2).2.nameRest =
            c.nameRest.drop (flaggedBefore (r0 :: recs) (rest.length + 1)) := by
        intro c2 h2d h2n
        rw [starsOfLabels_nameRest h swap rest c2 (by rw [h2d]; simpa using hlen), h2d, h2n,
          flaggedBefore_succ]
        cases hf0 : flagged r0 with
        | false =>
          rw [hun hf0]
          simp
        | true =>
          rw [hfl hf0]
          simp only [if_true]
          rw [Nat.add_comm, List.drop_tail]
      simp only [starsOfLabels, List.length_cons]
      exact key _ hrest rfl

theorem sampleInit_recBright_generic :
    (sampleInit recBright).setNames "star" "" = starGeneric := by
  norm_num [sampleInit, recBright, toInt16, StarObject.setNames, starGeneric]

theorem loadedRuns_oneRecordFile :
    loadedRuns sampleHelpers 2 oneRecordFile dotNames zeroRecord ⟨"", ""⟩ =
      [[(sampleInit recBright).setNames "star" ""], []] := rfl

/-! ## The name table is read in lock-step (C19) -/

/-- C19, as stated, fails: the first flagged record, whose name-table entry has an empty
long name and the alternate name ".Cen", is loaded with the name "star" and with no
alternate name, neither of which is a field of the entry. -/
theorem loadStaticData_names_not_verbatim :
    ∃ res, loadStaticData sampleHelpers 2 3 (some oneRecordFile) (some dotNames)
        zeroRecord ⟨"", ""⟩ emptyComponent = some res ∧
      oneRecordFile.records = [recBright] ∧ recBright.flags % 2 = 1 ∧
      dotNames.entries = [{ longName := "", bayerName := ".Cen" }] ∧
      res.comp.m_ObjectList = [starGeneric] ∧
      starGeneric.name = "star" ∧ starGeneric.gname = "" := by
  obtain ⟨res, hres, _, _, hobj, _⟩ :=
    loadStaticData_spec sampleHelpers 2 3 oneRecordFile dotNames zeroRecord ⟨"", ""⟩
      emptyComponent rfl rfl rfl (by decide)
  refine ⟨res, hres, rfl, rfl, rfl, ?_, rfl, rfl⟩
  rw [hobj, loadedRuns_oneRecordFile, sampleInit_recBright_generic]
  rfl

/-- C19, amended: during `loadStaticData` (component not yet loaded, both files open
with readable headers, the mesh no larger than the index) one star is created per
declared record, in file order.  A record with flag bit `0x01` that the stream delivers
takes the name-table entry whose position is the number of flagged records before it:
its name is the translation of that entry's long name, or the translated generic name
when the long name is empty, and its alternate name is the entry's alternate name unless
that is empty or starts with a dot.  When the stream delivers all declared records, the
entries taken off the name stream are as many as the flagged records, so a record
without the flag takes none. -/
theorem loadStaticData_names_lockstep (h : LoadHelpers) (meshSize meshLevel : Nat)
    (data : CatalogFile) (names : NameFile) (buf : starData) (nbuf : starName)
    (st : StarComponent) (hnot : st.starsLoaded = false) (hd : data.headerOk = true)
    (hn : names.headerOk = true) (hsize : meshSize ≤ st.m_starIndex.length) :
    ∃ res stars, loadStaticData h meshSize meshLevel (some data) (some names) buf nbuf st =
        some res ∧
      res.comp.m_ObjectList = st.m_ObjectList ++ stars ∧
      stars.length = declaredTotal data.recordCount meshSize 0 ∧
      (∀ i r, i < declaredTotal data.recordCount meshSize 0 → data.records[i]? = some r →
        r.flags % 2 = 1 →
        ∀ e, names.entries[flaggedBefore data.records i]? = some e →
          ∃ star, stars[i]? = some star ∧ star.name = nameOf h e ∧
            star.gname = visibleNameOf e) ∧
      (declaredTotal data.recordCount meshSize 0 ≤ data.records.length →
        (starsOfRuns h data.byteSwap data.recordCount meshSize 0
            (startCursor data names buf nbuf)).2.nameRest =
          names.entries.drop
            (flaggedBefore data.records (declaredTotal data.recordCount meshSize 0))) := by
  obtain ⟨res, hres, _, _, hobj, _⟩ :=
    loadStaticData_spec h meshSize meshLevel data names buf nbuf st hnot hd hn hsize
  have hflat := starsOfRuns_flatten h data.byteSwap data.recordCount meshSize 0
    (startCursor data names buf nbuf)
  have hfst : (loadedRuns h meshSize data names buf nbuf).flatten =
      (starsOfLabels h data.byteSwap (labelsOfRuns data.recordCount meshSize 0)
        (startCursor data names buf nbuf)).1 := congrArg Prod.fst hflat
  have hsnd : (starsOfRuns h data.byteSwap data.recordCount meshSize 0
        (startCursor data names buf nbuf)).2 =
      (starsOfLabels h data.byteSwap (labelsOfRuns data.recordCount meshSize 0)
        (startCursor data names buf nbuf)).2 := congrArg Prod.snd hflat
  refine ⟨res, _, hres, hobj, ?_, ?_, ?_⟩
  · rw [hfst, starsOfLabels_length, labelsOfRuns_length]
  · intro i r hi hr hflag e he
    rw [hfst]
    exact starsOfLabels_lockstep h data.byteSwap _ (startCursor data names buf nbuf) i r
      (by rw [labelsOfRuns_length]; exact hi) hr (by simp [flagged, hflag]) e he
  · intro hdata
    rw [hsnd, starsOfLabels_nameRest h data.byteSwap _ _
      (by rw [labelsOfRuns_length]; exact hdata), labelsOfRuns_length]
    rfl

/-- C19 at the example file with two flagged records and a name table of two entries. -/
theorem loadStaticData_names_lockstep_witness :
    emptyComponent.starsLoaded = false ∧ levelFiveFile.headerOk = true ∧
    brightFaintNames.headerOk = true ∧ 2 ≤ emptyComponent.m_starIndex.length ∧
    ∃ res stars, loadStaticData sampleHelpers 2 3 (some levelFiveFile)
        (some brightFaintNames) zeroRecord ⟨"", ""⟩ emptyComponent = some res ∧
      res.comp.m_ObjectList = emptyComponent.m_ObjectList ++ stars ∧
      stars.length = declaredTotal levelFiveFile.recordCount 2 0 ∧
      (∀ i r, i < declaredTotal levelFiveFile.recordCount 2 0 →
        levelFiveFile.records[i]? = some r → r.flags % 2 = 1 →
        ∀ e, brightFaintNames.entries[flaggedBefore levelFiveFile.records i]? = some e →
          ∃ star, stars[i]? = some star ∧ star.name = nameOf sampleHelpers e ∧
            star.gname = visibleNameOf e) ∧
      (declaredTotal levelFiveFile.recordCount 2 0 ≤ levelFiveFile.records.length →
        (starsOfRuns sampleHelpers levelFiveFile.byteSwap levelFiveFile.recordCount 2 0
            (startCursor levelFiveFile brightFaintNames zeroRecord ⟨"", ""⟩)).2.nameRest =
          brightFaintNames.entries.drop
            (flaggedBefore levelFiveFile.records
              (declaredTotal levelFiveFile.recordCount 2 0))) :=
  ⟨rfl, rfl, rfl, by decide,
    loadStaticData_names_lockstep sampleHelpers 2 3 levelFiveFile brightFaintNames
      zeroRecord ⟨"", ""⟩ emptyComponent rfl rfl rfl (by decide)⟩

/-! ## A full reindex advances the stored epoch (C24) -/

/-- C24: for mesh results within the index, `reindexAll( num )` ends normally with the
epoch of the last full pass equal to `num`, the mesh epoch equal to `num` and every
fast-mover band stamped with `num`; and when the reindex interval is not negative, a call
`reindex( num )` on the state it leaves makes no full pass: it only calls the bands, once
each in band order, keeps the stored epoch, and leaves the index the bands leave (the
index of the full pass when the bands move nothing). -/
theorem reindexAll_advances_epoch (indexStar : KSNumbers → StarObject → Trixel)
    (bandReindex : KSNumbers → HighPMStarList → StarIndex → HighPMStarList × StarIndex)
    (num : KSNumbers) (st : StarComponent)
    (h : ∀ s ∈ st.m_ObjectList, indexStar num s < st.m_starIndex.length)
    (hint : 0 ≤ st.m_reindexInterval) :
    ∃ st', reindexAll indexStar num st = some st' ∧
      st'.m_reindexNum = num ∧ st'.m_skyMesh.m_KSNumbers = num ∧
      (∀ b ∈ st'.m_highPMStars, b.m_reindexNum = num) ∧
      ReindexCall.full num ∉ (reindex indexStar bandReindex (some num) st').2 ∧
      (reindex indexStar bandReindex (some num) st').2 =
        (List.range st.m_highPMStars.length).map (fun j => ReindexCall.band j num) ∧
      ∃ st'', (reindex indexStar bandReindex (some num) st').1 = some st'' ∧
        st''.m_reindexNum = num ∧ st''.m_ObjectList = st.m_ObjectList ∧
        st''.m_starIndex =
          st'.m_highPMStars.foldl (fun i b => (bandReindex num b i).2) st'.m_starIndex ∧
        ((∀ b idx, (bandReindex num b idx).2 = idx) → st''.m_starIndex = st'.m_starIndex) := by
  obtain ⟨st', hrun, _, _, hobj, hnum, hmesh, hbands, hintv⟩ := reindexAll_spec indexStar num st h
  have hc : ¬ |num.julianCenturies - st'.m_reindexNum.julianCenturies| >
      st'.m_reindexInterval := by
    rw [hnum, hintv, sub_self, abs_zero]
    exact not_lt.mpr hint
  refine ⟨st', hrun, hnum, hmesh, ?_, ?_, ?_, ?_⟩
  · intro b hb
    rw [hbands] at hb
    obtain ⟨b0, _, rfl⟩ := List.mem_map.mp hb
    rfl
  · simp only [reindex, if_neg hc, reindexBands_calls]
    simp
  · simp only [reindex, if_neg hc, reindexBands_calls, List.range_eq_range', hbands,
      List.length_map]
  · simp only [reindex, if_neg hc]
    refine ⟨_, rfl, hnum, hobj, reindexBands_index _ _ _ _ _, ?_⟩
    intro hfix
    simp only [reindexBands_index]
    exact foldl_index_fixed bandReindex num hfix _ _

/-- C24 at the example state (interval 3, two idle bands), full pass at epoch 5. -/
theorem reindexAll_advances_epoch_witness :
    (∀ s ∈ driftState.m_ObjectList, stripMesh ⟨5⟩ s < driftState.m_starIndex.length) ∧
    (0 : ℚ) ≤ driftState.m_reindexInterval ∧
    ∃ st', reindexAll stripMesh ⟨5⟩ driftState = some st' ∧
      st'.m_reindexNum = ⟨5⟩ ∧ st'.m_skyMesh.m_KSNumbers = ⟨5⟩ ∧
      (∀ b ∈ st'.m_highPMStars, b.m_reindexNum = ⟨5⟩) ∧
      ReindexCall.full ⟨5⟩ ∉ (reindex stripMesh idleBand (some ⟨5⟩) st').2 ∧
      (reindex stripMesh idleBand (some ⟨5⟩) st').2 =
        (List.range driftState.m_highPMStars.length).map (fun j => ReindexCall.band j ⟨5⟩) ∧
      ∃ st'', (reindex stripMesh idleBand (some ⟨5⟩) st').1 = some st'' ∧
        st''.m_reindexNum = ⟨5⟩ ∧ st''.m_ObjectList = driftState.m_ObjectList ∧
        st''.m_starIndex =
          st'.m_highPMStars.foldl (fun i b => (idleBand ⟨5⟩ b i).2) st'.m_starIndex ∧
        ((∀ b idx, (idleBand ⟨5⟩ b idx).2 = idx) → st''.m_starIndex = st'.m_starIndex) :=
  ⟨fun s _ => stripMesh_lt_two ⟨5⟩ s, by norm_num [driftState],
    reindexAll_advances_epoch stripMesh idleBand ⟨5⟩ driftState
      (fun s _ => stripMesh_lt_two ⟨5⟩ s) (by norm_num [driftState])⟩

/-! ## Early exit of the draw loop (C25) -/

/-- The magnitude test of the draw loop is the comparison with the effective limit. -/
theorem passesGate_eq_effective (o : DrawSettings) :
    passesGate o = fun s => decide (s.mag ≤ effectiveLimit o) := by
  funext s
  rw [Bool.eq_iff_iff]
  cases hh : o.hideFaintStars
  · simp [passesGate, effectiveLimit, hh]
  · simp [passesGate, effectiveLimit, hh, le_min_iff]

/-- Once a record fails the magnitude test, the rest of the list is not visited: the loop
leaves what it leaves on the part of the list before that record. -/
theorem drawStarList_stops (o : DrawSettings) (cv os : StarObject → Bool) (s : StarObject)
    (post : StarList) (hs : passesGate o s = false) :
    ∀ (pre : StarList) (acc : DrawPass), (∀ x ∈ records pre, passesGate o x = true) →
      drawStarList o cv os (pre ++ some s :: post) acc = drawStarList o cv os pre acc
  | [], acc, _ => by
    have hg : s.mag > o.maglim ∨ (o.hideFaintStars = true ∧ s.mag > o.hideStarsMag) := by
      by_contra hn
      have hp : passesGate o s = true := by simp [passesGate, hn]
      rw [hs] at hp
      cases hp
    simp only [List.nil_append, drawStarList, if_pos hg]
  | none :: rest, acc, h => by
    simp only [List.cons_append, drawStarList]
    exact drawStarList_stops o cv os s post hs rest acc h
  | some x :: rest, acc, h => by
    have hx : passesGate o x = true := h x (by simp [records_some_cons])
    have hrest : ∀ y ∈ records rest, passesGate o y = true :=
      fun y hy => h y (by simp [records_some_cons, hy])
    have hg : ¬ (x.mag > o.maglim ∨ (o.hideFaintStars = true ∧ x.mag > o.hideStarsMag)) := by
      intro hn
      have hp : passesGate o x = false := by simp [passesGate, hn]
      rw [hx] at hp
      cases hp
    simp only [List.cons_append, drawStarList, if_neg hg]
    split_ifs
    all_goals exact drawStarList_stops o cv os s post hs rest _ hrest

/-- C25: the inner draw loop hands to `draw`, in list order, the visible records of the
longest prefix of the cell's non-null records whose magnitude is at most the effective
limit (the zoom magnitude limit, or the smaller of it and the hide-stars magnitude while
faint stars are hidden, which `draw` does exactly while slewing with hide-on-slew and
hide-stars set); null entries are skipped; and when a record exceeds the effective limit
after records that do not, the loop leaves exactly what it leaves on the list cut before
that record: nothing after it is visited, whatever its magnitude. -/
theorem drawStarList_early_exit (o : DrawSettings) (cv os : StarObject → Bool)
    (l : StarList) (acc : DrawPass) :
    (drawStarList o cv os l acc).drawn =
        acc.drawn ++ (((records l).takeWhile (fun s => decide (s.mag ≤ effectiveLimit o))).filter
          (fun s => cv s && os s)) ∧
      (drawStarList o (fun _ => true) (fun _ => true) l {}).drawn =
        (records l).takeWhile (fun s => decide (s.mag ≤ effectiveLimit o)) ∧
      drawStarList o cv os (none :: l) acc = drawStarList o cv os l acc ∧
      (∀ (pre post : StarList) (s : StarObject), l = pre ++ some s :: post →
        effectiveLimit o < s.mag → (∀ x ∈ records pre, x.mag ≤ effectiveLimit o) →
        drawStarList o cv os l acc = drawStarList o cv os pre acc) ∧
      (∀ (log10 : ℚ → ℚ) (MINZOOM MAXZOOM : ℚ) (opts : Options) (d : DrawOptions)
          (st : StarComponent),
        (drawSetup log10 MINZOOM MAXZOOM opts d st).2.maglim =
            zoomMagnitudeLimit log10 MINZOOM opts ∧
          (drawSetup log10 MINZOOM MAXZOOM opts d st).2.hideStarsMag = d.magLimitHideStar ∧
          (drawSetup log10 MINZOOM MAXZOOM opts d st).2.hideFaintStars =
            (d.isSlewing && d.hideOnSlew && d.hideStars)) := by
  refine ⟨?_, ?_, rfl, ?_, ?_⟩
  · rw [drawStarList_drawn, passesGate_eq_effective]
  · rw [drawStarList_drawn, passesGate_eq_effective]
    simp
  · intro pre post s hl hs hpre
    subst hl
    refine drawStarList_stops o cv os s post ?_ pre acc ?_
    · rw [passesGate_eq_effective]
      simpa using hs
    · intro x hx
      rw [passesGate_eq_effective]
      simpa using hpre x hx
  · intro log10 MINZOOM MAXZOOM opts d st
    exact ⟨rfl, rfl, rfl⟩

/-! ## The base scan of the nearest-object query takes no account of names (C27) -/

/-- C27 fails on the code: with the zoom magnitude limit at 4 and a cell whose only
record bears the generic name "star" (magnitude 4, two degrees from the origin),
`objectNearest` around the origin with radius 4 returns that record, with radius 2. -/
theorem objectNearest_returns_generic_star :
    objectNearest equatorDistance (deepScan equatorDistance (fun _ => [])) genericState [0]
        ⟨0, 0⟩ 4 = some (some starZ, 2) ∧
      starZ.name = "star" ∧
      nearestInRegion equatorDistance genericState.m_zoomMagLimit ⟨0, 0⟩
        genericState.m_starIndex [0] (none, 4) = some (some starZ, 2) := by
  have hZ : equatorDistance starZ ⟨0, 0⟩ = 2 := by norm_num [equatorDistance, starZ]
  have hmZ : starZ.mag = 4 := rfl
  refine ⟨?_, rfl, ?_⟩
  · simp [objectNearest, nearestInRegion, nearestInList, nearestDeep, genericState, hZ, hmZ]
    norm_num
  · simp [nearestInRegion, nearestInList, genericState, hZ, hmZ]
    norm_num

/-! ## The base scan of the nearest-object query, as coded (C29) -/

/-- The strict-improvement scan keeps the first record at the least distance: either
nothing in the list is strictly within the radius and the pair is unchanged, or the list
splits around the record left, which is strictly within the radius, strictly closer than
every record before it and at least as close as every record after it. -/
theorem foldl_closer_first (dist : StarObject → SkyPoint → ℚ) (p : SkyPoint) :
    ∀ (l : List StarObject) (best : Option StarObject × ℚ),
      (l.foldl (closer dist p) best = best ∧ ∀ c ∈ l, ¬ dist c p < best.2) ∨
      (∃ pre s post, l = pre ++ s :: post ∧
        l.foldl (closer dist p) best = (some s, dist s p) ∧ dist s p < best.2 ∧
        (∀ c ∈ pre, dist s p < dist c p) ∧ (∀ c ∈ post, dist s p ≤ dist c p))
  | [], best => Or.inl ⟨rfl, by simp⟩
  | a :: rest, best => by
    rw [List.foldl_cons]
    by_cases hr : dist a p < best.2
    · have hc : closer dist p best a = (some a, dist a p) := by simp [closer, hr]
      rw [hc]
      right
      rcases foldl_closer_first dist p rest (some a, dist a p) with
        ⟨heq, hnone⟩ | ⟨pre, s, post, hl, hres, hlt, hpre, hpost⟩
      · exact ⟨[], a, rest, rfl, heq, hr, by simp, fun c hc' => not_lt.mp (hnone c hc')⟩
      · refine ⟨a :: pre, s, post, by rw [hl]; rfl, hres, lt_trans hlt hr, ?_, hpost⟩
        intro c hc'
        rcases List.mem_cons.mp hc' with rfl | hin
        · exact hlt
        · exact hpre c hin
    · have hc : closer dist p best a = best := by simp [closer, hr]
      rw [hc]
      rcases foldl_closer_first dist p rest best with
        ⟨heq, hnone⟩ | ⟨pre, s, post, hl, hres, hlt, hpre, hpost⟩
      · left
        refine ⟨heq, ?_⟩
        intro c hc'
        rcases List.mem_cons.mp hc' with rfl | hin
        · exact hr
        · exact hnone c hin
      · right
        refine ⟨a :: pre, s, post, by rw [hl]; rfl, hres, hlt, ?_, hpost⟩
        intro c hc'
        rcases List.mem_cons.mp hc' with rfl | hin
        · exact lt_of_lt_of_le hlt (not_lt.mp hr)
        · exact hpre c hin

/-- C29: the limit `objectNearest` tests magnitudes against is the member
`m_zoomMagLimit`, which `draw` sets to `zoomMagnitudeLimit()`.  When the search region
lies within the index, the base scan ends normally, `objectNearest` goes on from its
result, and that result is as follows, over the non-null records of the searched cells
with magnitude at most `m_zoomMagLimit`, in scan order: either none of them lies strictly
within `maxrad`, and the result is null with `maxrad` unchanged; or the result is one of
them, strictly within `maxrad`, with `maxrad` set to its distance, strictly closer than
every such record scanned before it and at least as close as every one scanned after. -/
theorem objectNearest_base_phase (dist : StarObject → SkyPoint → ℚ)
    (st : StarComponent) (region : List Trixel) (p : SkyPoint) (maxrad : ℚ)
    (hin : ∀ t ∈ region, t < st.m_starIndex.length) :
    (∀ (log10 : ℚ → ℚ) (MINZOOM MAXZOOM : ℚ) (opts : Options) (d : DrawOptions),
      (drawSetup log10 MINZOOM MAXZOOM opts d st).1.m_zoomMagLimit =
        zoomMagnitudeLimit log10 MINZOOM opts) ∧
    ∃ best, nearestInRegion dist st.m_zoomMagLimit p st.m_starIndex region (none, maxrad) =
        some best ∧
      (∀ deepNearest, objectNearest dist deepNearest st region p maxrad =
        some (nearestDeep deepNearest p st.m_DeepStarComponents best.2 best.2 best.1)) ∧
      ((best = (none, maxrad) ∧
          ∀ t ∈ region, ∀ c ∈ records (st.m_starIndex.getD t []),
            c.mag ≤ st.m_zoomMagLimit → ¬ dist c p < maxrad) ∨
        (∃ pre s post, bruteForce st.m_starIndex region st.m_zoomMagLimit = pre ++ s :: post ∧
          best = (some s, dist s p) ∧ s.mag ≤ st.m_zoomMagLimit ∧ dist s p < maxrad ∧
          (∃ t ∈ region, s ∈ records (st.m_starIndex.getD t [])) ∧
          (∀ c ∈ pre, dist s p < dist c p) ∧ (∀ c ∈ post, dist s p ≤ dist c p))) := by
  refine ⟨fun _ _ _ _ _ => rfl, _,
    nearestInRegion_eq_foldl dist st.m_zoomMagLimit p st.m_starIndex region _ hin, ?_, ?_⟩
  · intro deepNearest
    unfold objectNearest
    rw [nearestInRegion_eq_foldl dist st.m_zoomMagLimit p st.m_starIndex region _ hin]
  · rcases foldl_closer_first dist p (bruteForce st.m_starIndex region st.m_zoomMagLimit)
        (none, maxrad) with ⟨heq, hnone⟩ | ⟨pre, s, post, hl, hres, hlt, hpre, hpost⟩
    · left
      refine ⟨heq, ?_⟩
      intro t ht c hc hmag
      exact hnone c ((mem_bruteForce _ _ c region).mpr ⟨t, ht, hc, hmag⟩)
    · right
      have hmem : s ∈ bruteForce st.m_starIndex region st.m_zoomMagLimit := by
        rw [hl]
        simp
      obtain ⟨t, ht, hrec, hmag⟩ := (mem_bruteForce _ _ s region).mp hmem
      exact ⟨pre, s, post, hl, hres, hmag, hlt, ⟨t, ht, hrec⟩, hpre, hpost⟩

/-- C29 at the example state (zoom magnitude limit 4, the cell holds Y of magnitude 3,
three degrees away, then X of magnitude 5, one degree away), radius 4: the base scan
leaves Y and radius 3. -/
theorem objectNearest_base_phase_witness :
    (∀ t ∈ [0], t < nearState.m_starIndex.length) ∧
    nearestInRegion equatorDistance nearState.m_zoomMagLimit ⟨0, 0⟩ nearState.m_starIndex [0]
      (none, 4) = some (some starY, 3) ∧
    ((∀ (log10 : ℚ → ℚ) (MINZOOM MAXZOOM : ℚ) (opts : Options) (d : DrawOptions),
      (drawSetup log10 MINZOOM MAXZOOM opts d nearState).1.m_zoomMagLimit =
        zoomMagnitudeLimit log10 MINZOOM opts) ∧
    ∃ best, nearestInRegion equatorDistance nearState.m_zoomMagLimit ⟨0, 0⟩
        nearState.m_starIndex [0] (none, 4) = some best ∧
      (∀ deepNearest, objectNearest equatorDistance deepNearest nearState [0] ⟨0, 0⟩ 4 =
        some (nearestDeep deepNearest ⟨0, 0⟩ nearState.m_DeepStarComponents
          best.2 best.2 best.1)) ∧
      ((best = (none, 4) ∧
          ∀ t ∈ [0], ∀ c ∈ records (nearState.m_starIndex.getD t []),
            c.mag ≤ nearState.m_zoomMagLimit → ¬ equatorDistance c ⟨0, 0⟩ < 4) ∨
        (∃ pre s post,
          bruteForce nearState.m_starIndex [0] nearState.m_zoomMagLimit = pre ++ s :: post ∧
          best = (some s, equatorDistance s ⟨0, 0⟩) ∧ s.mag ≤ nearState.m_zoomMagLimit ∧
          equatorDistance s ⟨0, 0⟩ < 4 ∧
          (∃ t ∈ [0], s ∈ records (nearState.m_starIndex.getD t [])) ∧
          (∀ c ∈ pre, equatorDistance s ⟨0, 0⟩ < equatorDistance c ⟨0, 0⟩) ∧
          (∀ c ∈ post, equatorDistance s ⟨0, 0⟩ ≤ equatorDistance c ⟨0, 0⟩)))) :=
  ⟨by decide,
    by
      have hY : equatorDistance starY ⟨0, 0⟩ = 3 := by norm_num [equatorDistance, starY]
      have hmX : starX.mag = 5 := rfl
      have hmY : starY.mag = 3 := rfl
      simp [nearestInRegion, nearestInList, nearState, hY, hmX, hmY]
      norm_num,
    objectNearest_base_phase equatorDistance nearState [0] ⟨0, 0⟩ 4 (by decide)⟩

/-! ## Combination of the tiers in the nearest-object query (C26) -/

/-- With sound deep tiers, the deep loop of `objectNearest` is the strict-improvement
choice among the answers of the tiers, each asked with the best radius so far. -/
theorem nearestDeep_eq_pick (dist : StarObject → SkyPoint → ℚ)
    (deepNearest : DeepStarComponent → SkyPoint → ℚ → Option StarObject × ℚ) (p : SkyPoint)
    (hs : DeepSound dist deepNearest p) :
    ∀ (deeps : List DeepStarComponent) (r : ℚ) (oBest : Option StarObject),
      nearestDeep deepNearest p deeps r r oBest =
        (queryDeepTiers deepNearest p deeps r).foldl pickCloser (oBest, r)
  | [], _, _ => rfl
  | d :: rest, r, oBest => by
    obtain ⟨_, _, h3⟩ := hs d r
    rw [nearestDeep, queryDeepTiers, List.foldl_cons, min_eq_right h3]
    by_cases hlt : (deepNearest d p r).2 < r
    · simp only [if_pos hlt, pickCloser]
      exact nearestDeep_eq_pick dist deepNearest p hs rest _ _
    · simp only [if_neg hlt, pickCloser]
      have heq : (deepNearest d p r).2 = r := le_antisymm h3 (not_lt.mp hlt)
      rw [heq]
      exact nearestDeep_eq_pick dist deepNearest p hs rest r oBest

/-- The strict-improvement choice leaves the least radius. -/
theorem foldl_pickCloser_radius :
    ∀ (l : List (Option StarObject × ℚ)) (best : Option StarObject × ℚ),
      (l.foldl pickCloser best).2 = l.foldl (fun m r => min m r.2) best.2
  | [], _ => rfl
  | a :: rest, best => by
    rw [List.foldl_cons, List.foldl_cons, foldl_pickCloser_radius rest]
    by_cases h : a.2 < best.2
    · simp only [pickCloser, if_pos h, min_eq_right (le_of_lt h)]
    · simp only [pickCloser, if_neg h, min_eq_left (not_lt.mp h)]

/-- The strict-improvement choice keeps the first answer at the least radius: either no
answer is strictly better than the starting pair, which is kept, or the list splits
around the answer kept, strictly better than the starting pair and than every answer
before it and at least as good as every answer after it. -/
theorem foldl_pickCloser_first :
    ∀ (l : List (Option StarObject × ℚ)) (best : Option StarObject × ℚ),
      (l.foldl pickCloser best = best ∧ ∀ r ∈ l, ¬ r.2 < best.2) ∨
      (∃ pre r post, l = pre ++ r :: post ∧ l.foldl pickCloser best = r ∧ r.2 < best.2 ∧
        (∀ x ∈ pre, r.2 < x.2) ∧ (∀ x ∈ post, r.2 ≤ x.2))
  | [], best => Or.inl ⟨rfl, by simp⟩
  | a :: rest, best => by
    rw [List.foldl_cons]
    by_cases hr : a.2 < best.2
    · have hc : pickCloser best a = a := by simp [pickCloser, hr]
      rw [hc]
      right
      rcases foldl_pickCloser_first rest a with
        ⟨heq, hnone⟩ | ⟨pre, r, post, hl, hres, hlt, hpre, hpost⟩
      · exact ⟨[], a, rest, rfl, heq, hr, by simp, fun c hc' => not_lt.mp (hnone c hc')⟩
      · refine ⟨a :: pre, r, post, by rw [hl]; rfl, hres, lt_trans hlt hr, ?_, hpost⟩
        intro c hc'
        rcases List.mem_cons.mp hc' with rfl | hin
        · exact hlt
        · exact hpre c hin
    · have hc : pickCloser best a = best := by simp [pickCloser, hr]
      rw [hc]
      rcases foldl_pickCloser_first rest best with
        ⟨heq, hnone⟩ | ⟨pre, r, post, hl, hres, hlt, hpre, hpost⟩
      · left
        refine ⟨heq, ?_⟩
        intro c hc'
        rcases List.mem_cons.mp hc' with rfl | hin
        · exact hr
        · exact hnone c hin
      · right
        refine ⟨a :: pre, r, post, by rw [hl]; rfl, hres, hlt, ?_, hpost⟩
        intro c hc'
        rcases List.mem_cons.mp hc' with rfl | hin
        · exact lt_of_lt_of_le hlt (not_lt.mp hr)
        · exact hpre c hin

/-- C26: when the search region lies within the index and the deep tiers are sound (a
returned record lies at the radius left, a null result leaves the radius, the radius is
never enlarged), `objectNearest` ends normally and its result is the strict-improvement
choice between the result of the base scan and the answers of the deep tiers, each tier
asked in tier order with the best radius found so far.  The radius left is the least of
the base radius and the tiers' radii.  Either no tier answers strictly closer than the
base result, which is then returned, or the answer returned is strictly closer than the
base result and than every earlier tier's answer and at least as close as every later
tier's: on a tie the base tier, or the earlier deep tier, wins. -/
theorem objectNearest_tier_combination (dist : StarObject → SkyPoint → ℚ)
    (deepNearest : DeepStarComponent → SkyPoint → ℚ → Option StarObject × ℚ)
    (st : StarComponent) (region : List Trixel) (p : SkyPoint) (maxrad : ℚ)
    (hin : ∀ t ∈ region, t < st.m_starIndex.length)
    (hs : DeepSound dist deepNearest p) :
    ∃ base answers final,
      nearestInRegion dist st.m_zoomMagLimit p st.m_starIndex region (none, maxrad) =
        some base ∧
      answers = queryDeepTiers deepNearest p st.m_DeepStarComponents base.2 ∧
      objectNearest dist deepNearest st region p maxrad = some final ∧
      final = answers.foldl pickCloser base ∧
      final.2 = answers.foldl (fun m r => min m r.2) base.2 ∧
      final.2 ≤ base.2 ∧ (∀ r ∈ answers, final.2 ≤ r.2) ∧
      ((final = base ∧ ∀ r ∈ answers, ¬ r.2 < base.2) ∨
        (∃ pre r post, answers = pre ++ r :: post ∧ final = r ∧ r.2 < base.2 ∧
          (∀ x ∈ pre, r.2 < x.2) ∧ (∀ x ∈ post, r.2 ≤ x.2))) := by
  have hbase := nearestInRegion_eq_foldl dist st.m_zoomMagLimit p st.m_starIndex region
    (none, maxrad) hin
  refine ⟨_, _, _, hbase, rfl, ?_, rfl, foldl_pickCloser_radius _ _, ?_, ?_,
    foldl_pickCloser_first _ _⟩
  · unfold objectNearest
    rw [hbase]
    simp only
    rw [nearestDeep_eq_pick dist deepNearest p hs]
  · rcases foldl_pickCloser_first
        (queryDeepTiers deepNearest p st.m_DeepStarComponents
          ((bruteForce st.m_starIndex region st.m_zoomMagLimit).foldl (closer dist p)
            (none, maxrad)).2)
        ((bruteForce st.m_starIndex region st.m_zoomMagLimit).foldl (closer dist p)
          (none, maxrad)) with ⟨heq, _⟩ | ⟨pre, r, post, _, hres, hlt, _, _⟩
    · rw [heq]
    · rw [hres]
      exact le_of_lt hlt
  · intro r hr
    rcases foldl_pickCloser_first
        (queryDeepTiers deepNearest p st.m_DeepStarComponents
          ((bruteForce st.m_starIndex region st.m_zoomMagLimit).foldl (closer dist p)
            (none, maxrad)).2)
        ((bruteForce st.m_starIndex region st.m_zoomMagLimit).foldl (closer dist p)
          (none, maxrad)) with ⟨heq, hnone⟩ | ⟨pre, r0, post, hl, hres, hlt, hpre, hpost⟩
    · rw [heq]
      exact not_lt.mp (hnone r hr)
    · rw [hres]
      rw [hl] at hr
      rcases List.mem_append.mp hr with hm | hm
      · exact le_of_lt (hpre r hm)
      · rcases List.mem_cons.mp hm with rfl | hm'
        · exact le_refl _
        · exact hpost r hm'

/-- C26 at the example state with one deep tier whose procedure is the example scan. -/
theorem objectNearest_tier_combination_witness :
    (∀ t ∈ [0], t < nearStateDeep.m_starIndex.length) ∧
    DeepSound equatorDistance (deepScan equatorDistance exampleCand) ⟨0, 0⟩ ∧
    ∃ base answers final,
      nearestInRegion equatorDistance nearStateDeep.m_zoomMagLimit ⟨0, 0⟩
        nearStateDeep.m_starIndex [0] (none, 4) = some base ∧
      answers = queryDeepTiers (deepScan equatorDistance exampleCand) ⟨0, 0⟩
        nearStateDeep.m_DeepStarComponents base.2 ∧
      objectNearest equatorDistance (deepScan equatorDistance exampleCand) nearStateDeep [0]
        ⟨0, 0⟩ 4 = some final ∧
      final = answers.foldl pickCloser base ∧
      final.2 = answers.foldl (fun m r => min m r.2) base.2 ∧
      final.2 ≤ base.2 ∧ (∀ r ∈ answers, final.2 ≤ r.2) ∧
      ((final = base ∧ ∀ r ∈ answers, ¬ r.2 < base.2) ∨
        (∃ pre r post, answers = pre ++ r :: post ∧ final = r ∧ r.2 < base.2 ∧
          (∀ x ∈ pre, r.2 < x.2) ∧ (∀ x ∈ post, r.2 ≤ x.2))) :=
  ⟨by decide,
    deepSound_of_contract equatorDistance (deepScan equatorDistance exampleCand) exampleCand
      ⟨0, 0⟩ (deepScan_contract equatorDistance exampleCand ⟨0, 0⟩),
    objectNearest_tier_combination equatorDistance (deepScan equatorDistance exampleCand)
      nearStateDeep [0] ⟨0, 0⟩ 4 (by decide)
      (deepSound_of_contract equatorDistance (deepScan equatorDistance exampleCand)
        exampleCand ⟨0, 0⟩ (deepScan_contract equatorDistance exampleCand ⟨0, 0⟩))⟩

/-! ## The minimum of the zoom magnitude limit (C28) -/

theorem floorLog10_one : floorLog10 1 = 0 := by
  simp [floorLog10]

theorem floorLog10_mono (x y : ℚ) (h : x ≤ y) : floorLog10 x ≤ floorLog10 y := by
  unfold floorLog10
  exact Nat.cast_le.mpr (Nat.log_mono_right (Nat.floor_mono h))

/-- C28 fails on the code: with the zoom factor at `MINZOOM` (here 200) and the star
density option at 0, `zoomMagnitudeLimit()` is `2.222 * log10( 0 ) + 3.5`, which is below
3.5 for every logarithm that is negative at 0 (the library's `log10( 0 )` is minus
infinity), although the comment in the function gives 3.5 as the minimum possible
value. -/
theorem zoomMagnitudeLimit_below_minimum :
    (200 : ℚ) ≤ (Options.mk 200 0).zoomFactor ∧
      ∀ log10 : ℚ → ℚ,
        zoomMagnitudeLimit log10 200 ⟨200, 0⟩ = 2222 / 1000 * log10 0 + 7 / 2 ∧
        (log10 0 < 0 → zoomMagnitudeLimit log10 200 ⟨200, 0⟩ < 7 / 2) := by
  refine ⟨le_refl _, ?_⟩
  intro log10
  have hv : zoomMagnitudeLimit log10 200 ⟨200, 0⟩ = 2222 / 1000 * log10 0 + 7 / 2 := by
    simp only [zoomMagnitudeLimit, Int.cast_zero, sub_self, mul_zero, zero_add]
    norm_num
  refine ⟨hv, ?_⟩
  intro h0
  rw [hv]
  linarith

/-- Where the comment's minimum does hold: for a logarithm that is non-decreasing on the
positive numbers and 0 at 1, a zoom factor of at least `MINZOOM` (itself positive) and a
star density of at least 1, `zoomMagnitudeLimit()` is at least 3.5; and it is exactly 3.5
at zoom factor `MINZOOM` and density 1. -/
theorem zoomMagnitudeLimit_lower_bound (log10 : ℚ → ℚ) (MINZOOM : ℚ) (opts : Options)
    (hmono : ∀ x y : ℚ, 0 < x → x ≤ y → log10 x ≤ log10 y) (hone : log10 1 = 0)
    (hmin : 0 < MINZOOM) (hzoom : MINZOOM ≤ opts.zoomFactor) (hdens : 1 ≤ opts.starDensity) :
    7 / 2 ≤ zoomMagnitudeLimit log10 MINZOOM opts ∧
      zoomMagnitudeLimit log10 MINZOOM ⟨MINZOOM, 1⟩ = 7 / 2 := by
  have hz : log10 MINZOOM ≤ log10 opts.zoomFactor := hmono _ _ hmin hzoom
  have hd1 : (1 : ℚ) ≤ (opts.starDensity : ℚ) := by exact_mod_cast hdens
  have hd : 0 ≤ log10 (opts.starDensity : ℚ) := by
    rw [← hone]
    exact hmono _ _ one_pos hd1
  refine ⟨?_, ?_⟩
  · simp only [zoomMagnitudeLimit]
    nlinarith
  · simp only [zoomMagnitudeLimit, Int.cast_one, hone]
    norm_num

/-- The bound with the example logarithm, `MINZOOM` 200, zoom factor 2000 and density
5. -/
theorem zoomMagnitudeLimit_lower_bound_witness :
    (∀ x y : ℚ, 0 < x → x ≤ y → floorLog10 x ≤ floorLog10 y) ∧ floorLog10 1 = 0 ∧
    (0 : ℚ) < 200 ∧ (200 : ℚ) ≤ (Options.mk 2000 5).zoomFactor ∧
    1 ≤ (Options.mk 2000 5).starDensity ∧
    7 / 2 ≤ zoomMagnitudeLimit floorLog10 200 ⟨2000, 5⟩ ∧
      zoomMagnitudeLimit floorLog10 200 ⟨200, 1⟩ = 7 / 2 :=
  ⟨fun x y _ h => floorLog10_mono x y h, floorLog10_one, by norm_num, by norm_num,
    by decide,
    zoomMagnitudeLimit_lower_bound floorLog10 200 ⟨2000, 5⟩
      (fun x y _ h => floorLog10_mono x y h) floorLog10_one (by norm_num) (by norm_num)
      (by decide)⟩

/-! ## Name lookup (C22) -/

theorem findByNameLoop_eq_find (a : NameAccessors) (compare : String → String → Int)
    (name : String) :
    ∀ l : List StarObject, findByNameLoop a compare name l = l.find? (nameMatches a compare name)
  | [] => rfl
  | o :: rest => by
    rw [findByNameLoop, List.find?_cons]
    cases hm : nameMatches a compare name o
    · simp only [Bool.false_eq_true, if_false]
      exact findByNameLoop_eq_find a compare name rest
    · simp only [if_true]

/-- C22: `findByName( name )` leaves the component as it was and returns the first record
of the object list, which is in load order, for which one of the four comparisons (name,
long name, second name, genitive name, each compared with `name` ignoring case) gives
equality: the object list splits around the record returned, with no match before it.
It returns null exactly when no record of the object list matches.  A record matches
exactly when one of its four names compares equal. -/
theorem findByName_first_match (a : NameAccessors) (compare : String → String → Int)
    (name : String) (st : StarComponent) :
    (findByName a compare name st).2 = st ∧
      (findByName a compare name st).1 = st.m_ObjectList.find? (nameMatches a compare name) ∧
      (∀ o, (findByName a compare name st).1 = some o ↔
        ∃ pre post, st.m_ObjectList = pre ++ o :: post ∧ nameMatches a compare name o = true ∧
          ∀ x ∈ pre, nameMatches a compare name x = false) ∧
      ((findByName a compare name st).1 = none ↔
        ∀ o ∈ st.m_ObjectList, nameMatches a compare name o = false) ∧
      (∀ o, nameMatches a compare name o = true ↔
        (compare (a.name o) name = 0 ∨ compare (a.longname o) name = 0 ∨
          compare (a.name2 o) name = 0 ∨ compare (a.gname o) name = 0)) := by
  have hfind : (findByName a compare name st).1 =
      st.m_ObjectList.find? (nameMatches a compare name) :=
    findByNameLoop_eq_find a compare name st.m_ObjectList
  refine ⟨rfl, hfind, ?_, ?_, ?_⟩
  · intro o
    rw [hfind, List.find?_eq_some]
    constructor
    · rintro ⟨hm, pre, post, hl, hpre⟩
      exact ⟨pre, post, hl, hm, fun x hx => by simpa using hpre x hx⟩
    · rintro ⟨pre, post, hl, hm, hpre⟩
      exact ⟨hm, pre, post, hl, fun x hx => by simp [hpre x hx]⟩
  · rw [hfind, List.find?_eq_none]
    constructor
    · intro h o ho
      simpa using h o ho
    · intro h o ho
      simp [h o ho]
  · intro o
    simp [nameMatches, or_assoc]

/-! ## Facts about the HD table -/

theorem hdEntries_append (a b : List StarObject) :
    hdEntries (a ++ b) = hdEntries b ++ hdEntries a := by
  simp [hdEntries]

theorem hdEntries_nil : hdEntries [] = [] := rfl

theorem hdEntries_singleton (x : StarObject) :
    hdEntries [x] = if x.hd ≠ 0 then [(x.hd, x)] else [] := by
  by_cases hx : x.hd = 0
  · simp [hdEntries, hx]
  · simp [hdEntries, hx]

theorem mem_hdEntries (stars : List StarObject) (e : Nat × StarObject) :
    e ∈ hdEntries stars ↔ e.2 ∈ stars ∧ e.2.hd ≠ 0 ∧ e.1 = e.2.hd := by
  obtain ⟨k, s⟩ := e
  simp only [hdEntries, List.mem_reverse, List.mem_map, List.mem_filter, decide_eq_true_eq,
    Prod.mk.injEq]
  constructor
  · rintro ⟨x, ⟨hx, hne⟩, rfl, rfl⟩
    exact ⟨hx, hne, rfl⟩
  · rintro ⟨hs, hne, hk⟩
    exact ⟨s, ⟨hs, hne⟩, hk.symm, rfl⟩

theorem registerStar_hd (h : LoadHelpers) (trixel : Trixel) (c : LoadCursor)
    (star : StarObject) (st st' : StarComponent)
    (hreg : registerStar h trixel c star st = some st') :
    st'.m_HDHash = hdEntries [star] ++ st.m_HDHash := by
  unfold registerStar at hreg
  dsimp only at hreg
  split at hreg
  · cases hreg
  · by_cases hz : star.hd = 0
    · simp only [hz, ne_eq, not_true_eq_false, if_false] at hreg
      have := Option.some.inj hreg
      subst this
      simp only [hdEntries, hz, ne_eq, not_true_eq_false, decide_False, List.filter_cons,
        Bool.false_eq_true, if_false, List.filter_nil, List.map_nil, List.reverse_nil,
        List.nil_append]
      split_ifs <;> rfl
    · simp only [hz, ne_eq, not_false_eq_true, if_true] at hreg
      have := Option.some.inj hreg
      subst this
      simp only [hdEntries, hz, ne_eq, not_false_eq_true, decide_True, List.filter_cons,
        if_true, List.filter_nil, List.map_cons, List.map_nil, List.reverse_cons,
        List.reverse_nil, List.nil_append, List.singleton_append]
      split_ifs <;> rfl

theorem loadTrixel_hd (h : LoadHelpers) (swap : Bool) (trixel : Trixel) :
    ∀ (n j : Nat) (c : LoadCursor) (st : StarComponent) (s' : LoadCursor × StarComponent),
      loadTrixel h swap trixel n j (c, st) = some s' →
      s'.2.m_HDHash = hdEntries (starsOfRun h swap trixel n j c).1 ++ st.m_HDHash ∧
        s'.1 = (starsOfRun h swap trixel n j c).2
  | 0, j, c, st, s', hrun => by
    rw [loadTrixel] at hrun
    cases hrun
    simp [starsOfRun, hdEntries_nil]
  | n + 1, j, c, st, s', hrun => by
    rw [loadTrixel, loadRecord] at hrun
    dsimp only at hrun
    cases hreg : registerStar h trixel
        { readRecord h swap trixel j c with nstars := (readRecord h swap trixel j c).nstars + 1 }
        (makeStar h (readRecord h swap trixel j c)) st with
    | none =>
      rw [hreg] at hrun
      cases hrun
    | some st1 =>
      rw [hreg] at hrun
      dsimp only at hrun
      have h1 := registerStar_hd h trixel _ _ st st1 hreg
      obtain ⟨h2, h3⟩ := loadTrixel_hd h swap trixel n (j + 1) _ st1 s' hrun
      refine ⟨?_, h3⟩
      rw [h2, h1]
      show _ = hdEntries ([makeStar h (readRecord h swap trixel j c)] ++ _) ++ _
      rw [hdEntries_append, List.append_assoc]

theorem loadTrixels_hd (h : LoadHelpers) (swap : Bool) (count : Nat → Nat) :
    ∀ (n i : Nat) (c : LoadCursor) (st : StarComponent) (s' : LoadCursor × StarComponent),
      loadTrixels h swap count n i (c, st) = some s' →
      s'.2.m_HDHash = hdEntries (starsOfRuns h swap count n i c).1.flatten ++ st.m_HDHash
  | 0, i, c, st, s', hrun => by
    rw [loadTrixels] at hrun
    cases hrun
    simp [starsOfRuns, hdEntries_nil]
  | n + 1, i, c, st, s', hrun => by
    rw [loadTrixels] at hrun
    cases h1 : loadTrixel h swap i (count i) 0 (c, st) with
    | none =>
      rw [h1] at hrun
      cases hrun
    | some s1 =>
      rw [h1] at hrun
      dsimp only at hrun
      obtain ⟨e1, e2⟩ := loadTrixel_hd h swap i (count i) 0 c st s1 h1
      obtain ⟨c1, st1⟩ := s1
      simp only at e1 e2
      subst e2
      have e3 := loadTrixels_hd h swap count n (i + 1) _ st1 s' hrun
      rw [e3, e1]
      show _ = hdEntries ((starsOfRun h swap i (count i) 0 c).1 ++ _) ++ _
      rw [hdEntries_append, List.append_assoc]

theorem loadHeader_hd (swap : Bool) (raw : Nat) (st : StarComponent) :
    (loadHeader swap raw st).m_HDHash = st.m_HDHash := by
  unfold loadHeader
  dsimp only
  split_ifs <;> rfl

/-- The table a successful load leaves: the entries of the stars created, latest first,
before the entries it had. -/
theorem loadStaticData_hd (h : LoadHelpers) (meshSize meshLevel : Nat)
    (data : CatalogFile) (names : NameFile) (buf : starData) (nbuf : starName)
    (st : StarComponent) (res : LoadResult) (hnot : st.starsLoaded = false)
    (hd : data.headerOk = true) (hn : names.headerOk = true)
    (hrun : loadStaticData h meshSize meshLevel (some data) (some names) buf nbuf st =
      some res) :
    res.comp.m_HDHash =
      hdEntries (loadedRuns h meshSize data names buf nbuf).flatten ++ st.m_HDHash := by
  unfold loadStaticData at hrun
  simp only [hnot, hd, hn, Bool.false_eq_true, if_false, Bool.true_eq_false] at hrun
  cases h1 : loadTrixels h data.byteSwap data.recordCount meshSize 0
      (startCursor data names buf nbuf,
        loadHeader data.byteSwap data.faintmag { st with m_skyMesh := ⟨st.m_reindexNum⟩ }) with
  | none =>
    have h1' := h1
    simp only [hnot] at h1'
    rw [h1'] at hrun
    cases hrun
  | some s1 =>
    have h1' := h1
    simp only [hnot] at h1'
    rw [h1'] at hrun
    have := Option.some.inj hrun
    subst this
    have e := loadTrixels_hd h data.byteSwap data.recordCount meshSize 0 _ _ s1 h1
    show s1.2.m_HDHash = _
    rw [e, loadHeader_hd]
    rfl

/-- Looking a loaded star's HD number up in the table finds the star loaded last under
that number. -/
theorem lookup_hdEntries (old : List (Nat × StarObject)) :
    ∀ (stars : List StarObject) (s : StarObject), s ∈ stars → s.hd ≠ 0 →
      ∃ pre s' post, stars = pre ++ s' :: post ∧ s'.hd = s.hd ∧ (∀ x ∈ post, x.hd ≠ s.hd) ∧
        (hdEntries stars ++ old).lookup s.hd = some s' := by
  intro stars
  induction stars using List.reverseRecOn with
  | nil => intro s hs; cases hs
  | append_singleton init x ih =>
    intro s hs hne
    rw [hdEntries_append]
    by_cases hx : x.hd = s.hd
    · refine ⟨init, x, [], rfl, hx, by simp, ?_⟩
      have hx0 : x.hd ≠ 0 := by rw [hx]; exact hne
      rw [hdEntries_singleton, if_pos hx0, hx]
      simp [List.lookup]
    · have hsi : s ∈ init := by
        rcases List.mem_append.mp hs with hm | hm
        · exact hm
        · rw [List.mem_singleton] at hm
          exact absurd (by rw [hm]) hx
      obtain ⟨pre, s', post, hl, hhd, hpost, hlook⟩ := ih s hsi hne
      refine ⟨pre, s', post ++ [x], by rw [hl]; simp, hhd, ?_, ?_⟩
      · intro y hy
        rcases List.mem_append.mp hy with hm | hm
        · exact hpost y hm
        · rw [List.mem_singleton] at hm
          rw [hm]
          exact hx
      · rw [hdEntries_singleton]
        by_cases hx0 : x.hd = 0
        · simpa [hx0] using hlook
        · have hne' : (s.hd == x.hd) = false := by
            simpa using Ne.symm hx
          rw [if_pos hx0]
          simpa [List.lookup, hne'] using hlook

theorem lookup_none_of_keys (k : Nat) :
    ∀ (l : List (Nat × StarObject)), (∀ e ∈ l, e.1 ≠ k) → l.lookup k = none
  | [], _ => rfl
  | (a, b) :: rest, h => by
    have ha : (k == a) = false := by
      simpa using Ne.symm (h (a, b) (List.mem_cons_self _ _))
    rw [List.lookup, ha]
    exact lookup_none_of_keys k rest (fun e he => h e (List.mem_cons_of_mem _ he))

/-! ## Cross-reference lookup round trip (C21) -/

/-- C21: a load whose files open with good headers, on a component not yet loaded whose
index covers the mesh, ends normally; the table `m_HDHash` it leaves is the table it had
preceded by one entry for each star created whose HD number is not 0, keyed by that
number, latest first, so that no star with HD number 0 is entered (and looking up 0 finds
nothing when the old table had no key 0).  For every star created with a non-zero HD
number, `findByHDIndex` of that number returns, whatever the deep tiers and the index
file hold and without changing `focusStar`, the star created last under that number,
which has that HD number and is in the object list. -/
theorem findByHDIndex_round_trip (h : LoadHelpers) (meshSize meshLevel : Nat)
    (data : CatalogFile) (names : NameFile) (buf : starData) (nbuf : starName)
    (st : StarComponent) (hnot : st.starsLoaded = false) (hd : data.headerOk = true)
    (hn : names.headerOk = true) (hsize : meshSize ≤ st.m_starIndex.length) :
    ∃ res stars,
      loadStaticData h meshSize meshLevel (some data) (some names) buf nbuf st = some res ∧
      stars = (loadedRuns h meshSize data names buf nbuf).flatten ∧
      res.comp.m_ObjectList = st.m_ObjectList ++ stars ∧
      res.comp.m_HDHash = hdEntries stars ++ st.m_HDHash ∧
      (∀ e ∈ hdEntries stars, e.1 ≠ 0 ∧ e.2.hd = e.1 ∧ e.2 ∈ stars) ∧
      ((∀ e ∈ st.m_HDHash, e.1 ≠ 0) → res.comp.m_HDHash.lookup 0 = none) ∧
      ∀ s ∈ stars, s.hd ≠ 0 →
        ∃ pre s' post, stars = pre ++ s' :: post ∧ s'.hd = s.hd ∧
          (∀ x ∈ post, x.hd ≠ s.hd) ∧ s' ∈ res.comp.m_ObjectList ∧
          ∀ (env : HDLookup) (stardata : starData) (focusStar : Option StarObject),
            findByHDIndex env s.hd stardata focusStar res.comp = (some s', focusStar) := by
  obtain ⟨res, hrun, _, _, hobj, _⟩ :=
    loadStaticData_spec h meshSize meshLevel data names buf nbuf st hnot hd hn hsize
  have hhash := loadStaticData_hd h meshSize meshLevel data names buf nbuf st res hnot hd hn hrun
  refine ⟨res, _, hrun, rfl, hobj, hhash, ?_, ?_, ?_⟩
  · intro e he
    obtain ⟨h1, h2, h3⟩ := (mem_hdEntries _ e).mp he
    exact ⟨by rw [h3]; exact h2, h3.symm, h1⟩
  · intro hold
    rw [hhash]
    apply lookup_none_of_keys
    intro e he
    rcases List.mem_append.mp he with hm | hm
    · obtain ⟨_, h2, h3⟩ := (mem_hdEntries _ e).mp hm
      rw [h3]
      exact h2
    · exact hold e hm
  · intro s hs hne
    obtain ⟨pre, s', post, hl, hhd, hpost, hlook⟩ :=
      lookup_hdEntries st.m_HDHash _ s hs hne
    refine ⟨pre, s', post, hl, hhd, hpost, ?_, ?_⟩
    · rw [hobj, hl]
      simp
    · intro env stardata focusStar
      unfold findByHDIndex
      rw [hhash, hlook]

theorem loadedRuns_hdFile :
    loadedRuns sampleHelpers 2 hdFile hdNames zeroRecord ⟨"", ""⟩ =
      [[(sampleInit recHDFaint).setNames "Faint" "alp",
        (sampleInit recHDBright).setNames "Bright" "bet",
        (sampleInit recBright).setNames "Plain" "gam"], []] := rfl

/-- C21 at the example file (two records with HD number 48915, then one with HD number
0), loaded into the component as constructed: the lookup of 48915 returns the second
record, the one loaded last under that number. -/
theorem findByHDIndex_round_trip_witness :
    emptyComponent.starsLoaded = false ∧ hdFile.headerOk = true ∧ hdNames.headerOk = true ∧
    2 ≤ emptyComponent.m_starIndex.length ∧
    (∃ res stars,
      loadStaticData sampleHelpers 2 3 (some hdFile) (some hdNames) zeroRecord ⟨"", ""⟩
        emptyComponent = some res ∧
      stars = (loadedRuns sampleHelpers 2 hdFile hdNames zeroRecord ⟨"", ""⟩).flatten ∧
      res.comp.m_ObjectList = emptyComponent.m_ObjectList ++ stars ∧
      res.comp.m_HDHash = hdEntries stars ++ emptyComponent.m_HDHash ∧
      (∀ e ∈ hdEntries stars, e.1 ≠ 0 ∧ e.2.hd = e.1 ∧ e.2 ∈ stars) ∧
      ((∀ e ∈ emptyComponent.m_HDHash, e.1 ≠ 0) → res.comp.m_HDHash.lookup 0 = none) ∧
      ∀ s ∈ stars, s.hd ≠ 0 →
        ∃ pre s' post, stars = pre ++ s' :: post ∧ s'.hd = s.hd ∧
          (∀ x ∈ post, x.hd ≠ s.hd) ∧ s' ∈ res.comp.m_ObjectList ∧
          ∀ (env : HDLookup) (stardata : starData) (focusStar : Option StarObject),
            findByHDIndex env s.hd stardata focusStar res.comp = (some s', focusStar)) ∧
    ∃ res,
      loadStaticData sampleHelpers 2 3 (some hdFile) (some hdNames) zeroRecord ⟨"", ""⟩
        emptyComponent = some res ∧
      findByHDIndex noDeepLookup 48915 zeroRecord none res.comp =
        (some ((sampleInit recHDBright).setNames "Bright" "bet"), none) ∧
      res.comp.m_HDHash.lookup 0 = none :=
  ⟨rfl, rfl, rfl, by decide,
    findByHDIndex_round_trip sampleHelpers 2 3 hdFile hdNames zeroRecord ⟨"", ""⟩
      emptyComponent rfl rfl rfl (by decide),
    by
      obtain ⟨res, stars, hrun, hstars, _, hhash, _, _, _⟩ :=
        findByHDIndex_round_trip sampleHelpers 2 3 hdFile hdNames zeroRecord ⟨"", ""⟩
          emptyComponent rfl rfl rfl (by decide)
      rw [hstars, loadedRuns_hdFile] at hhash
      have hF : ((sampleInit recHDFaint).setNames "Faint" "alp").hd = 48915 := rfl
      have hB : ((sampleInit recHDBright).setNames "Bright" "bet").hd = 48915 := rfl
      have hP : ((sampleInit recBright).setNames "Plain" "gam").hd = 0 := rfl
      have hh : res.comp.m_HDHash =
          [(48915, (sampleInit recHDBright).setNames "Bright" "bet"),
            (48915, (sampleInit recHDFaint).setNames "Faint" "alp")] := by
        rw [hhash]
        simp [hdEntries, hF, hB, hP, emptyComponent]
      refine ⟨res, hrun, ?_, ?_⟩
      · unfold findByHDIndex
        rw [hh]
        simp [List.lookup]
      · rw [hh]
        simp [List.lookup]⟩

/-! ## Facts about the label lists -/

theorem truncToInt_mono (x y : ℚ) (h : x ≤ y) : truncToInt x ≤ truncToInt y := by
  unfold truncToInt
  by_cases hx : 0 ≤ x
  · have hy : 0 ≤ y := le_trans hx h
    rw [if_pos hx, if_pos hy]
    exact Int.floor_mono h
  · rw [if_neg hx]
    by_cases hy : 0 ≤ y
    · rw [if_pos hy]
      have h1 : ⌈x⌉ ≤ 0 := Int.ceil_le.mpr (by exact_mod_cast le_of_lt (not_le.mp hx))
      have h2 : (0 : Int) ≤ ⌊y⌋ := Int.floor_nonneg.mpr hy
      exact le_trans h1 h2
    · rw [if_neg hy]
      exact Int.ceil_mono h

theorem labelBin_eq_clamp (M : Nat) (mag : ℚ) :
    labelBin M mag = (min (max (truncToInt (mag * 10)) 0) (M : Int)).toNat := by
  unfold labelBin
  dsimp only
  split_ifs <;> congr 1 <;> omega

theorem labelBin_le (M : Nat) (mag : ℚ) : labelBin M mag ≤ M := by
  rw [labelBin_eq_clamp]
  omega

theorem labelBin_mono (M : Nat) (x y : ℚ) (h : x ≤ y) : labelBin M x ≤ labelBin M y := by
  have ht : truncToInt (x * 10) ≤ truncToInt (y * 10) :=
    truncToInt_mono _ _ (by linarith)
  rw [labelBin_eq_clamp, labelBin_eq_clamp]
  omega

theorem newLabelLists_length (M : Nat) : (newLabelLists M).length = M + 1 := by
  simp [newLabelLists]

theorem newLabelLists_empty (M : Nat) : ∀ b ∈ newLabelLists M, b = [] := by
  intro b hb
  exact List.eq_of_mem_replicate hb

/-- On an array of `MAX_LINENUMBER_MAG + 1` lists `addLabel` stays inside the array and
appends the star to the list of its bin, leaving the other lists alone. -/
theorem addLabel_spec (M : Nat) (star : StarObject) (bins : List LabelList)
    (hlen : bins.length = M + 1) :
    ∃ bins', addLabel M star bins = some bins' ∧ bins'.length = M + 1 ∧
      ∀ i l, bins[i]? = some l →
        bins'[i]? = some (if i = labelBin M star.mag then l ++ [star] else l) := by
  have hlt : labelBin M star.mag < bins.length := by
    rw [hlen]
    exact Nat.lt_succ_of_le (labelBin_le M star.mag)
  refine ⟨bins.set (labelBin M star.mag) (bins[labelBin M star.mag] ++ [star]), ?_, ?_, ?_⟩
  · unfold addLabel
    simp only [List.getElem?_eq_getElem hlt]
  · rw [List.length_set, hlen]
  · intro i l hi
    by_cases hib : i = labelBin M star.mag
    · subst hib
      rw [List.getElem?_eq_getElem hlt] at hi
      rw [List.getElem?_set_self hlt, if_pos rfl, ← Option.some.inj hi]
    · rw [List.getElem?_set_ne (Ne.symm hib), if_neg hib]
      exact hi

/-- The calls of `addLabel` of a pass stay inside the array; each list ends up with the
stars of its bin appended, in call order. -/
theorem addLabels_spec (M : Nat) :
    ∀ (stars : List StarObject) (bins : List LabelList), bins.length = M + 1 →
      ∃ bins', addLabels M stars bins = some bins' ∧ bins'.length = M + 1 ∧
        ∀ i l, bins[i]? = some l →
          bins'[i]? = some (l ++ stars.filter (fun s => decide (labelBin M s.mag = i)))
  | [], bins, hlen => ⟨bins, rfl, hlen, by intro i l hi; simp [hi]⟩
  | star :: rest, bins, hlen => by
    obtain ⟨b1, hrun1, hlen1, hcell1⟩ := addLabel_spec M star bins hlen
    obtain ⟨b2, hrun2, hlen2, hcell2⟩ := addLabels_spec M rest b1 hlen1
    refine ⟨b2, ?_, hlen2, ?_⟩
    · rw [addLabels, hrun1]
      exact hrun2
    · intro i l hi
      rw [hcell2 i _ (hcell1 i l hi)]
      by_cases hib : i = labelBin M star.mag
      · have hb : labelBin M star.mag = i := hib.symm
        simp [List.filter_cons, hib]
      · have hb : ¬ labelBin M star.mag = i := fun h => hib h.symm
        simp [List.filter_cons, hib, hb]

/-- The loop of `drawLabels` over lists inside the array ends normally, leaves the lists
it visits empty and the other lists as they were. -/
theorem drawLabelsLoop_spec :
    ∀ (n i : Nat) (bins : List LabelList) (drawn : List StarObject), i + n ≤ bins.length →
      ∃ drawn' final, drawLabelsLoop n i bins drawn = some (drawn', final) ∧
        final.length = bins.length ∧
        (∀ j, i ≤ j → j < i + n → final[j]? = some []) ∧
        (∀ j, (j < i ∨ i + n ≤ j) → final[j]? = bins[j]?)
  | 0, i, bins, drawn, _ => ⟨drawn, bins, rfl, rfl, by intro j h1 h2; omega, fun _ _ => rfl⟩
  | n + 1, i, bins, drawn, h => by
    have hi : i < bins.length := by omega
    obtain ⟨drawn', final, hrun, hlen, hin, hout⟩ :=
      drawLabelsLoop_spec n (i + 1) (bins.set i []) (drawn ++ bins[i])
        (by rw [List.length_set]; omega)
    refine ⟨drawn', final, ?_, ?_, ?_, ?_⟩
    · rw [drawLabelsLoop]
      simp only [List.getElem?_eq_getElem hi]
      exact hrun
    · rw [hlen, List.length_set]
    · intro j h1 h2
      by_cases hj : j = i
      · subst hj
        rw [hout j (Or.inl (Nat.lt_succ_self j)), List.getElem?_set_self hi]
      · exact hin j (by omega) (by omega)
    · intro j hj
      have hne : i ≠ j := by omega
      rw [hout j (by omega), List.getElem?_set_ne hne]

/-- The stars the inner draw loop hands to `addLabel` passed the magnitude test against
`maglim`, with labels not hidden and magnitude within the label limit. -/
theorem drawStarList_labelled (o : DrawSettings) (cv os : StarObject → Bool) :
    ∀ (l : StarList) (acc : DrawPass) (s : StarObject),
      s ∈ (drawStarList o cv os l acc).labelled →
      s ∈ acc.labelled ∨ (s.mag ≤ o.maglim ∧ o.hideLabels = false ∧ s.mag ≤ o.labelMagLim)
  | [], acc, s, hs => Or.inl hs
  | none :: rest, acc, s, hs => by
    rw [drawStarList] at hs
    exact drawStarList_labelled o cv os rest acc s hs
  | some x :: rest, acc, s, hs => by
    rw [drawStarList] at hs
    by_cases hg : x.mag > o.maglim ∨ (o.hideFaintStars = true ∧ x.mag > o.hideStarsMag)
    · rw [if_pos hg] at hs
      exact Or.inl hs
    · rw [if_neg hg] at hs
      by_cases hcv : cv x = false
      · rw [if_pos hcv] at hs
        exact drawStarList_labelled o cv os rest acc s hs
      · rw [if_neg hcv] at hs
        by_cases hos : os x = false
        · rw [if_pos hos] at hs
          exact drawStarList_labelled o cv os rest acc s hs
        · rw [if_neg hos] at hs
          by_cases hl : o.hideLabels = true ∨ x.mag > o.labelMagLim
          · simp only [if_pos hl] at hs
            have hrec := drawStarList_labelled o cv os rest _ s hs
            exact hrec
          · simp only [if_neg hl] at hs
            rcases drawStarList_labelled o cv os rest _ s hs with hm | hm
            · rcases List.mem_append.mp hm with hm' | hm'
              · exact Or.inl hm'
              · rw [List.mem_singleton] at hm'
                subst hm'
                right
                refine ⟨not_lt.mp (fun h => hg (Or.inl h)), ?_, not_lt.mp (fun h => hl (Or.inr h))⟩
                cases hh : o.hideLabels
                · rfl
                · exact absurd (Or.inl hh) hl
            · exact Or.inr hm

theorem drawRegion_labelled (o : DrawSettings) (cv os : StarObject → Bool) (idx : StarIndex) :
    ∀ (region : List Trixel) (acc pass : DrawPass),
      drawRegion o cv os idx region acc = some pass → ∀ s ∈ pass.labelled,
      s ∈ acc.labelled ∨ (s.mag ≤ o.maglim ∧ o.hideLabels = false ∧ s.mag ≤ o.labelMagLim)
  | [], acc, pass, h, s, hs => by
    rw [drawRegion] at h
    cases h
    exact Or.inl hs
  | t :: rest, acc, pass, h, s, hs => by
    rw [drawRegion] at h
    cases ht : idx[t]? with
    | none =>
      rw [ht] at h
      cases h
    | some starList =>
      rw [ht] at h
      dsimp only at h
      rcases drawRegion_labelled o cv os idx rest _ pass h s hs with hm | hm
      · exact drawStarList_labelled o cv os starList acc s hm
      · exact Or.inr hm

/-- The bins of magnitude -1.5, of magnitude 1000 and of magnitude 3.79, with
`MAX_LINENUMBER_MAG` 90. -/
theorem labelBin_examples :
    labelBin 90 (-3 / 2) = 0 ∧ labelBin 90 1000 = 90 ∧ labelBin 90 (379 / 100) = 37 := by
  have hc : ⌈(-15 : ℚ)⌉ = -15 := by exact_mod_cast Int.ceil_intCast (-15)
  refine ⟨?_, ?_, ?_⟩
  · norm_num [labelBin, truncToInt, hc]
  · norm_num [labelBin, truncToInt]
    rfl
  · norm_num [labelBin, truncToInt]
    rfl

/-! ## Label bins stay in bounds and are drained (C30) -/

/-- C30: the bin `addLabel` computes is `int( mag * 10 )` clamped to
`0 .. MAX_LINENUMBER_MAG`, for every magnitude, hence an index of the label array the
constructor allocates, and `addLabel` on that array always stays inside it.  `draw`
stores in `m_zoomMagLimit` the limit its loop tests against.  For a draw pass over a
region within the index, with settings whose limit is the stored `m_zoomMagLimit`,
started with every label list empty: the pass and its `addLabel` calls end normally,
every labelled star has magnitude at most `m_zoomMagLimit` and lies in a bin not above
the bin of `m_zoomMagLimit`, each list holds exactly the labelled stars of its bin, and
the `drawLabels` call that follows ends normally and leaves every label list empty. -/
theorem labelLists_in_bounds_and_drained (M : Nat) (o : DrawSettings)
    (cv os : StarObject → Bool) (st : StarComponent) (region : List Trixel)
    (bins : List LabelList) (hz : o.maglim = st.m_zoomMagLimit)
    (hin : ∀ t ∈ region, t < st.m_starIndex.length)
    (hlen : bins.length = M + 1) (hempty : ∀ b ∈ bins, b = []) :
    (∀ mag : ℚ, labelBin M mag = (min (max (truncToInt (mag * 10)) 0) (M : Int)).toNat ∧
      labelBin M mag < (newLabelLists M).length) ∧
    (∀ (star : StarObject) (l : List LabelList), l.length = M + 1 →
      ∃ l', addLabel M star l = some l' ∧ l'.length = M + 1) ∧
    (∀ (log10 : ℚ → ℚ) (MINZOOM MAXZOOM : ℚ) (opts : Options) (d : DrawOptions)
        (st0 : StarComponent),
      (drawSetup log10 MINZOOM MAXZOOM opts d st0).2.maglim =
        (drawSetup log10 MINZOOM MAXZOOM opts d st0).1.m_zoomMagLimit) ∧
    ∃ pass bins' drawn final,
      drawRegion o cv os st.m_starIndex region {} = some pass ∧
      addLabels M pass.labelled bins = some bins' ∧
      (∀ s ∈ pass.labelled, s.mag ≤ st.m_zoomMagLimit ∧
        labelBin M s.mag ≤ labelBin M st.m_zoomMagLimit) ∧
      (∀ i l, bins'[i]? = some l →
        l = pass.labelled.filter (fun s => decide (labelBin M s.mag = i))) ∧
      drawLabels M o.hideLabels st.m_zoomMagLimit bins' = some (drawn, final) ∧
      final.length = M + 1 ∧ ∀ b ∈ final, b = [] := by
  refine ⟨fun mag => ⟨labelBin_eq_clamp M mag, ?_⟩, ?_, fun _ _ _ _ _ _ => rfl, ?_⟩
  · rw [newLabelLists_length]
    exact Nat.lt_succ_of_le (labelBin_le M mag)
  · intro star l hl
    obtain ⟨l', h1, h2, _⟩ := addLabel_spec M star l hl
    exact ⟨l', h1, h2⟩
  obtain ⟨pass, hpass, _⟩ := drawRegion_drawn o cv os st.m_starIndex region {} hin
  have hlab : ∀ s ∈ pass.labelled, s.mag ≤ o.maglim ∧ o.hideLabels = false := by
    intro s hs
    rcases drawRegion_labelled o cv os st.m_starIndex region {} pass hpass s hs with hm | hm
    · cases hm
    · exact ⟨hm.1, hm.2.1⟩
  obtain ⟨bins', hadd, hlen', hcell⟩ := addLabels_spec M pass.labelled bins hlen
  have hbins' : ∀ i l, bins'[i]? = some l →
      l = pass.labelled.filter (fun s => decide (labelBin M s.mag = i)) := by
    intro i l hi
    have hib : i < bins.length := by
      rw [hlen, ← hlen']
      by_contra hcon
      rw [List.getElem?_eq_none (not_lt.mp hcon)] at hi
      cases hi
    have h0 : bins[i]? = some [] := by
      rw [List.getElem?_eq_getElem hib]
      exact congrArg some (hempty _ (List.getElem_mem hib))
    have := hcell i [] h0
    rw [hi] at this
    simpa using Option.some.inj this
  have hbin : ∀ s ∈ pass.labelled, s.mag ≤ st.m_zoomMagLimit ∧
      labelBin M s.mag ≤ labelBin M st.m_zoomMagLimit := by
    intro s hs
    have hm : s.mag ≤ st.m_zoomMagLimit := by
      rw [← hz]
      exact (hlab s hs).1
    exact ⟨hm, labelBin_mono M _ _ hm⟩
  cases hh : o.hideLabels with
  | true =>
    have hnil : pass.labelled = [] := by
      rw [List.eq_nil_iff_forall_not_mem]
      intro s hs
      have := (hlab s hs).2
      rw [hh] at this
      cases this
    refine ⟨pass, bins', [], bins', hpass, hadd, hbin, hbins', ?_, hlen', ?_⟩
    · simp [drawLabels]
    · intro b hb
      obtain ⟨i, hi⟩ := List.mem_iff_getElem?.mp hb
      rw [hbins' i b hi, hnil]
      rfl
  | false =>
    have hmax : 0 + (labelBin M st.m_zoomMagLimit + 1) ≤ bins'.length := by
      rw [hlen']
      have := labelBin_le M st.m_zoomMagLimit
      omega
    obtain ⟨drawn, final, hrun, hlenf, hinr, hout⟩ :=
      drawLabelsLoop_spec (labelBin M st.m_zoomMagLimit + 1) 0 bins' [] hmax
    refine ⟨pass, bins', drawn, final, hpass, hadd, hbin, hbins', ?_, by rw [hlenf, hlen'], ?_⟩
    · simp only [drawLabels, Bool.false_eq_true, if_false]
      exact hrun
    · intro b hb
      obtain ⟨j, hj⟩ := List.mem_iff_getElem?.mp hb
      by_cases hjm : j < 0 + (labelBin M st.m_zoomMagLimit + 1)
      · rw [hinr j (Nat.zero_le j) hjm] at hj
        exact (Option.some.inj hj).symm
      · rw [hout j (Or.inr (not_lt.mp hjm))] at hj
        rw [hbins' j b hj, List.filter_eq_nil_iff]
        intro s hs
        have := (hbin s hs).2
        simp only [decide_eq_true_eq]
        omega

/-- C30 at the example state (zoom magnitude limit 4), drawn with labels shown into the
label array as constructed with `MAX_LINENUMBER_MAG` 90. -/
theorem labelLists_in_bounds_and_drained_witness :
    labelSettings.maglim = nearState.m_zoomMagLimit ∧
    (∀ t ∈ [0], t < nearState.m_starIndex.length) ∧
    (newLabelLists 90).length = 90 + 1 ∧ (∀ b ∈ newLabelLists 90, b = []) ∧
    ((∀ mag : ℚ, labelBin 90 mag = (min (max (truncToInt (mag * 10)) 0) ((90 : Nat) : Int)).toNat ∧
      labelBin 90 mag < (newLabelLists 90).length) ∧
    (∀ (star : StarObject) (l : List LabelList), l.length = 90 + 1 →
      ∃ l', addLabel 90 star l = some l' ∧ l'.length = 90 + 1) ∧
    (∀ (log10 : ℚ → ℚ) (MINZOOM MAXZOOM : ℚ) (opts : Options) (d : DrawOptions)
        (st0 : StarComponent),
      (drawSetup log10 MINZOOM MAXZOOM opts d st0).2.maglim =
        (drawSetup log10 MINZOOM MAXZOOM opts d st0).1.m_zoomMagLimit) ∧
    ∃ pass bins' drawn final,
      drawRegion labelSettings (fun _ => true) (fun _ => true) nearState.m_starIndex [0] {} =
        some pass ∧
      addLabels 90 pass.labelled (newLabelLists 90) = some bins' ∧
      (∀ s ∈ pass.labelled, s.mag ≤ nearState.m_zoomMagLimit ∧
        labelBin 90 s.mag ≤ labelBin 90 nearState.m_zoomMagLimit) ∧
      (∀ i l, bins'[i]? = some l →
        l = pass.labelled.filter (fun s => decide (labelBin 90 s.mag = i))) ∧
      drawLabels 90 labelSettings.hideLabels nearState.m_zoomMagLimit bins' =
        some (drawn, final) ∧
      final.length = 90 + 1 ∧ ∀ b ∈ final, b = []) :=
  ⟨rfl, by decide, newLabelLists_length 90, newLabelLists_empty 90,
    labelLists_in_bounds_and_drained 90 labelSettings (fun _ => true) (fun _ => true)
      nearState [0] (newLabelLists 90) rfl (by decide) (newLabelLists_length 90)
      (newLabelLists_empty 90)⟩

/-! ## Facts about the block cache -/

theorem runCalls_append (store : BlockStore) :
    ∀ (a b : List CacheCall) (c : BlockCache),
      runCalls store (a ++ b) c = runCalls store b (runCalls store a c)
  | [], _, _ => rfl
  | CacheCall.ensure trixel tier needed :: rest, b, c => by
    rw [List.cons_append, runCalls, runCalls, runCalls_append store rest b]
  | CacheCall.load trixel tier seq :: rest, b, c => by
    rw [List.cons_append, runCalls, runCalls, runCalls_append store rest b]

/-- A list followed by an initial part of -5, 8, 11 is strictly increasing exactly when
the list is and, if anything follows it, all of it lies below -5. -/
theorem pairwise_append_initial (old added : List ℚ) (h : added <+: [-5, 8, 11]) :
    (old ++ added).Pairwise (fun a b => a < b) ↔
      old.Pairwise (fun a b => a < b) ∧ (added = [] ∨ ∀ a ∈ old, a < -5) := by
  obtain ⟨t, ht⟩ := h
  rw [List.pairwise_append]
  rcases added with _ | ⟨a, _ | ⟨b, _ | ⟨c, _ | ⟨d, r⟩⟩⟩⟩
  · simp
  · simp only [List.cons_append, List.nil_append, List.cons.injEq] at ht
    obtain ⟨rfl, _⟩ := ht
    simp
  · simp only [List.cons_append, List.nil_append, List.cons.injEq] at ht
    obtain ⟨rfl, rfl, _⟩ := ht
    simp only [List.pairwise_cons, List.mem_singleton, forall_eq, List.not_mem_nil,
      IsEmpty.forall_iff, implies_true, List.Pairwise.nil, and_true, List.mem_cons,
      forall_eq_or_imp, reduceCtorEq, false_or]
    constructor
    · rintro ⟨h1, _, h3⟩
      exact ⟨h1, fun a ha => (h3 a ha).1⟩
    · rintro ⟨h1, h3⟩
      refine ⟨h1, by norm_num, fun a ha => ⟨h3 a ha, lt_trans (h3 a ha) (by norm_num)⟩⟩
  · simp only [List.cons_append, List.nil_append, List.cons.injEq] at ht
    obtain ⟨rfl, rfl, rfl, _⟩ := ht
    simp only [List.pairwise_cons, List.mem_singleton, forall_eq, List.not_mem_nil,
      IsEmpty.forall_iff, implies_true, List.Pairwise.nil, and_true, List.mem_cons,
      forall_eq_or_imp, reduceCtorEq, false_or]
    constructor
    · rintro ⟨h1, _, h3⟩
      exact ⟨h1, fun a ha => (h3 a ha).1⟩
    · rintro ⟨h1, h3⟩
      refine ⟨h1, by norm_num, fun a ha => ⟨h3 a ha, lt_trans (h3 a ha) (by norm_num),
        lt_trans (h3 a ha) (by norm_num)⟩⟩
  · simp at ht

theorem reindexAll_deep (indexStar : KSNumbers → StarObject → Trixel) (num : KSNumbers)
    (st st' : StarComponent) (h : reindexAll indexStar num st = some st') :
    st'.m_DeepStarComponents = st.m_DeepStarComponents := by
  unfold reindexAll at h
  dsimp only at h
  split at h
  · cases h
  · cases h
    rfl

theorem reindex_deep (indexStar : KSNumbers → StarObject → Trixel)
    (bandReindex : KSNumbers → HighPMStarList → StarIndex → HighPMStarList × StarIndex)
    (num : Option KSNumbers) (st st' : StarComponent)
    (h : (reindex indexStar bandReindex num st).1 = some st') :
    st'.m_DeepStarComponents = st.m_DeepStarComponents := by
  unfold reindex at h
  cases num with
  | none =>
    cases h
    rfl
  | some n =>
    dsimp only at h
    split_ifs at h
    · exact reindexAll_deep indexStar n st st' h
    · cases h
      rfl

theorem registerStar_deep (h : LoadHelpers) (trixel : Trixel) (c : LoadCursor)
    (star : StarObject) (st st' : StarComponent)
    (hreg : registerStar h trixel c star st = some st') :
    st'.m_DeepStarComponents = st.m_DeepStarComponents := by
  unfold registerStar at hreg
  dsimp only at hreg
  split at hreg
  · cases hreg
  · have := Option.some.inj hreg
    subst this
    split_ifs <;> rfl

theorem loadTrixel_deep (h : LoadHelpers) (swap : Bool) (trixel : Trixel) :
    ∀ (n j : Nat) (s s' : LoadCursor × StarComponent),
      loadTrixel h swap trixel n j s = some s' →
      s'.2.m_DeepStarComponents = s.2.m_DeepStarComponents
  | 0, j, s, s', hrun => by
    rw [loadTrixel] at hrun
    cases hrun
    rfl
  | n + 1, j, s, s', hrun => by
    rw [loadTrixel, loadRecord] at hrun
    cases hreg : registerStar h trixel
        { readRecord h swap trixel j s.1 with
          nstars := (readRecord h swap trixel j s.1).nstars + 1 }
        (makeStar h (readRecord h swap trixel j s.1)) s.2 with
    | none =>
      rw [hreg] at hrun
      cases hrun
    | some st1 =>
      rw [hreg] at hrun
      dsimp only at hrun
      rw [loadTrixel_deep h swap trixel n (j + 1) _ s' hrun]
      exact registerStar_deep h trixel _ _ s.2 st1 hreg

theorem loadTrixels_deep (h : LoadHelpers) (swap : Bool) (count : Nat → Nat) :
    ∀ (n i : Nat) (s s' : LoadCursor × StarComponent),
      loadTrixels h swap count n i s = some s' →
      s'.2.m_DeepStarComponents = s.2.m_DeepStarComponents
  | 0, i, s, s', hrun => by
    rw [loadTrixels] at hrun
    cases hrun
    rfl
  | n + 1, i, s, s', hrun => by
    rw [loadTrixels] at hrun
    cases h1 : loadTrixel h swap i (count i) 0 s with
    | none =>
      rw [h1] at hrun
      cases hrun
    | some s1 =>
      rw [h1] at hrun
      dsimp only at hrun
      rw [loadTrixels_deep h swap count n (i + 1) s1 s' hrun]
      exact loadTrixel_deep h swap i (count i) 0 s s1 h1

theorem loadHeader_deep (swap : Bool) (raw : Nat) (st : StarComponent) :
    (loadHeader swap raw st).m_DeepStarComponents = st.m_DeepStarComponents := by
  unfold loadHeader
  dsimp only
  split_ifs <;> rfl

/-- Loading the base catalog leaves the list of deep tiers as it was. -/
theorem loadStaticData_deep (h : LoadHelpers) (meshSize meshLevel : Nat)
    (dataFile : Option CatalogFile) (nameFile : Option NameFile) (buf : starData)
    (nbuf : starName) (st : StarComponent) (res : LoadResult)
    (hrun : loadStaticData h meshSize meshLevel dataFile nameFile buf nbuf st = some res) :
    res.comp.m_DeepStarComponents = st.m_DeepStarComponents := by
  unfold loadStaticData at hrun
  split_ifs at hrun
  · cases hrun
    rfl
  · dsimp only at hrun
    split at hrun
    · cases hrun
      rfl
    · split at hrun
      · cases hrun
        rfl
      · split_ifs at hrun
        · cases hrun
          rfl
        · cases hrun
          rfl
        · split at hrun
          · cases hrun
          · rename_i s hs
            cases hrun
            show s.2.m_DeepStarComponents = _
            rw [loadTrixels_deep h _ _ _ _ _ s hs, loadHeader_deep]
        · split at hrun
          · cases hrun
          · rename_i s hs
            cases hrun
            show s.2.m_DeepStarComponents = _
            rw [loadTrixels_deep h _ _ _ _ _ s hs, loadHeader_deep]

/-- C20: `loadDeepStarCatalogs` is determined by which files exist.  Without
`unnamedstars.dat` it appends nothing and returns 0.  With it, it appends the tier of
`unnamedstars.dat` (trigger magnitude -5.0, static); then the tier of `tycho2.dat` if
that file exists, else the tier of `deepstars.dat` if that one exists (trigger magnitude
8.0), else it returns 1; then the tier of `USNO-NOMAD-1e8.dat` (trigger magnitude 11.0)
if that file exists, returning 3, else it returns 2.  No other member of the component
changes.  So the tiers appended are an initial part of -5, 8, 11, each with an existing
file, their number is the return value, and they are strictly increasing in trigger
magnitude.  The whole list is strictly increasing exactly when the list on entry is and,
if a tier is appended, lies wholly below -5; in particular when the list on entry is
empty, as it is when the constructor makes the only call.  `reindex` and
`loadStaticData` leave the list as it is. -/
theorem loadDeepStarCatalogs_ascending (testFileExists : String → Bool)
    (st : StarComponent) :
    (testFileExists "unnamedstars.dat" = false →
      loadDeepStarCatalogs testFileExists st = (0, st)) ∧
    (testFileExists "unnamedstars.dat" = true → testFileExists "tycho2.dat" = false →
      testFileExists "deepstars.dat" = false →
      loadDeepStarCatalogs testFileExists st =
        (1, { st with m_DeepStarComponents := st.m_DeepStarComponents ++ [tierUnnamed] })) ∧
    (testFileExists "unnamedstars.dat" = true → testFileExists "tycho2.dat" = true →
      testFileExists "USNO-NOMAD-1e8.dat" = false →
      loadDeepStarCatalogs testFileExists st =
        (2, { st with
          m_DeepStarComponents := st.m_DeepStarComponents ++ [tierUnnamed, tierTycho2] })) ∧
    (testFileExists "unnamedstars.dat" = true → testFileExists "tycho2.dat" = true →
      testFileExists "USNO-NOMAD-1e8.dat" = true →
      loadDeepStarCatalogs testFileExists st =
        (3, { st with
          m_DeepStarComponents :=
            st.m_DeepStarComponents ++ [tierUnnamed, tierTycho2, tierNomad] })) ∧
    (testFileExists "unnamedstars.dat" = true → testFileExists "tycho2.dat" = false →
      testFileExists "deepstars.dat" = true → testFileExists "USNO-NOMAD-1e8.dat" = false →
      loadDeepStarCatalogs testFileExists st =
        (2, { st with
          m_DeepStarComponents := st.m_DeepStarComponents ++ [tierUnnamed, tierDeepstars] })) ∧
    (testFileExists "unnamedstars.dat" = true → testFileExists "tycho2.dat" = false →
      testFileExists "deepstars.dat" = true → testFileExists "USNO-NOMAD-1e8.dat" = true →
      loadDeepStarCatalogs testFileExists st =
        (3, { st with
          m_DeepStarComponents :=
            st.m_DeepStarComponents ++ [tierUnnamed, tierDeepstars, tierNomad] })) ∧
    (∃ added : List DeepStarComponent,
      (loadDeepStarCatalogs testFileExists st).2.m_DeepStarComponents =
        st.m_DeepStarComponents ++ added ∧
      added.length = (loadDeepStarCatalogs testFileExists st).1 ∧
      (loadDeepStarCatalogs testFileExists st).1 ≤ 3 ∧
      added.map (fun d => d.trigMag) <+: [-5, 8, 11] ∧
      (added.map (fun d => d.trigMag)).Pairwise (fun a b => a < b) ∧
      added.map (fun d => d.fileName) <+:
        ["unnamedstars.dat",
          if testFileExists "tycho2.dat" then "tycho2.dat" else "deepstars.dat",
          "USNO-NOMAD-1e8.dat"] ∧
      (∀ d ∈ added, testFileExists d.fileName = true) ∧
      (((loadDeepStarCatalogs testFileExists st).2.m_DeepStarComponents.map
          (fun d => d.trigMag)).Pairwise (fun a b => a < b) ↔
        (st.m_DeepStarComponents.map (fun d => d.trigMag)).Pairwise (fun a b => a < b) ∧
          (added = [] ∨ ∀ d ∈ st.m_DeepStarComponents, d.trigMag < -5)) ∧
      (st.m_DeepStarComponents = [] →
        ((loadDeepStarCatalogs testFileExists st).2.m_DeepStarComponents.map
          (fun d => d.trigMag)).Pairwise (fun a b => a < b))) ∧
    (∀ (indexStar : KSNumbers → StarObject → Trixel)
        (bandReindex : KSNumbers → HighPMStarList → StarIndex → HighPMStarList × StarIndex)
        (num : Option KSNumbers) (st' : StarComponent),
      (reindex indexStar bandReindex num st).1 = some st' →
      st'.m_DeepStarComponents = st.m_DeepStarComponents) ∧
    (∀ (h : LoadHelpers) (meshSize meshLevel : Nat) (dataFile : Option CatalogFile)
        (nameFile : Option NameFile) (buf : starData) (nbuf : starName) (res : LoadResult),
      loadStaticData h meshSize meshLevel dataFile nameFile buf nbuf st = some res →
      res.comp.m_DeepStarComponents = st.m_DeepStarComponents) := by
  have key : ∃ added : List DeepStarComponent,
      (loadDeepStarCatalogs testFileExists st).2.m_DeepStarComponents =
        st.m_DeepStarComponents ++ added ∧
      added.length = (loadDeepStarCatalogs testFileExists st).1 ∧
      (loadDeepStarCatalogs testFileExists st).1 ≤ 3 ∧
      added.map (fun d => d.trigMag) <+: [-5, 8, 11] ∧
      (added.map (fun d => d.trigMag)).Pairwise (fun a b => a < b) ∧
      added.map (fun d => d.fileName) <+:
        ["unnamedstars.dat",
          if testFileExists "tycho2.dat" then "tycho2.dat" else "deepstars.dat",
          "USNO-NOMAD-1e8.dat"] ∧
      (∀ d ∈ added, testFileExists d.fileName = true) := by
    unfold loadDeepStarCatalogs addDeepStarCatalogIfExists
    cases h1 : testFileExists "unnamedstars.dat" <;>
      cases h2 : testFileExists "tycho2.dat" <;>
      cases h3 : testFileExists "deepstars.dat" <;>
      cases h4 : testFileExists "USNO-NOMAD-1e8.dat" <;>
      simp only [h1, h2, h3, h4, if_true, if_false, Bool.false_eq_true, Bool.true_eq_false,
        List.append_assoc, List.singleton_append] <;>
      first
        | exact ⟨[], by simp, rfl, by decide, by simp, by simp, by simp, by simp⟩
        | exact ⟨[{ fileName := "unnamedstars.dat", trigMag := -5, staticStars := true }],
            rfl, rfl, by decide, ⟨[8, 11], rfl⟩, by simp, ⟨[_, _], rfl⟩, by simp [h1]⟩
        | exact ⟨[{ fileName := "unnamedstars.dat", trigMag := -5, staticStars := true },
              { fileName := "tycho2.dat", trigMag := 8 }],
            rfl, rfl, by decide, ⟨[11], rfl⟩, by simp; norm_num, ⟨[_], rfl⟩,
            by simp [h1, h2]⟩
        | exact ⟨[{ fileName := "unnamedstars.dat", trigMag := -5, staticStars := true },
              { fileName := "deepstars.dat", trigMag := 8 }],
            rfl, rfl, by decide, ⟨[11], rfl⟩, by simp; norm_num, ⟨[_], rfl⟩,
            by simp [h1, h3]⟩
        | exact ⟨[{ fileName := "unnamedstars.dat", trigMag := -5, staticStars := true },
              { fileName := "tycho2.dat", trigMag := 8 },
              { fileName := "USNO-NOMAD-1e8.dat", trigMag := 11 }],
            rfl, rfl, by decide, ⟨[], rfl⟩, by simp; norm_num, ⟨[], rfl⟩,
            by simp [h1, h2, h4]⟩
        | exact ⟨[{ fileName := "unnamedstars.dat", trigMag := -5, staticStars := true },
              { fileName := "deepstars.dat", trigMag := 8 },
              { fileName := "USNO-NOMAD-1e8.dat", trigMag := 11 }],
            rfl, rfl, by decide, ⟨[], rfl⟩, by simp; norm_num, ⟨[], rfl⟩,
            by simp [h1, h3, h4]⟩
  obtain ⟨added, e1, e2, e3, e4, e5, e6, e7⟩ := key
  have hiff : ((loadDeepStarCatalogs testFileExists st).2.m_DeepStarComponents.map
        (fun d => d.trigMag)).Pairwise (fun a b => a < b) ↔
      (st.m_DeepStarComponents.map (fun d => d.trigMag)).Pairwise (fun a b => a < b) ∧
        (added = [] ∨ ∀ d ∈ st.m_DeepStarComponents, d.trigMag < -5) := by
    rw [e1, List.map_append, pairwise_append_initial _ _ e4]
    simp
  refine ⟨?_, ?_, ?_, ?_, ?_, ?_, ⟨added, e1, e2, e3, e4, e5, e6, e7, hiff, ?_⟩,
    fun indexStar bandReindex num st' h => reindex_deep indexStar bandReindex num st st' h,
    fun h meshSize meshLevel dataFile nameFile buf nbuf res hrun =>
      loadStaticData_deep h meshSize meshLevel dataFile nameFile buf nbuf st res hrun⟩
  · intro h1
    simp [loadDeepStarCatalogs, addDeepStarCatalogIfExists, h1]
  · intro h1 h2 h3
    simp [loadDeepStarCatalogs, addDeepStarCatalogIfExists, h1, h2, h3, tierUnnamed]
  · intro h1 h2 h4
    simp [loadDeepStarCatalogs, addDeepStarCatalogIfExists, h1, h2, h4, tierUnnamed,
      tierTycho2]
  · intro h1 h2 h4
    simp [loadDeepStarCatalogs, addDeepStarCatalogIfExists, h1, h2, h4, tierUnnamed,
      tierTycho2, tierNomad]
  · intro h1 h2 h3 h4
    simp [loadDeepStarCatalogs, addDeepStarCatalogIfExists, h1, h2, h3, h4, tierUnnamed,
      tierDeepstars]
  · intro h1 h2 h3 h4
    simp [loadDeepStarCatalogs, addDeepStarCatalogIfExists, h1, h2, h3, h4, tierUnnamed,
      tierDeepstars, tierNomad]
  · intro hnil
    rw [e1, hnil, List.nil_append]
    exact e5

/-! ## The block cache: bound, eviction and refetch (C23) -/

end KStars
